import Mathlib

/-!
Verification of the webrender render backend core against its specification.

This file gives a shallow embedding of the two source files
`src/render_backend.rs` and `webrender_traits/src/display_list.rs` and proves
(or refutes) the specification claims about them.

Modelling conventions:
* `f32` coordinates are modelled as exact rationals (`ℚ`); the claims under
  study are about control flow, ordering and cap arithmetic, not rounding.
* Machine integers (`u16`, `u32`, `u8`) are modelled as `Nat`, with an explicit
  `% 65536` where the source casts to `u16`.
* `HashMap` values are modelled as insertion-ordered association lists; the
  observations used by the claims (`len`, `contains_key`, lookup, and the
  palette writes which are index-directed) do not depend on iteration order.
* The global atomic `BatchId::new()` counter is threaded explicitly, so ids
  are deterministic; claims only use their distinctness.
* Data types that live in the repository's `types.rs` / `internal_types.rs`
  modules (not present under `src/`) are modelled from the spec's data model
  section and from how `render_backend.rs` consumes them.
-/

namespace WR

/-- Exact dyadic rationals `num / 2^exp`.  `f32` values are dyadic, and every
arithmetic operation this backend performs on coordinates (addition,
subtraction, negation, multiplication — including the `* 0.5` splits — min,
max and comparisons) keeps dyadic values dyadic, so this models the float
computations exactly (no rounding, as with any exact embedding).
Representations are not normalized; value-level statements use `Dy.toRat`. -/
structure Dy where
  num : Int
  exp : Nat
deriving DecidableEq, Repr

namespace Dy

/-- The rational value of a dyadic. -/
def toRat (x : Dy) : ℚ := (x.num : ℚ) / ((2 : ℚ) ^ x.exp)

def ofInt (n : Int) : Dy := ⟨n, 0⟩

instance : OfNat Dy n := ⟨⟨Int.ofNat n, 0⟩⟩

def add (x y : Dy) : Dy :=
  ⟨x.num * 2 ^ (max x.exp y.exp - x.exp) +
   y.num * 2 ^ (max x.exp y.exp - y.exp), max x.exp y.exp⟩

def neg (x : Dy) : Dy := ⟨-x.num, x.exp⟩

def sub (x y : Dy) : Dy := add x (neg y)

def mul (x y : Dy) : Dy := ⟨x.num * y.num, x.exp + y.exp⟩

/-- `* 0.5` as the source writes it: the dyadic one half. -/
def onehalf : Dy := ⟨1, 1⟩

/-- A dyadic halved (the value of `mul x onehalf`). -/
def half (x : Dy) : Dy := ⟨x.num, x.exp + 1⟩

def dle (x y : Dy) : Prop := x.num * 2 ^ y.exp ≤ y.num * 2 ^ x.exp

def dlt (x y : Dy) : Prop := x.num * 2 ^ y.exp < y.num * 2 ^ x.exp

instance : Add Dy := ⟨add⟩

instance : Neg Dy := ⟨neg⟩

instance : Sub Dy := ⟨sub⟩

instance : Mul Dy := ⟨mul⟩

instance : LE Dy := ⟨dle⟩

instance : LT Dy := ⟨dlt⟩

instance (x y : Dy) : Decidable (x ≤ y) :=
  inferInstanceAs (Decidable (x.num * 2 ^ y.exp ≤ y.num * 2 ^ x.exp))

instance (x y : Dy) : Decidable (x < y) :=
  inferInstanceAs (Decidable (x.num * 2 ^ y.exp < y.num * 2 ^ x.exp))

/-- Rust `f32::min`. -/
def dmin (x y : Dy) : Dy := if x ≤ y then x else y

/-- Rust `f32::max`. -/
def dmax (x y : Dy) : Dy := if x ≤ y then y else x

/-- `as u32` truncation of a non-negative float (negative values clamp to
zero). -/
def toU32 (x : Dy) : Nat := (Int.fdiv x.num (2 ^ x.exp)).toNat

/-- Value-level equality of dyadics (cross-multiplied, hence decidable by
integer arithmetic even where the representations differ). -/
def veq (x y : Dy) : Prop := x.num * 2 ^ y.exp = y.num * 2 ^ x.exp

instance (x y : Dy) : Decidable (veq x y) :=
  inferInstanceAs (Decidable (x.num * 2 ^ y.exp = y.num * 2 ^ x.exp))

end Dy

/-- euclid `Point2D<f32>`, an external collaborator crate. -/
structure Pnt where
  x : Dy
  y : Dy
deriving DecidableEq, Repr

/-- euclid `Size2D<f32>`. -/
structure Siz where
  width : Dy
  height : Dy
deriving DecidableEq, Repr

/-- euclid `Rect<f32>`: an origin and a size. -/
structure Rct where
  origin : Pnt
  size : Siz
deriving DecidableEq, Repr

def Pnt.add (a b : Pnt) : Pnt := ⟨a.x + b.x, a.y + b.y⟩

def Pnt.neg (a : Pnt) : Pnt := ⟨-a.x, -a.y⟩

def Pnt.zero : Pnt := ⟨0, 0⟩

def Rct.mk4 (x y w h : Dy) : Rct := ⟨⟨x, y⟩, ⟨w, h⟩⟩

def Rct.max_x (r : Rct) : Dy := r.origin.x + r.size.width

def Rct.max_y (r : Rct) : Dy := r.origin.y + r.size.height

/-- euclid `Rect::intersects`: strict inequalities, so touching edges do not
count as intersecting. -/
def Rct.intersects (a b : Rct) : Prop :=
  a.origin.x < b.origin.x + b.size.width ∧
  b.origin.x < a.origin.x + a.size.width ∧
  a.origin.y < b.origin.y + b.size.height ∧
  b.origin.y < a.origin.y + a.size.height

instance (a b : Rct) : Decidable (a.intersects b) := by
  unfold Rct.intersects; infer_instance

/-- euclid `Rect::intersection`: `None` when `intersects` fails, otherwise the
rectangle spanned by the componentwise max origin and min far corner. -/
def Rct.intersection (a b : Rct) : Option Rct :=
  if a.intersects b then
    let ox := Dy.dmax a.origin.x b.origin.x
    let oy := Dy.dmax a.origin.y b.origin.y
    some ⟨⟨ox, oy⟩, ⟨Dy.dmin a.max_x b.max_x - ox, Dy.dmin a.max_y b.max_y - oy⟩⟩
  else
    none

/-- euclid `Rect::translate`. -/
def Rct.translate (r : Rct) (p : Pnt) : Rct :=
  ⟨⟨r.origin.x + p.x, r.origin.y + p.y⟩, r.size⟩

/-- Rectangle containment, used to state the spatial-index well-formedness the
cull claim relies on (every child rectangle inside its parent's). -/
def Rct.containedIn (r R : Rct) : Prop :=
  R.origin.x ≤ r.origin.x ∧ r.max_x ≤ R.max_x ∧
  R.origin.y ≤ r.origin.y ∧ r.max_y ≤ R.max_y

instance (r R : Rct) : Decidable (r.containedIn R) := by
  unfold Rct.containedIn; infer_instance

/-- euclid `Matrix4` (row-vector convention, translation components in the
fourth row).  The backend only ever builds translations from the identity, so
the claims depend only on `identity`, `translate` and `transform_point`. -/
structure Matrix4 where
  m11 : Dy
  m12 : Dy
  m13 : Dy
  m14 : Dy
  m21 : Dy
  m22 : Dy
  m23 : Dy
  m24 : Dy
  m31 : Dy
  m32 : Dy
  m33 : Dy
  m34 : Dy
  m41 : Dy
  m42 : Dy
  m43 : Dy
  m44 : Dy
deriving DecidableEq, Repr

def Matrix4.identity : Matrix4 :=
  ⟨1, 0, 0, 0, 0, 1, 0, 0, 0, 0, 1, 0, 0, 0, 0, 1⟩

/-- euclid `Matrix4::translate(x, y, z)`: composes `self` with a translation;
only the fourth row changes. -/
def Matrix4.translate (m : Matrix4) (x y z : Dy) : Matrix4 :=
  { m with
    m41 := m.m41 + x * m.m11 + y * m.m21 + z * m.m31,
    m42 := m.m42 + x * m.m12 + y * m.m22 + z * m.m32,
    m43 := m.m43 + x * m.m13 + y * m.m23 + z * m.m33 }

/-- euclid `Matrix4::transform_point` for the affine matrices the backend
builds. -/
def Matrix4.transform_point (m : Matrix4) (p : Pnt) : Pnt :=
  ⟨p.x * m.m11 + p.y * m.m21 + m.m41, p.x * m.m12 + p.y * m.m22 + m.m42⟩

/-- euclid `Rect` transform under the translation matrices the flattener
constructs: the origin moves, the size is kept. -/
def Matrix4.transform_rect (m : Matrix4) (r : Rct) : Rct :=
  ⟨m.transform_point r.origin, r.size⟩

/-- `app_units::Au`: a fixed-point length, 60 app units per pixel. -/
abbrev Au := Int

/-- `Au::from_px`: 60 app units per px. -/
def Au.from_px (px : Int) : Au := px * 60

/-- `types::ColorF`.  Modelled from the spec: `types.rs` is not under `src/`;
the backend reads the four float channels. -/
structure ColorF where
  r : Dy
  g : Dy
  b : Dy
  a : Dy
deriving DecidableEq, Repr

end WR

/-! ## The `webrender_traits` display-list builder (`display_list.rs`) -/

namespace WT

/-- `webrender_traits` `FontKey` (opaque identifier). -/
abbrev FontKey := Nat

/-- `webrender_traits` `GlyphInstance`. -/
structure GlyphInstance where
  index : Nat
  x : WR.Dy
  y : WR.Dy
deriving DecidableEq, Repr

/-- `webrender_traits` `ItemRange`: a half-open window into a backing list. -/
structure ItemRange where
  start : Nat
  length : Nat
deriving DecidableEq, Repr

/-- `ItemRange::new`: appends `items` to the backing list and returns the
range they occupy. -/
def ItemRange.new (backing : List α) (items : List α) : ItemRange × List α :=
  (⟨backing.length, items.length⟩, backing ++ items)

/-- `webrender_traits` `ClipRegion` (logical shape only; the claims never
inspect it). -/
structure ClipRegion where
  main : WR.Rct
  complex : ItemRange
deriving DecidableEq, Repr

/-- `webrender_traits` `TextDisplayItem`. -/
structure TextDisplayItem where
  color : WR.ColorF
  glyphs : ItemRange
  font_key : FontKey
  size : WR.Au
  blur_radius : WR.Au
deriving DecidableEq, Repr

/-- `webrender_traits` `RectangleDisplayItem`. -/
structure RectangleDisplayItem where
  color : WR.ColorF
deriving DecidableEq, Repr

/-- `webrender_traits` `SpecificDisplayItem` (the variants exercised by the
claims; the remaining variants are handled identically by the builder:
construct the payload and push one item). -/
inductive SpecificDisplayItem where
  | Rectangle (item : RectangleDisplayItem)
  | Text (item : TextDisplayItem)
deriving DecidableEq, Repr

/-- `webrender_traits` `DisplayItem`. -/
structure DisplayItem where
  item : SpecificDisplayItem
  rect : WR.Rct
  clip : ClipRegion
deriving DecidableEq, Repr

/-- `AuxiliaryListsBuilder`.  Only the glyph-instance backing list is relevant
to `push_text`; the gradient-stop, complex-clip and filter lists are never
touched by it and are omitted. -/
structure AuxiliaryListsBuilder where
  glyph_instances : List GlyphInstance
deriving DecidableEq, Repr

/-- `AuxiliaryListsBuilder::add_glyph_instances`. -/
def AuxiliaryListsBuilder.add_glyph_instances (b : AuxiliaryListsBuilder)
    (glyphs : List GlyphInstance) : ItemRange × AuxiliaryListsBuilder :=
  let (range, backing) := ItemRange.new b.glyph_instances glyphs
  (range, ⟨backing⟩)

/-- `DisplayListMode` of the traits crate. -/
inductive DisplayListMode where
  | Default
  | PseudoFloat
  | PseudoPositionedContent
deriving DecidableEq, Repr

/-- `DisplayListBuilder` (the `list` of items plus the auxiliary-lists
builder). -/
structure DisplayListBuilder where
  mode : DisplayListMode
  list : List DisplayItem
  auxiliary_lists_builder : AuxiliaryListsBuilder
deriving DecidableEq, Repr

/-- `DisplayListBuilder::push_text`: drops the item entirely when the font
size reaches `Au::from_px(4096)`, otherwise records the glyphs in the
auxiliary list and appends one `Text` display item. -/
def DisplayListBuilder.push_text (b : DisplayListBuilder) (rect : WR.Rct)
    (clip : ClipRegion) (glyphs : List GlyphInstance) (font_key : FontKey)
    (color : WR.ColorF) (size : WR.Au) (blur_radius : WR.Au) :
    DisplayListBuilder :=
  if size < WR.Au.from_px 4096 then
    let (range, aux) := b.auxiliary_lists_builder.add_glyph_instances glyphs
    { b with
      list := b.list ++
        [{ item := SpecificDisplayItem.Text
             { color := color, glyphs := range, font_key := font_key,
               size := size, blur_radius := blur_radius },
           rect := rect, clip := clip }],
      auxiliary_lists_builder := aux }
  else
    b

end WT

/-! ## The render backend (`src/render_backend.rs`) -/

namespace WR

/-- Insertion-ordered association-list model of the backend's
`HashMap` (observations: lookup, contains, length). -/
def lookupA (l : List (Nat × α)) (k : Nat) : Option α :=
  match l with
  | [] => none
  | (k2, v) :: rest => if k2 = k then some v else lookupA rest k

def containsA (l : List (Nat × α)) (k : Nat) : Bool :=
  (lookupA l k).isSome

/-- `HashMap::remove`: drops the entry, returning its value when present. -/
def removeA (l : List (Nat × α)) (k : Nat) : Option α × List (Nat × α) :=
  match l with
  | [] => (none, [])
  | (k2, v) :: rest =>
    if k2 = k then (some v, rest)
    else
      let (r, rest2) := removeA rest k
      (r, (k2, v) :: rest2)

/-- `u32` truncation of an `f32` (used for render-target sizes and composite
rects; negative values clamp to zero as in Rust `as u32`). -/
def qToU32 (q : Dy) : Nat := q.toU32

/-- `const MAX_MATRICES_PER_BATCH: usize = 32`. -/
def MAX_MATRICES_PER_BATCH : Nat := 32

/-- `static MAX_RECT`: the "no clip" sentinel rectangle. -/
def MAX_RECT : Rct := Rct.mk4 (-1000) (-1000) 10000 10000

/-- `DisplayItemKey { draw_list_index, item_index }`; both are `u32` newtypes
in the source. -/
structure DisplayItemKey where
  draw_list_index : Nat
  item_index : Nat
deriving DecidableEq, Repr

/-- The lexicographic order on `DisplayItemKey` used by the frame assembler's
sort (compare `draw_list_index`, then `item_index`). -/
def keyLt (a b : DisplayItemKey) : Prop :=
  a.draw_list_index < b.draw_list_index ∨
    (a.draw_list_index = b.draw_list_index ∧ a.item_index < b.item_index)

instance (a b : DisplayItemKey) : Decidable (keyLt a b) := by
  unfold keyLt; infer_instance

def keyLe (a b : DisplayItemKey) : Prop := keyLt a b ∨ a = b

instance (a b : DisplayItemKey) : Decidable (keyLe a b) := by
  unfold keyLe; infer_instance

/-- Boolean comparator for the stable sort in the frame assembler. -/
def keyLeB (a b : DisplayItemKey) : Bool := decide (keyLe a b)

/-- `types::MixBlendMode`.  Modelled from the spec ('types.rs' is not under
'src/'); the backend matches on exactly these sixteen variants. -/
inductive MixBlendMode where
  | Normal
  | Multiply
  | Screen
  | Overlay
  | Darken
  | Lighten
  | ColorDodge
  | ColorBurn
  | HardLight
  | SoftLight
  | Difference
  | Exclusion
  | Hue
  | Saturation
  | Color
  | Luminosity
deriving DecidableEq, Repr

/-- `types::ClipRegion`: a main rectangle plus complex rounded regions (the
backend itself only reads `main` and builds empty `complex` lists, so the
complex entries are kept as bare rectangles). -/
structure ClipRegion where
  main : Rct
  complex : List Rct
deriving DecidableEq, Repr

/-- `types::RectangleDisplayItem`. -/
structure RectangleDisplayItem where
  color : ColorF
deriving DecidableEq, Repr

/-- `types::CompositeDisplayItem` (offscreen texture plus blend mode). -/
structure CompositeDisplayItem where
  blend_mode : MixBlendMode
  texture_id : Nat
deriving DecidableEq, Repr

/-- `types::PipelineId` (two `u32`s). -/
structure PipelineId where
  a : Nat
  b : Nat
deriving DecidableEq, Repr

/-- `internal_types::WorkVertex`.  Modelled from the spec: position, color,
color-texture UV and mask UV. -/
structure WorkVertex where
  x : Dy
  y : Dy
  color : ColorF
  u : Dy
  v : Dy
  mu : Dy
  mv : Dy
deriving DecidableEq, Repr

def WorkVertex.default : WorkVertex := ⟨0, 0, ⟨0, 0, 0, 0⟩, 0, 0, 0, 0⟩

/-- `internal_types::PackedVertex`.  Modelled from the spec: device-ratio
scaled position plus the per-batch matrix palette index. -/
structure PackedVertex where
  x : Dy
  y : Dy
  color : ColorF
  u : Dy
  v : Dy
  mu : Dy
  mv : Dy
  matrix_index : Nat
deriving DecidableEq, Repr

/-- `PackedVertex::new`: coordinates are multiplied by the device pixel ratio
at pack time (spec section 6, numeric semantics). -/
def PackedVertex.pack (v : WorkVertex) (device_pixel_ratio : Dy)
    (matrix_index : Nat) : PackedVertex :=
  ⟨v.x * device_pixel_ratio, v.y * device_pixel_ratio, v.color,
    v.u, v.v, v.mu, v.mv, matrix_index⟩

/-- `Primitive`. -/
inductive Primitive where
  | Rectangles
  | TriangleFan
  | Glyphs
deriving DecidableEq, Repr

/-- `DrawRenderItem`. -/
structure DrawRenderItem where
  color_texture_id : Nat
  mask_texture_id : Nat
  first_vertex : Nat
  vertex_count : Nat
  primitive : Primitive
deriving DecidableEq, Repr

/-- `CompositeRenderItem` (the rect is a `Rect<u32>` in the source). -/
structure CompositeRenderItem where
  blend_mode : MixBlendMode
  rect_x : Nat
  rect_y : Nat
  rect_w : Nat
  rect_h : Nat
  color_texture_id : Nat
deriving DecidableEq, Repr

/-- `RenderItemInfo`. -/
inductive RenderItemInfo where
  | Draw (info : DrawRenderItem)
  | Composite (info : CompositeRenderItem)
deriving DecidableEq, Repr

/-- `RenderItem`. -/
structure RenderItem where
  sort_key : DisplayItemKey
  info : RenderItemInfo
deriving DecidableEq, Repr

/-- `RenderBatch`.  `item_keys` is proof instrumentation only: it records the
sort key of every display item whose draw render items were added to the
batch, so the claims can speak about "the batch containing item A"; the
source tracks the same information implicitly through the vertex ranges. -/
structure RenderBatch where
  batch_id : Nat
  sort_key : DisplayItemKey
  program_id : Nat
  color_texture_id : Nat
  mask_texture_id : Nat
  vertices : List PackedVertex
  indices : List Nat
  matrix_map : List (Nat × Nat)
  item_keys : List DisplayItemKey
deriving DecidableEq, Repr

/-- `RenderBatch::new`. -/
def RenderBatch.new (batch_id : Nat) (sort_key : DisplayItemKey)
    (program_id color_texture_id mask_texture_id : Nat) : RenderBatch :=
  ⟨batch_id, sort_key, program_id, color_texture_id, mask_texture_id,
    [], [], [], []⟩

/-- `RenderBatch::can_add_to_batch`. -/
def RenderBatch.can_add_to_batch (b : RenderBatch) (item : DrawRenderItem)
    (key : DisplayItemKey) (program_id : Nat) : Bool :=
  let matrix_ok := decide (b.matrix_map.length < MAX_MATRICES_PER_BATCH) ||
                   containsA b.matrix_map key.draw_list_index
  decide (program_id = b.program_id) &&
    decide (item.color_texture_id = b.color_texture_id) &&
    decide (item.mask_texture_id = b.mask_texture_id) &&
    decide (b.vertices.length < 65535) &&
    matrix_ok

/-- The `u16` index stream for `Primitive::Rectangles` and
`Primitive::Glyphs`: the pattern 0,1,2,2,3,1 per group of four vertices
(`for i in (0..count).step_by(4)` in the source). -/
def quadIndices (index_offset : Nat) (vertex_count : Nat) : List Nat :=
  (List.range ((vertex_count + 3) / 4)).flatMap (fun q =>
    let base := (index_offset + 4 * q) % 65536
    [base, (base + 1) % 65536, (base + 2) % 65536,
     (base + 2) % 65536, (base + 3) % 65536, (base + 1) % 65536])

/-- The `u16` index stream for `Primitive::TriangleFan`: 0, i, i+1 for each
interior vertex (`for i in 1..count-1` in the source). -/
def fanIndices (index_offset : Nat) (vertex_count : Nat) : List Nat :=
  (List.range (vertex_count - 2)).flatMap (fun j =>
    [index_offset % 65536, (index_offset + j + 1) % 65536,
     (index_offset + j + 2) % 65536])

/-- `RenderBatch::add_draw_item`: assign (or reuse) the palette slot for the
item's draw-list index, emit indices for the primitive, and copy the item's
vertices out of the builder's work-vertex buffer, packing the matrix index. -/
def RenderBatch.add_draw_item (b : RenderBatch) (item : DrawRenderItem)
    (vertex_buffer : List WorkVertex) (key : DisplayItemKey)
    (device_pixel_ratio : Dy) : RenderBatch :=
  let next_matrix_index := b.matrix_map.length
  let mi_mm : Nat × List (Nat × Nat) :=
    match lookupA b.matrix_map key.draw_list_index with
    | some v => (v, b.matrix_map)
    | none => (next_matrix_index,
               b.matrix_map ++ [(key.draw_list_index, next_matrix_index)])
  let matrix_index := mi_mm.1
  let index_offset := b.vertices.length
  let new_indices :=
    match item.primitive with
    | Primitive.Rectangles => quadIndices index_offset item.vertex_count
    | Primitive.Glyphs => quadIndices index_offset item.vertex_count
    | Primitive.TriangleFan => fanIndices index_offset item.vertex_count
  let new_vertices := (List.range item.vertex_count).map (fun i =>
    PackedVertex.pack (vertex_buffer.getD (item.first_vertex + i)
      WorkVertex.default) device_pixel_ratio matrix_index)
  { b with matrix_map := mi_mm.2,
           indices := b.indices ++ new_indices,
           vertices := b.vertices ++ new_vertices,
           item_keys := b.item_keys ++ [key] }

/-- `internal_types::CompositeInfo`. -/
structure CompositeInfo where
  blend_mode : MixBlendMode
  rect_x : Nat
  rect_y : Nat
  rect_w : Nat
  rect_h : Nat
  color_texture_id : Nat
deriving DecidableEq, Repr

/-- `internal_types::DrawCommandInfo`. -/
inductive DrawCommandInfo where
  | Batch (id : Nat)
  | Composite (info : CompositeInfo)
deriving DecidableEq, Repr

/-- `internal_types::DrawCommand`. -/
structure DrawCommand where
  render_target : Nat
  sort_key : DisplayItemKey
  info : DrawCommandInfo
deriving DecidableEq, Repr

/-- `DrawCommandBuilder` (the `clip_buffers` scratch space of the external
clipper is not observable and is omitted). -/
structure DrawCommandBuilder where
  quad_program_id : Nat
  glyph_program_id : Nat
  device_pixel_ratio : Dy
  render_target_index : Nat
  render_items : List RenderItem
  vertex_buffer : List WorkVertex
deriving DecidableEq, Repr

def DrawCommandBuilder.new (quad_program_id glyph_program_id : Nat)
    (device_pixel_ratio : Dy) (render_target_index : Nat) :
    DrawCommandBuilder :=
  ⟨quad_program_id, glyph_program_id, device_pixel_ratio,
    render_target_index, [], []⟩

/-- Program selection in `DrawCommandBuilder::finalize`. -/
def DrawCommandBuilder.programFor (b : DrawCommandBuilder)
    (prim : Primitive) : Nat :=
  match prim with
  | Primitive.Rectangles => b.quad_program_id
  | Primitive.TriangleFan => b.quad_program_id
  | Primitive.Glyphs => b.glyph_program_id

/-- Accumulator of `DrawCommandBuilder::finalize`; `next_batch_id` threads the
global `BatchId::new()` counter. -/
structure FinalizeAcc where
  current_batch : Option RenderBatch
  draw_commands : List DrawCommand
  batches : List RenderBatch
  next_batch_id : Nat
deriving DecidableEq, Repr

/-- Flush the pending batch: emit its `Batch` draw command and retire it. -/
def flushCurrent (render_target_index : Nat) (acc : FinalizeAcc) :
    FinalizeAcc :=
  match acc.current_batch with
  | none => acc
  | some cb =>
    { acc with
      current_batch := none,
      draw_commands := acc.draw_commands ++
        [⟨render_target_index, cb.sort_key, DrawCommandInfo.Batch cb.batch_id⟩],
      batches := acc.batches ++ [cb] }

/-- One step of the `finalize` loop over `render_items`. -/
def finalizeStep (b : DrawCommandBuilder) (acc : FinalizeAcc)
    (item : RenderItem) : FinalizeAcc :=
  match item.info with
  | RenderItemInfo.Draw info =>
    let program_id := b.programFor info.primitive
    let need_new_batch :=
      match acc.current_batch with
      | none => true
      | some cb => !(cb.can_add_to_batch info item.sort_key program_id)
    if need_new_batch then
      let acc2 := flushCurrent b.render_target_index acc
      let nb := RenderBatch.new acc2.next_batch_id item.sort_key program_id
        info.color_texture_id info.mask_texture_id
      let nb := nb.add_draw_item info b.vertex_buffer item.sort_key
        b.device_pixel_ratio
      { acc2 with current_batch := some nb,
                  next_batch_id := acc2.next_batch_id + 1 }
    else
      match acc.current_batch with
      | some cb =>
        { acc with current_batch := some (cb.add_draw_item info
            b.vertex_buffer item.sort_key b.device_pixel_ratio) }
      | none => acc
  | RenderItemInfo.Composite info =>
    let acc2 := flushCurrent b.render_target_index acc
    { acc2 with draw_commands := acc2.draw_commands ++
        [⟨b.render_target_index, item.sort_key,
          DrawCommandInfo.Composite ⟨info.blend_mode, info.rect_x,
            info.rect_y, info.rect_w, info.rect_h,
            info.color_texture_id⟩⟩] }

/-- `DrawCommandBuilder::finalize`: convert the accumulated render items into
batches and draw commands, flushing the in-progress batch at the end. -/
def DrawCommandBuilder.finalize (b : DrawCommandBuilder)
    (next_batch_id : Nat) : (List RenderBatch × List DrawCommand) × Nat :=
  let acc0 : FinalizeAcc := ⟨none, [], [], next_batch_id⟩
  let acc := b.render_items.foldl (finalizeStep b) acc0
  let acc := flushCurrent b.render_target_index acc
  ((acc.batches, acc.draw_commands), acc.next_batch_id)

/-- The draw render items a display item's `add_*` method appends for one
clip region: the textures the batcher keys on plus the work vertices pushed
into the builder's buffer.  Every `add_*` method of `DrawCommandBuilder`
(text runs, images, gradients, shadows, borders) reduces to a finite list of
such groups, each tagged with the display item's own sort key. -/
structure DrawSpec where
  color_texture_id : Nat
  mask_texture_id : Nat
  primitive : Primitive
  vertices : List WorkVertex
deriving DecidableEq, Repr

/-- `types::SpecificDisplayItem`.  `Rectangle`, `Composite` and `Iframe` are
modelled concretely (their compile paths are self-contained); the variants
whose vertex generation goes through the external texture cache and font
machinery (`Text`, `Image`, `Gradient`, `BoxShadow`, `Border`) are modelled
by `Drawn`, carrying the draw render items their `add_*` method emits. -/
inductive SpecificDisplayItem where
  | Rectangle (item : RectangleDisplayItem)
  | Composite (item : CompositeDisplayItem)
  | Iframe (iframe : PipelineId)
  | Drawn (specs : List DrawSpec)
deriving DecidableEq, Repr

/-- `types::DisplayItem`: payload, rectangle, clip region, and the tile-node
reference filled in by the spatial index. -/
structure DisplayItem where
  item : SpecificDisplayItem
  rect : Rct
  clip : ClipRegion
  node_index : Option Nat
deriving DecidableEq, Repr

/-- `types::DrawList`: an ordered sequence of display items. -/
structure DrawList where
  items : List DisplayItem
deriving DecidableEq, Repr

def DrawList.new : DrawList := ⟨[]⟩

def DrawList.push (l : DrawList) (item : DisplayItem) : DrawList :=
  ⟨l.items ++ [item]⟩

def DrawList.item_count (l : DrawList) : Nat := l.items.length

/-- `DrawContext`. -/
structure DrawContext where
  render_target_index : Nat
  overflow : Rct
  device_pixel_ratio : Dy
  final_transform : Matrix4
deriving DecidableEq, Repr

/-- `FlatDrawList`. -/
structure FlatDrawList where
  id : Option Nat
  draw_context : DrawContext
  draw_list : DrawList
deriving DecidableEq, Repr

/-- `GetDisplayItemHelper::get_item` (out-of-range keys panic in the source;
the model returns a default never reached on the panic-free paths). -/
def defaultDisplayItem : DisplayItem :=
  ⟨SpecificDisplayItem.Drawn [], Rct.mk4 0 0 0 0, ⟨Rct.mk4 0 0 0 0, []⟩, none⟩

def defaultDrawContext : DrawContext :=
  ⟨0, Rct.mk4 0 0 0 0, 1, Matrix4.identity⟩

def getItem (flat : List FlatDrawList) (key : DisplayItemKey) : DisplayItem :=
  ((flat.getD key.draw_list_index
    ⟨none, defaultDrawContext, DrawList.new⟩).draw_list.items.getD
      key.item_index defaultDisplayItem)

def getDrawContext (flat : List FlatDrawList) (key : DisplayItemKey) :
    DrawContext :=
  (flat.getD key.draw_list_index
    ⟨none, defaultDrawContext, DrawList.new⟩).draw_context

/-- `DisplayItemIterator::next`, one step: advance the item index; when the
current list (other than the final one) is exhausted, move to item 0 of the
next list. -/
def iterNext (flat : List FlatDrawList) (last : DisplayItemKey)
    (current : DisplayItemKey) : DisplayItemKey :=
  let c2 : DisplayItemKey := ⟨current.draw_list_index, current.item_index + 1⟩
  if current.draw_list_index ≠ last.draw_list_index then
    let len := (flat.getD current.draw_list_index
      ⟨none, defaultDrawContext, DrawList.new⟩).draw_list.items.length
    if c2.item_index = len then ⟨current.draw_list_index + 1, 0⟩ else c2
  else c2

/-- The key stream of `DisplayItemIterator`, with fuel standing in for the
unbounded Rust loop (every lemma states the fuel it needs). -/
def iterKeys (flat : List FlatDrawList) (last : DisplayItemKey) :
    Nat → DisplayItemKey → List DisplayItemKey
  | 0, _ => []
  | fuel + 1, current =>
    if current = last then []
    else current :: iterKeys flat last fuel (iterNext flat last current)

/-- `DisplayItemIterator::new`: iterate from the first source item up to and
including the last one (the stored `last_key` is one past it). -/
def displayItemIteratorKeys (flat : List FlatDrawList) (fuel : Nat)
    (src_items : List DisplayItemKey) : List DisplayItemKey :=
  match src_items.head?, src_items.getLast? with
  | some first, some lastItem =>
    iterKeys flat ⟨lastItem.draw_list_index, lastItem.item_index + 1⟩
      fuel first
  | _, _ => []

/-! ### The AABB tree -/

/-- `AABBTreeNode` (the per-node `resource_list` is consumed only by the
asset scheduler, which no claim touches, and is omitted). -/
structure CompiledNode where
  batches : List RenderBatch
  commands : List DrawCommand
  matrix_maps : List (Nat × List (Nat × Nat))
deriving DecidableEq, Repr

def CompiledNode.new : CompiledNode := ⟨[], [], []⟩

structure AABBTreeNode where
  rect : Rct
  node_index : Nat
  children : Option Nat
  is_visible : Bool
  src_items : List DisplayItemKey
  compiled_node : Option CompiledNode
deriving DecidableEq, Repr

def AABBTreeNode.mkNew (rect : Rct) (node_index : Nat) : AABBTreeNode :=
  ⟨rect, node_index, none, false, [], none⟩

/-- `AABBTreeNode::append_item`. -/
def AABBTreeNode.append_item (n : AABBTreeNode) (draw_list_index item_index : Nat) :
    AABBTreeNode :=
  { n with src_items := n.src_items ++ [⟨draw_list_index, item_index⟩] }

structure AABBTree where
  nodes : List AABBTreeNode
  split_size : Dy
deriving DecidableEq, Repr

def AABBTree.new (split_size : Dy) : AABBTree := ⟨[], split_size⟩

/-- `AABBTree::init`. -/
def AABBTree.init (t : AABBTree) (scene_rect : Rct) : AABBTree :=
  { t with nodes := [AABBTreeNode.mkNew scene_rect 0] }

def defaultNode : AABBTreeNode := AABBTreeNode.mkNew (Rct.mk4 0 0 0 0) 0

/-- `AABBTree::node` (indexing panics in Rust when out of range; the model
returns a default node never reached on the panic-free paths). -/
def AABBTree.nodeD (t : AABBTree) (i : Nat) : AABBTreeNode :=
  t.nodes.getD i defaultNode

def AABBTree.setNode (t : AABBTree) (i : Nat) (n : AABBTreeNode) : AABBTree :=
  { t with nodes := t.nodes.set i n }

/-- `AABBTree::node_rects`. -/
def AABBTree.node_rects (t : AABBTree) : List Rct := t.nodes.map (·.rect)

/-- `AABBTree::split_if_needed`: a leaf whose width exceeds the split size
and strictly exceeds its height is halved along the width; otherwise a leaf
whose height exceeds the split size is halved along the height; other nodes
are left alone. -/
def AABBTree.split_if_needed (t : AABBTree) (node_index : Nat) : AABBTree :=
  if (t.nodeD node_index).children = none then
    let rect := (t.nodeD node_index).rect
    let child_rects : Option (Rct × Rct) :=
      if rect.size.width > t.split_size ∧ rect.size.width > rect.size.height
      then
        let new_width := rect.size.width * Dy.onehalf
        some (⟨rect.origin, ⟨new_width, rect.size.height⟩⟩,
              ⟨⟨rect.origin.x + new_width, rect.origin.y⟩,
               ⟨rect.size.width - new_width, rect.size.height⟩⟩)
      else if rect.size.height > t.split_size then
        let new_height := rect.size.height * Dy.onehalf
        some (⟨rect.origin, ⟨rect.size.width, new_height⟩⟩,
              ⟨⟨rect.origin.x, rect.origin.y + new_height⟩,
               ⟨rect.size.width, rect.size.height - new_height⟩⟩)
      else
        none
    match child_rects with
    | some (left_rect, right_rect) =>
      let child_node_index := t.nodes.length
      let t2 := { t with nodes := t.nodes ++
        [AABBTreeNode.mkNew left_rect child_node_index,
         AABBTreeNode.mkNew right_rect (child_node_index + 1)] }
      t2.setNode node_index
        { t2.nodeD node_index with children := some child_node_index }
    | none => t
  else t

/-- `AABBTree::find_best_node` with explicit fuel for the recursion (`none`
means the fuel ran out; every use states the fuel it needs).  Splits the
visited node on the way down, then: both children intersecting stores here,
exactly one intersecting descends, neither drops the insert. -/
def AABBTree.find_best_node (t : AABBTree) :
    Nat → Nat → Rct → Option (AABBTree × Option Nat)
  | 0, _, _ => none
  | fuel + 1, node_index, rect =>
    let t2 := t.split_if_needed node_index
    match (t2.nodeD node_index).children with
    | some child_node_index =>
      let left_node_index := child_node_index
      let right_node_index := child_node_index + 1
      let left_intersect := (t2.nodeD left_node_index).rect.intersects rect
      let right_intersect := (t2.nodeD right_node_index).rect.intersects rect
      if left_intersect ∧ right_intersect then
        some (t2, some node_index)
      else if left_intersect then
        t2.find_best_node fuel left_node_index rect
      else if right_intersect then
        t2.find_best_node fuel right_node_index rect
      else
        some (t2, none)
    | none => some (t2, some node_index)

/-- `AABBTree::insert`. -/
def AABBTree.insert (t : AABBTree) (fuel : Nat) (rect : Rct)
    (draw_list_index item_index : Nat) : Option (AABBTree × Option Nat) :=
  match t.find_best_node fuel 0 rect with
  | none => none
  | some (t2, none) => some (t2, none)
  | some (t2, some node_index) =>
    some (t2.setNode node_index
      ((t2.nodeD node_index).append_item draw_list_index item_index),
      some node_index)

/-- `AABBTree::check_node_visibility` (fuelled DFS; `cull` passes enough fuel
for every well-formed tree). -/
def AABBTree.check_node_visibility (t : AABBTree) :
    Nat → Nat → Rct → AABBTree
  | 0, _, _ => t
  | fuel + 1, node_index, rect =>
    if (t.nodeD node_index).rect.intersects rect then
      let t2 := t.setNode node_index
        { t.nodeD node_index with is_visible := true }
      match (t2.nodeD node_index).children with
      | some child_index =>
        let t3 := t2.check_node_visibility fuel child_index rect
        t3.check_node_visibility fuel (child_index + 1) rect
      | none => t2
    else t

/-- `AABBTree::cull`: clear all visibility flags, then mark the subtree of
nodes intersecting the viewport starting at the root. -/
def AABBTree.cull (t : AABBTree) (rect : Rct) : AABBTree :=
  let t2 : AABBTree :=
    { t with nodes := t.nodes.map (fun n => { n with is_visible := false }) }
  if t2.nodes.length > 0 then
    t2.check_node_visibility t2.nodes.length 0 rect
  else t2

/-! ### The scene and the per-tile compiler -/

/-- Update-or-append on the association list (the builder map keyed by render
target index). -/
def insertA (l : List (Nat × α)) (k : Nat) (v : α) : List (Nat × α) :=
  match l with
  | [] => [(k, v)]
  | (k2, v2) :: rest =>
    if k2 = k then (k2, v) :: rest else (k2, v2) :: insertA rest k v

/-- Modelled from the spec: the external `clipper` module
(`clip_rect_with_mode_and_to_region_pos_uv`).  An axis-aligned rectangle is
clipped against the clip rectangle; with no complex regions the result is the
plain intersection (one unmasked region), otherwise each complex rounded
region contributes at most one masked region (the masks live in the external
raster cache; the batcher only sees their texture id, which the dummy mask
stands in for here). -/
def clipRectToRegion (rect clip : Rct) (region : ClipRegion) : List Rct :=
  match rect.intersection clip with
  | none => []
  | some r =>
    match region.complex with
    | [] => [r]
    | complex => complex.filterMap (fun cr => r.intersection cr)

/-- A work-vertex quad for a rectangle (white color texture UVs and mask UVs
are irrelevant to the batcher and set to zero). -/
def rectQuad (r : Rct) (color : ColorF) : List WorkVertex :=
  [⟨r.origin.x, r.origin.y, color, 0, 0, 0, 0⟩,
   ⟨r.max_x, r.origin.y, color, 0, 0, 0, 0⟩,
   ⟨r.origin.x, r.max_y, color, 0, 0, 0, 0⟩,
   ⟨r.max_x, r.max_y, color, 0, 0, 0, 0⟩]

/-- `DrawCommandBuilder::add_rectangle` (via `add_axis_aligned_gradient`):
zero-sized rectangles are skipped, every clip region yields one
4-vertex `Rectangles` render item on the white color texture. -/
def DrawCommandBuilder.add_rectangle (b : DrawCommandBuilder)
    (sort_key : DisplayItemKey) (rect clip_rect : Rct)
    (clip_region : ClipRegion) (white_texture_id mask_texture_id : Nat)
    (color : ColorF) : DrawCommandBuilder :=
  if rect.size.width = 0 ∨ rect.size.height = 0 then b
  else
    (clipRectToRegion rect clip_rect clip_region).foldl (fun b r =>
      let render_item : RenderItem :=
        ⟨sort_key, RenderItemInfo.Draw
          ⟨white_texture_id, mask_texture_id, b.vertex_buffer.length, 4,
            Primitive.Rectangles⟩⟩
      { b with vertex_buffer := b.vertex_buffer ++ rectQuad r color,
               render_items := b.render_items ++ [render_item] }) b

/-- `DrawCommandBuilder::add_composite`. -/
def DrawCommandBuilder.add_composite (b : DrawCommandBuilder)
    (sort_key : DisplayItemKey) (draw_context : DrawContext) (rect : Rct)
    (texture_id : Nat) (blend_mode : MixBlendMode) : DrawCommandBuilder :=
  let origin := draw_context.final_transform.transform_point rect.origin
  { b with render_items := b.render_items ++
      [⟨sort_key, RenderItemInfo.Composite
        ⟨blend_mode, qToU32 origin.x, qToU32 origin.y,
          qToU32 rect.size.width, qToU32 rect.size.height, texture_id⟩⟩] }

/-- The common shape of the remaining `add_*` methods (`add_text`,
`add_image`, `add_gradient`, `add_box_shadow`, `add_border`): each emits a
finite list of draw render items tagged with the item's sort key, pushing the
corresponding work vertices. -/
def DrawCommandBuilder.add_drawn (b : DrawCommandBuilder)
    (sort_key : DisplayItemKey) (specs : List DrawSpec) :
    DrawCommandBuilder :=
  specs.foldl (fun b spec =>
    let render_item : RenderItem :=
      ⟨sort_key, RenderItemInfo.Draw
        ⟨spec.color_texture_id, spec.mask_texture_id,
          b.vertex_buffer.length, spec.vertices.length, spec.primitive⟩⟩
    { b with vertex_buffer := b.vertex_buffer ++ spec.vertices,
             render_items := b.render_items ++ [render_item] }) b

/-- The identifiers the compiler needs from the texture cache and shader
setup (white image, dummy mask, quad and glyph programs). -/
structure CompileEnv where
  white_texture_id : Nat
  mask_texture_id : Nat
  quad_program_id : Nat
  glyph_program_id : Nat
  device_pixel_ratio : Dy
deriving DecidableEq, Repr

/-- Accumulator of `AABBTreeNode::compile`: the per-render-target builder
map, the compiled output, and the threaded batch-id counter. -/
structure CompileAcc where
  builders : List (Nat × DrawCommandBuilder)
  compiled : CompiledNode
  next_batch_id : Nat
deriving DecidableEq, Repr

/-- One key of the `AABBTreeNode::compile` loop: items owned by this node are
dispatched into their render target's builder; items owned by an overlapping
other node finalize (flush) that render target's builder, which is the
mechanism preserving paint order across nodes that share item coverage. -/
def compileKeyStep (node_index : Nat) (flat : List FlatDrawList)
    (node_rects : List Rct) (env : CompileEnv) (acc : CompileAcc)
    (key : DisplayItemKey) : CompileAcc :=
  let display_item := getItem flat key
  let draw_context := getDrawContext flat key
  match display_item.node_index with
  | none => acc
  | some item_node_index =>
    if item_node_index = node_index then
      match display_item.clip.main.intersection draw_context.overflow with
      | none => acc
      | some clip_rect =>
        let builder :=
          match lookupA acc.builders draw_context.render_target_index with
          | some b => b
          | none => DrawCommandBuilder.new env.quad_program_id
              env.glyph_program_id env.device_pixel_ratio
              draw_context.render_target_index
        let builder :=
          match display_item.item with
          | SpecificDisplayItem.Rectangle info =>
            builder.add_rectangle key display_item.rect clip_rect
              display_item.clip env.white_texture_id env.mask_texture_id
              info.color
          | SpecificDisplayItem.Composite info =>
            builder.add_composite key draw_context display_item.rect
              info.texture_id info.blend_mode
          | SpecificDisplayItem.Iframe _ => builder
          | SpecificDisplayItem.Drawn specs => builder.add_drawn key specs
        { acc with builders :=
            insertA acc.builders draw_context.render_target_index builder }
    else
      let rect0 := node_rects.getD item_node_index (Rct.mk4 0 0 0 0)
      let rect1 := node_rects.getD node_index (Rct.mk4 0 0 0 0)
      if rect0.intersects rect1 then
        match removeA acc.builders draw_context.render_target_index with
        | (some builder, builders2) =>
          let r := builder.finalize acc.next_batch_id
          { builders := builders2,
            compiled := { acc.compiled with
              batches := acc.compiled.batches ++ r.1.1,
              commands := acc.compiled.commands ++ r.1.2 },
            next_batch_id := r.2 }
        | (none, _) => acc
      else acc

/-- `AABBTreeNode::compile`: iterate the key range spanned by this node's
`src_items`, then finalize every remaining builder. -/
def AABBTreeNode.compile (node : AABBTreeNode) (flat : List FlatDrawList)
    (node_rects : List Rct) (env : CompileEnv) (iter_fuel : Nat)
    (next_batch_id : Nat) : AABBTreeNode × Nat :=
  let keys := displayItemIteratorKeys flat iter_fuel node.src_items
  let acc0 : CompileAcc := ⟨[], CompiledNode.new, next_batch_id⟩
  let acc := keys.foldl (compileKeyStep node.node_index flat node_rects env)
    acc0
  let fin := acc.builders.foldl
    (fun (st : CompiledNode × Nat) (kb : Nat × DrawCommandBuilder) =>
      let r := kb.2.finalize st.2
      ({ st.1 with batches := st.1.batches ++ r.1.1,
                   commands := st.1.commands ++ r.1.2 }, r.2))
    (acc.compiled, acc.next_batch_id)
  ({ node with compiled_node := some fin.1 }, fin.2)

/-- `RenderTarget` (sizes are `u32` in the source). -/
structure RenderTarget where
  size_w : Nat
  size_h : Nat
  draw_list_indices : List Nat
  texture_id : Option Nat
deriving DecidableEq, Repr

def RenderTarget.mkNew (size_w size_h : Nat) (texture_id : Option Nat) :
    RenderTarget :=
  ⟨size_w, size_h, [], texture_id⟩

/-- `internal_types::BatchUpdateOp`. -/
inductive BatchUpdateOp where
  | Destroy
  | Create (vertices : List PackedVertex) (indices : List Nat)
      (program_id color_texture_id mask_texture_id : Nat)
  | UpdateUniforms (matrix_palette : List Matrix4)
deriving DecidableEq, Repr

/-- `internal_types::BatchUpdate`. -/
structure BatchUpdate where
  id : Nat
  op : BatchUpdateOp
deriving DecidableEq, Repr

/-- The texture-cache interface (external collaborator): an id allocator for
render targets plus the record of frees. -/
structure TextureCache where
  next_texture_id : Nat
  freed : List Nat
deriving DecidableEq, Repr

def TextureCache.allocate_render_target (c : TextureCache) :
    Nat × TextureCache :=
  (c.next_texture_id, { c with next_texture_id := c.next_texture_id + 1 })

def TextureCache.free_render_target (c : TextureCache) (id : Nat) :
    TextureCache :=
  { c with freed := c.freed ++ [id] }

/-- `Scene` (the worker pool is scheduling only and is omitted). -/
structure Scene where
  pipeline_epoch_map : List (PipelineId × Nat)
  aabb_tree : AABBTree
  flat_draw_lists : List FlatDrawList
  scroll_offset : Pnt
  render_targets : List RenderTarget
  render_target_stack : List Nat
  pending_updates : List BatchUpdate
deriving DecidableEq, Repr

def Scene.new : Scene :=
  ⟨[], AABBTree.new 512, [], Pnt.zero, [], [], []⟩

/-- `Scene::scroll`: accumulate the delta, then clamp each axis to be at
most zero. -/
def Scene.scroll (s : Scene) (delta : Pnt) : Scene :=
  let o : Pnt := ⟨s.scroll_offset.x + delta.x, s.scroll_offset.y + delta.y⟩
  { s with scroll_offset := ⟨Dy.dmin o.x 0, Dy.dmin o.y 0⟩ }

/-- `Scene::reset`: emit a `Destroy` for every batch of every compiled node,
free the render-target textures and clear the target list. -/
def Scene.reset (s : Scene) (cache : TextureCache) : Scene × TextureCache :=
  let destroys := s.aabb_tree.nodes.flatMap (fun n =>
    match n.compiled_node with
    | some cn => cn.batches.map (fun b =>
        BatchUpdate.mk b.batch_id BatchUpdateOp.Destroy)
    | none => [])
  let cache := s.render_targets.foldl (fun c rt =>
    match rt.texture_id with
    | some tid => c.free_render_target tid
    | none => c) cache
  ({ s with pipeline_epoch_map := [],
            pending_updates := s.pending_updates ++ destroys,
            render_targets := [] }, cache)

/-- `Scene::push_render_target`. -/
def Scene.push_render_target (s : Scene) (size_w size_h : Nat)
    (texture_id : Option Nat) : Scene :=
  let rt_index := s.render_targets.length
  { s with render_target_stack := s.render_target_stack ++ [rt_index],
           render_targets := s.render_targets ++
             [RenderTarget.mkNew size_w size_h texture_id] }

/-- `Scene::current_render_target` (`unwrap` on an empty stack panics in the
source; the model returns target 0, never reached on the panic-free paths). -/
def Scene.current_render_target (s : Scene) : Nat :=
  s.render_target_stack.getLast?.getD 0

/-- `Scene::pop_render_target`. -/
def Scene.pop_render_target (s : Scene) : Scene :=
  { s with render_target_stack := s.render_target_stack.dropLast }

/-- `Scene::push_draw_list`: record the flat list's index on the current
render target and append it. -/
def Scene.push_draw_list (s : Scene) (id : Option Nat) (draw_list : DrawList)
    (draw_context : DrawContext) : Scene :=
  let current := s.current_render_target
  let draw_list_index := s.flat_draw_lists.length
  let targets := match s.render_targets.get? current with
    | some rt => s.render_targets.set current
        { rt with draw_list_indices := rt.draw_list_indices ++
            [draw_list_index] }
    | none => s.render_targets
  { s with render_targets := targets,
           flat_draw_lists := s.flat_draw_lists ++
             [⟨id, draw_context, draw_list⟩] }

/-- `Scene::compile_visible_nodes`: compile every visible node that has no
compiled state yet (the worker pool makes tiles independent; the model runs
them in node order, threading the global batch-id counter). -/
def Scene.compile_visible_nodes (s : Scene) (env : CompileEnv)
    (iter_fuel : Nat) (next_batch_id : Nat) : Scene × Nat :=
  let node_rects := s.aabb_tree.node_rects
  let step := fun (st : List AABBTreeNode × Nat) (n : AABBTreeNode) =>
    if n.is_visible && n.compiled_node.isNone then
      let r := n.compile s.flat_draw_lists node_rects env iter_fuel st.2
      (st.1 ++ [r.1], r.2)
    else (st.1 ++ [n], st.2)
  let ns := s.aabb_tree.nodes.foldl step ([], next_batch_id)
  ({ s with aabb_tree := { s.aabb_tree with nodes := ns.1 } }, ns.2)

/-- `Scene::update_batch_cache`: for every visible node, drain its batches
into `Create` updates and remember each batch's matrix map. -/
def Scene.update_batch_cache (s : Scene) : Scene :=
  let step := fun (st : List AABBTreeNode × List BatchUpdate)
      (n : AABBTreeNode) =>
    if n.is_visible then
      let cn := n.compiled_node.getD CompiledNode.new
      let creates := cn.batches.map (fun b =>
        BatchUpdate.mk b.batch_id (BatchUpdateOp.Create b.vertices b.indices
          b.program_id b.color_texture_id b.mask_texture_id))
      let maps := cn.batches.map (fun b => (b.batch_id, b.matrix_map))
      let cn2 := { cn with batches := [],
                           matrix_maps := cn.matrix_maps ++ maps }
      (st.1 ++ [{ n with compiled_node := some cn2 }], st.2 ++ creates)
    else (st.1 ++ [n], st.2)
  let r := s.aabb_tree.nodes.foldl step ([], [])
  { s with aabb_tree := { s.aabb_tree with nodes := r.1 },
           pending_updates := s.pending_updates ++ r.2 }

/-- `internal_types::DrawLayer`. -/
structure DrawLayer where
  texture_id : Option Nat
  size_w : Nat
  size_h : Nat
  commands : List DrawCommand
deriving DecidableEq, Repr

/-- `internal_types::Frame`. -/
structure Frame where
  pipeline_epoch_map : List (PipelineId × Nat)
  layers : List DrawLayer
deriving DecidableEq, Repr

/-- The matrix palette built for one batch in
`collect_and_sort_visible_batches`: identity-initialized, then each
draw-list's `final_transform` composed with the scroll translation is written
at its palette slot. -/
def buildPalette (flat : List FlatDrawList) (scroll : Pnt)
    (matrix_map : List (Nat × Nat)) : List Matrix4 :=
  let init := List.replicate matrix_map.length Matrix4.identity
  matrix_map.foldl (fun pal e =>
    let transform := (flat.getD e.1
      ⟨none, defaultDrawContext, DrawList.new⟩).draw_context.final_transform
    pal.set e.2 (transform.translate scroll.x scroll.y 0)) init

/-- Append a command to its render target's layer. -/
def pushLayerCommand (layers : List DrawLayer) (c : DrawCommand) :
    List DrawLayer :=
  match layers.get? c.render_target with
  | some l => layers.set c.render_target
      { l with commands := l.commands ++ [c] }
  | none => layers

/-- Stable insertion sort, modelling Rust's stable `sort_by` (any two
stable sorts with the same comparator agree). -/
def insertBy {α : Type} (le : α → α → Bool) (x : α) : List α → List α
  | [] => [x]
  | y :: ys => if le x y then x :: y :: ys else y :: insertBy le x ys

def stableSortBy {α : Type} (le : α → α → Bool) : List α → List α
  | [] => []
  | x :: xs => insertBy le x (stableSortBy le xs)

/-- `Scene::collect_and_sort_visible_batches`: one layer per render target;
every visible node contributes `UpdateUniforms` for its matrix maps and its
draw commands; non-empty layers are sorted by `(draw_list_index, item_index)`
(Rust `sort_by` is a stable sort) and added to the frame. -/
def Scene.collect_and_sort_visible_batches (s : Scene) : Scene × Frame :=
  let layers0 := s.render_targets.map (fun rt =>
    DrawLayer.mk rt.texture_id rt.size_w rt.size_h [])
  let step := fun (st : List DrawLayer × List BatchUpdate)
      (n : AABBTreeNode) =>
    if n.is_visible then
      let cn := n.compiled_node.getD CompiledNode.new
      let updates := cn.matrix_maps.map (fun bm =>
        BatchUpdate.mk bm.1 (BatchUpdateOp.UpdateUniforms
          (buildPalette s.flat_draw_lists s.scroll_offset bm.2)))
      let layers := cn.commands.foldl pushLayerCommand st.1
      (layers, st.2 ++ updates)
    else st
  let r := s.aabb_tree.nodes.foldl step (layers0, [])
  let frame_layers := (r.1.filter (fun l => l.commands.length > 0)).map
    (fun l =>
      let sorted := stableSortBy (fun a b => keyLeB a.sort_key b.sort_key)
        l.commands
      { l with commands := sorted })
  ({ s with pending_updates := s.pending_updates ++ r.2 },
   ⟨s.pipeline_epoch_map, frame_layers⟩)

/-! ### Building the spatial index (`Scene::build_aabb_tree`) -/

/-- Insert the items of one flat draw list, assigning each item its tile-node
reference (`none` propagates an out-of-fuel insert). -/
def buildItems (fuel : Nat) (transform : Matrix4) (draw_list_index : Nat) :
    AABBTree → Nat → List DisplayItem →
    Option (AABBTree × List DisplayItem)
  | t, _, [] => some (t, [])
  | t, item_index, item :: rest =>
    let rect := transform.transform_rect item.rect
    match t.insert fuel rect draw_list_index item_index with
    | none => none
    | some (t2, ni) =>
      match buildItems fuel transform draw_list_index t2 (item_index + 1)
        rest with
      | none => none
      | some (t3, rest2) =>
        some (t3, { item with node_index := ni } :: rest2)

def buildLists (fuel : Nat) :
    AABBTree → Nat → List FlatDrawList →
    Option (AABBTree × List FlatDrawList)
  | t, _, [] => some (t, [])
  | t, draw_list_index, fdl :: rest =>
    match buildItems fuel fdl.draw_context.final_transform draw_list_index t
      0 fdl.draw_list.items with
    | none => none
    | some (t2, items2) =>
      match buildLists fuel t2 (draw_list_index + 1) rest with
      | none => none
      | some (t3, rest2) =>
        some (t3, { fdl with draw_list := ⟨items2⟩ } :: rest2)

/-- `Scene::build_aabb_tree`: initialize the tree on the scene rectangle and
insert every flat draw list item's transformed rectangle. -/
def Scene.build_aabb_tree (s : Scene) (fuel : Nat) (scene_rect : Rct) :
    Option Scene :=
  let t := s.aabb_tree.init scene_rect
  match buildLists fuel t 0 s.flat_draw_lists with
  | none => none
  | some (t2, flat2) =>
    some { s with aabb_tree := t2, flat_draw_lists := flat2 }

/-! ### The flattener (`Scene::flatten_stacking_context`) -/

/-- `types::DisplayListMode` (backend side). -/
inductive DisplayListMode where
  | Default
  | PseudoFloat
  | PseudoPositionedContent
deriving DecidableEq, Repr

/-- `internal_types::DisplayList`: the six paint-order slots, each an
optional draw-list id. -/
structure DisplayList where
  mode : DisplayListMode
  pipeline_id : PipelineId
  epoch : Nat
  background_and_borders_id : Option Nat
  block_backgrounds_and_borders_id : Option Nat
  floats_id : Option Nat
  content_id : Option Nat
  positioned_content_id : Option Nat
  outlines_id : Option Nat
deriving DecidableEq, Repr

/-- `types::StackingContext`.  Modelled from the spec: bounds, overflow,
blend mode, z-index, ordered children and referenced display-list ids (the
further CSS fields are never read by this backend). -/
inductive StackingContext where
  | mk (bounds : Rct) (overflow : Rct) (mix_blend_mode : MixBlendMode)
      (z_index : Int) (children : List StackingContext)
      (display_lists : List Nat)

def StackingContext.bounds : StackingContext → Rct
  | .mk b _ _ _ _ _ => b

def StackingContext.overflow : StackingContext → Rct
  | .mk _ o _ _ _ _ => o

def StackingContext.mix_blend_mode : StackingContext → MixBlendMode
  | .mk _ _ m _ _ _ => m

def StackingContext.z_index : StackingContext → Int
  | .mk _ _ _ z _ _ => z

def StackingContext.children : StackingContext → List StackingContext
  | .mk _ _ _ _ c _ => c

def StackingContext.display_lists : StackingContext → List Nat
  | .mk _ _ _ _ _ d => d

/-- `RootStackingContext`. -/
structure RootStackingContext where
  pipeline_id : PipelineId
  epoch : Nat
  background_color : ColorF
  stacking_context : StackingContext

/-- `StackingContextKind`. -/
inductive StackingContextKind where
  | Normal (sc : StackingContext)
  | Root (root : RootStackingContext)

/-- `StackingContextHelpers::needs_render_target`: false exactly for
`Normal`, true for the fifteen other blend modes. -/
def needsRenderTarget (sc : StackingContext) : Bool :=
  match sc.mix_blend_mode with
  | MixBlendMode.Normal => false
  | MixBlendMode.Multiply => true
  | MixBlendMode.Screen => true
  | MixBlendMode.Overlay => true
  | MixBlendMode.Darken => true
  | MixBlendMode.Lighten => true
  | MixBlendMode.ColorDodge => true
  | MixBlendMode.ColorBurn => true
  | MixBlendMode.HardLight => true
  | MixBlendMode.SoftLight => true
  | MixBlendMode.Difference => true
  | MixBlendMode.Exclusion => true
  | MixBlendMode.Hue => true
  | MixBlendMode.Saturation => true
  | MixBlendMode.Color => true
  | MixBlendMode.Luminosity => true

/-- `StackingContextDrawLists`: the six slot buckets collected from the
referenced display lists. -/
structure SCDrawLists where
  background_and_borders : List Nat
  block_background_and_borders : List Nat
  floats : List Nat
  content : List Nat
  positioned_content : List Nat
  outlines : List Nat
deriving DecidableEq, Repr

def SCDrawLists.empty : SCDrawLists := ⟨[], [], [], [], [], []⟩

def pushOpt (id : Option Nat) (l : List Nat) : List Nat :=
  match id with
  | some id => l ++ [id]
  | none => l

/-- Slot routing for one display list (`CollectDrawListsForStackingContext`):
`Default` keeps the six slots, `PseudoFloat` routes everything to `floats`,
`PseudoPositionedContent` routes everything to `positioned_content`. -/
def routeSlots (acc : SCDrawLists) (dl : DisplayList) : SCDrawLists :=
  match dl.mode with
  | DisplayListMode.Default =>
    { acc with
      background_and_borders :=
        pushOpt dl.background_and_borders_id acc.background_and_borders,
      block_background_and_borders :=
        pushOpt dl.block_backgrounds_and_borders_id
          acc.block_background_and_borders,
      floats := pushOpt dl.floats_id acc.floats,
      content := pushOpt dl.content_id acc.content,
      positioned_content :=
        pushOpt dl.positioned_content_id acc.positioned_content,
      outlines := pushOpt dl.outlines_id acc.outlines }
  | DisplayListMode.PseudoFloat =>
    let all := pushOpt dl.outlines_id (pushOpt dl.positioned_content_id
      (pushOpt dl.content_id (pushOpt dl.floats_id
        (pushOpt dl.block_backgrounds_and_borders_id
          (pushOpt dl.background_and_borders_id acc.floats)))))
    { acc with floats := all }
  | DisplayListMode.PseudoPositionedContent =>
    let all := pushOpt dl.outlines_id (pushOpt dl.positioned_content_id
      (pushOpt dl.content_id (pushOpt dl.floats_id
        (pushOpt dl.block_backgrounds_and_borders_id
          (pushOpt dl.background_and_borders_id acc.positioned_content)))))
    { acc with positioned_content := all }

/-- `StackingContext::collect_draw_lists` (a missing display-list id panics
in the source, hence `Option`). -/
def collectDrawLists (sc : StackingContext)
    (display_list_map : List (Nat × DisplayList)) : Option SCDrawLists :=
  sc.display_lists.foldlM (fun acc id =>
    match lookupA display_list_map id with
    | none => none
    | some dl => some (routeSlots acc dl)) SCDrawLists.empty

/-- `PipelineId`-keyed association-list helpers. -/
def lookupP (l : List (PipelineId × α)) (k : PipelineId) : Option α :=
  match l with
  | [] => none
  | (k2, v) :: rest => if k2 = k then some v else lookupP rest k

def insertP (l : List (PipelineId × α)) (k : PipelineId) (v : α) :
    List (PipelineId × α) :=
  match l with
  | [] => [(k, v)]
  | (k2, v2) :: rest =>
    if k2 = k then (k2, v) :: rest else (k2, v2) :: insertP rest k v

/-- Proof instrumentation: one record per `flatten_stacking_context` call,
capturing the program values the blend-mode isolation claim talks about (the
enclosing target, the transform accumulated so far, the scene extents before
the call, whether the offscreen branch ran, and the draw context actually
used for this context's own draw lists). -/
structure CtxEvent where
  blend : MixBlendMode
  enclosing_target : Nat
  transform_arg : Matrix4
  flat_len_before : Nat
  targets_len_before : Nat
  pushed_composite : Bool
  ctx_target : Nat
  ctx_transform : Matrix4
deriving DecidableEq, Repr

/-- The mutable state threaded through the flattener. -/
structure FlattenSt where
  scene : Scene
  draw_list_map : List (Nat × DrawList)
  cache : TextureCache
  log : List CtxEvent
deriving Repr

/-- `Scene::add_draw_list`: remove the list from the map (a missing id
panics), collect its iframe items with their transformed origins, and push
the flat list. -/
def addDrawListM (st : FlattenSt) (id : Nat) (ctx : DrawContext) :
    Option (FlattenSt × List (PipelineId × Pnt)) :=
  match removeA st.draw_list_map id with
  | (none, _) => none
  | (some dl, rest) =>
    let iframes := dl.items.filterMap (fun item =>
      match item.item with
      | SpecificDisplayItem.Iframe pid =>
        some (pid, ctx.final_transform.transform_point item.rect.origin)
      | _ => none)
    some ({ st with scene := st.scene.push_draw_list (some id) dl ctx,
                    draw_list_map := rest }, iframes)

/-- Add one slot's draw lists, accumulating iframe references. -/
def addSlot (ctx : DrawContext) (ids : List Nat)
    (acc : FlattenSt × List (PipelineId × Pnt)) :
    Option (FlattenSt × List (PipelineId × Pnt)) :=
  ids.foldlM (fun acc id =>
    match addDrawListM acc.1 id ctx with
    | none => none
    | some (st2, ifr) => some (st2, acc.2 ++ ifr)) acc

/-- The context a `StackingContextKind` flattens. -/
def scOf : StackingContextKind → StackingContext
  | StackingContextKind.Normal sc => sc
  | StackingContextKind.Root root => root.stacking_context

set_option maxHeartbeats 1000000 in
/-- The entry sequence of `flatten_stacking_context`: translate the
accumulated transform by the context bounds origin; when the blend mode
needs a render target, push the synthetic `Composite` item into the
enclosing target, allocate and push the offscreen target and switch the
draw context to it with the identity transform; record the `CtxEvent`; for
a root context update the pipeline epoch map and push the background
rectangle.  Returns the updated state, the context's draw context, and the
transform handed to children. -/
def flattenPrelude (device_pixel_ratio : Dy) (kind : StackingContextKind)
    (transform0 : Matrix4) (st : FlattenSt) :
    FlattenSt × DrawContext × Matrix4 :=
  let sc := scOf kind
  let transform := transform0.translate sc.bounds.origin.x
    sc.bounds.origin.y 0
  let enclosing := st.scene.current_render_target
  let flat_len_before := st.scene.flat_draw_lists.length
  let targets_len_before := st.scene.render_targets.length
  let draw_context0 : DrawContext :=
    ⟨enclosing, sc.overflow, device_pixel_ratio, transform⟩
  let needs := needsRenderTarget sc
  let branch : FlattenSt × DrawContext × Matrix4 :=
    if needs then
      let alloc := st.cache.allocate_render_target
      let composite_item : DisplayItem :=
        ⟨SpecificDisplayItem.Composite ⟨sc.mix_blend_mode, alloc.1⟩,
          sc.overflow, ⟨sc.overflow, []⟩, none⟩
      let scene2 := st.scene.push_draw_list none ⟨[composite_item]⟩
        draw_context0
      let scene3 := scene2.push_render_target
        (qToU32 sc.overflow.size.width) (qToU32 sc.overflow.size.height)
        (some alloc.1)
      ({ st with scene := scene3, cache := alloc.2 },
        ⟨scene3.current_render_target, sc.overflow, device_pixel_ratio,
          Matrix4.identity⟩,
        Matrix4.identity)
    else (st, draw_context0, transform)
  let st := branch.1
  let draw_context := branch.2.1
  let st : FlattenSt := { st with log := st.log ++
    [⟨sc.mix_blend_mode, enclosing, branch.2.2, flat_len_before,
      targets_len_before, needs, draw_context.render_target_index,
      draw_context.final_transform⟩] }
  let st : FlattenSt :=
    match kind with
    | StackingContextKind.Normal _ => st
    | StackingContextKind.Root root =>
      let pem := insertP st.scene.pipeline_epoch_map root.pipeline_id
        root.epoch
      let scene := { st.scene with pipeline_epoch_map := pem }
      let scene :=
        if root.background_color.a > 0 then
          let root_bg_item : DisplayItem :=
            ⟨SpecificDisplayItem.Rectangle ⟨root.background_color⟩,
              sc.overflow, ⟨sc.overflow, []⟩, none⟩
          scene.push_draw_list none ⟨[root_bg_item]⟩ draw_context
        else scene
      { st with scene := scene }
  (st, draw_context, branch.2.2)

set_option maxHeartbeats 2000000 in
/-- `Scene::flatten_stacking_context` (fuel bounds the recursion through
children and iframes; `none` also covers the source's panics on missing
draw-list or display-list ids). -/
def flattenSC (display_list_map : List (Nat × DisplayList))
    (stacking_contexts : List (PipelineId × RootStackingContext))
    (device_pixel_ratio : Dy) :
    Nat → StackingContextKind → Matrix4 → FlattenSt → Option FlattenSt
  | 0, _, _, _ => none
  | fuel + 1, kind, transform0, st => do
    let sc := scOf kind
    let pre := flattenPrelude device_pixel_ratio kind transform0 st
    let st := pre.1
    let draw_context := pre.2.1
    let transform := pre.2.2
    let draw_list_ids ← collectDrawLists sc display_list_map
    let acc ← addSlot draw_context draw_list_ids.background_and_borders
      (st, [])
    let acc ← (sc.children.filter (fun c => c.z_index < 0)).foldlM
      (fun (acc : FlattenSt × List (PipelineId × Pnt)) child => do
        let st2 ← flattenSC display_list_map stacking_contexts
          device_pixel_ratio fuel (StackingContextKind.Normal child)
          transform acc.1
        pure (st2, acc.2)) acc
    let acc ← addSlot draw_context draw_list_ids.block_background_and_borders
      acc
    let acc ← addSlot draw_context draw_list_ids.floats acc
    let acc ← addSlot draw_context draw_list_ids.content acc
    let acc ← addSlot draw_context draw_list_ids.positioned_content acc
    let acc ← (sc.children.filter (fun c => ¬ c.z_index < 0)).foldlM
      (fun (acc : FlattenSt × List (PipelineId × Pnt)) child => do
        let st2 ← flattenSC display_list_map stacking_contexts
          device_pixel_ratio fuel (StackingContextKind.Normal child)
          transform acc.1
        pure (st2, acc.2)) acc
    let acc ← acc.2.foldlM
      (fun (acc : FlattenSt × List (PipelineId × Pnt)) iframe_info => do
        match lookupP stacking_contexts iframe_info.1 with
        | some iframe =>
          let iframe_transform := Matrix4.identity.translate
            iframe_info.2.x iframe_info.2.y 0
          let st2 ← flattenSC display_list_map stacking_contexts
            device_pixel_ratio fuel (StackingContextKind.Root iframe)
            iframe_transform acc.1
          pure (st2, acc.2)
        | none => pure acc) acc
    let acc ← addSlot draw_context draw_list_ids.outlines acc
    let st := acc.1
    if needsRenderTarget sc then
      pure { st with scene := st.scene.pop_render_target }
    else
      pure st

/-! ### The render backend loop (`RenderBackend`) -/

/-- The fields of `RenderBackend` the claims exercise (fonts, images and the
glyph/raster maps only feed the external texture cache and are omitted;
`next_batch_id` threads the global `BatchId::new()` counter). -/
structure RenderBackend where
  viewport : Rct
  device_pixel_ratio : Dy
  env : CompileEnv
  texture_cache : TextureCache
  display_list_map : List (Nat × DisplayList)
  draw_list_map : List (Nat × DrawList)
  stacking_contexts : List (PipelineId × RootStackingContext)
  scene : Scene
  next_batch_id : Nat

/-- The fuel budgets for the fuelled recursions (flatten, tree insertion,
item iteration); the claims state the budgets they need. -/
structure FuelCfg where
  flatten_fuel : Nat
  insert_fuel : Nat
  iter_fuel : Nat
deriving DecidableEq, Repr

/-- `RenderBackend::build_scene`: when the root pipeline `(0, 0)` is known,
reset the scene, push the framebuffer target, flatten the root stacking
context and rebuild the spatial index. -/
def RenderBackend.build_scene (b : RenderBackend) (fuel : FuelCfg) :
    Option RenderBackend :=
  match lookupP b.stacking_contexts ⟨0, 0⟩ with
  | none => some b
  | some root => do
    let rc := (Scene.reset b.scene b.texture_cache)
    let scene := rc.1.push_render_target (qToU32 b.viewport.size.width)
      (qToU32 b.viewport.size.height) none
    let st ← flattenSC b.display_list_map b.stacking_contexts
      b.device_pixel_ratio fuel.flatten_fuel (StackingContextKind.Root root)
      Matrix4.identity ⟨scene, b.draw_list_map, rc.2, []⟩
    let scene := st.scene.pop_render_target
    let scene ← scene.build_aabb_tree fuel.insert_fuel
      root.stacking_context.overflow
    pure { b with scene := scene, draw_list_map := st.draw_list_map,
                  texture_cache := st.cache }

/-- `Scene::build_frame`: cull against the scroll-adjusted viewport, compile
the newly visible tiles, update the batch cache, and collect the frame (the
asset-scheduler phases touch only the external texture cache and are
omitted). -/
def Scene.build_frame (s : Scene) (viewport : Rct) (env : CompileEnv)
    (fuel : FuelCfg) (next_batch_id : Nat) : Scene × Frame × Nat :=
  let adjusted_viewport := viewport.translate s.scroll_offset.neg
  let s := { s with aabb_tree := s.aabb_tree.cull adjusted_viewport }
  let r := s.compile_visible_nodes env fuel.iter_fuel next_batch_id
  let s := r.1.update_batch_cache
  let r2 := s.collect_and_sort_visible_batches
  (r2.1, r2.2, r.2)

/-- `RenderBackend::render`: build the frame and drain the pending batch
updates (the `UpdateBatches` result message carries exactly this list). -/
def RenderBackend.render (b : RenderBackend) (fuel : FuelCfg) :
    RenderBackend × Frame × List BatchUpdate :=
  let r := b.scene.build_frame b.viewport b.env fuel b.next_batch_id
  let drained := r.1.pending_updates
  ({ b with scene := { r.1 with pending_updates := [] },
            next_batch_id := r.2.2 },
   r.2.1, drained)

/-- `remove_draw_list` (a present id must be in the map or the source
panics). -/
def removeDrawListId (m : List (Nat × DrawList)) (id : Option Nat) :
    Option (List (Nat × DrawList)) :=
  match id with
  | none => some m
  | some id =>
    match removeA m id with
    | (none, _) => none
    | (some _, rest) => some rest

/-- The `ApiMsg::SetRootStackingContext` handler: return the current flat
draw lists to the map, evict older-epoch display lists for the pipeline
(removing their slot draw lists), store the new root, rebuild the scene and
render. -/
def RenderBackend.handleSetRoot (b : RenderBackend) (fuel : FuelCfg)
    (stacking_context : StackingContext) (background_color : ColorF)
    (epoch : Nat) (pipeline_id : PipelineId) :
    Option (RenderBackend × Frame × List BatchUpdate) := do
  let draw_list_map := b.scene.flat_draw_lists.foldl (fun m fdl =>
    match fdl.id with
    | some id => insertA m id fdl.draw_list
    | none => m) b.draw_list_map
  let b := { b with draw_list_map := draw_list_map,
                    scene := { b.scene with flat_draw_lists := [] } }
  let old_keys := (b.display_list_map.filter (fun kv =>
    kv.2.pipeline_id = pipeline_id ∧ kv.2.epoch < epoch)).map (·.1)
  let b ← old_keys.foldlM (fun (b : RenderBackend) key => do
    match removeA b.display_list_map key with
    | (none, _) => none
    | (some dl, rest) => do
      let m ← removeDrawListId b.draw_list_map dl.background_and_borders_id
      let m ← removeDrawListId m dl.block_backgrounds_and_borders_id
      let m ← removeDrawListId m dl.floats_id
      let m ← removeDrawListId m dl.content_id
      let m ← removeDrawListId m dl.positioned_content_id
      let m ← removeDrawListId m dl.outlines_id
      pure { b with display_list_map := rest, draw_list_map := m }) b
  let scs := insertP b.stacking_contexts pipeline_id
    ⟨pipeline_id, epoch, background_color, stacking_context⟩
  let b := { b with stacking_contexts := scs }
  let b ← b.build_scene fuel
  pure (b.render fuel)

/-- The `ApiMsg::Scroll` handler. -/
def RenderBackend.handleScroll (b : RenderBackend) (fuel : FuelCfg)
    (delta : Pnt) : RenderBackend × Frame × List BatchUpdate :=
  ({ b with scene := b.scene.scroll delta }).render fuel

/-- The AABB-tree split rule exactly as the specification words it (notably
`width ≥ height` for choosing the width split), for comparison with the
source's `split_if_needed`. -/
def claimedSplitChildRects (rect : Rct) (split_size : Dy) :
    Option (Rct × Rct) :=
  if rect.size.width > split_size ∧ rect.size.width ≥ rect.size.height then
    let new_width := rect.size.width * Dy.onehalf
    some (⟨rect.origin, ⟨new_width, rect.size.height⟩⟩,
          ⟨⟨rect.origin.x + new_width, rect.origin.y⟩,
           ⟨rect.size.width - new_width, rect.size.height⟩⟩)
  else if rect.size.height > split_size then
    let new_height := rect.size.height * Dy.onehalf
    some (⟨rect.origin, ⟨rect.size.width, new_height⟩⟩,
          ⟨⟨rect.origin.x, rect.origin.y + new_height⟩,
           ⟨rect.size.width, rect.size.height - new_height⟩⟩)
  else
    none

/-! ### Spatial-index well-formedness (established by construction, relied on
by the cull claim) -/

/-- The child invariant at one node: children (when present) were appended
after their parent and their rectangles sit inside the parent's rectangle. -/
def childOk (t : AABBTree) (i : Nat) : Prop :=
  match (t.nodeD i).children with
  | none => True
  | some c => i < c ∧ c + 1 < t.nodes.length ∧
      (t.nodeD c).rect.containedIn (t.nodeD i).rect ∧
      (t.nodeD (c + 1)).rect.containedIn (t.nodeD i).rect

instance (t : AABBTree) (i : Nat) : Decidable (childOk t i) :=
  match h : (t.nodeD i).children with
  | none => isTrue (by unfold childOk; rw [h]; exact trivial)
  | some c => decidable_of_iff
      (i < c ∧ c + 1 < t.nodes.length ∧
        (t.nodeD c).rect.containedIn (t.nodeD i).rect ∧
        (t.nodeD (c + 1)).rect.containedIn (t.nodeD i).rect)
      (by unfold childOk; rw [h])

/-- `j` is one of the two children of `i`. -/
def isChildOf (t : AABBTree) (j i : Nat) : Prop :=
  match (t.nodeD i).children with
  | none => False
  | some c => j = c ∨ j = c + 1

instance (t : AABBTree) (j i : Nat) : Decidable (isChildOf t j i) :=
  match h : (t.nodeD i).children with
  | none => isFalse (by unfold isChildOf; rw [h]; exact id)
  | some c => decidable_of_iff (j = c ∨ j = c + 1)
      (by unfold isChildOf; rw [h])

/-- Well-formedness of the spatial index: nonempty, every node satisfies the
child invariant, and every non-root node is some node's child. -/
def AABBTree.wf (t : AABBTree) : Prop :=
  0 < t.nodes.length ∧
  (∀ i, i < t.nodes.length → childOk t i) ∧
  (∀ j, j < t.nodes.length → j ≠ 0 →
    ∃ i, i < t.nodes.length ∧ isChildOf t j i)

instance (t : AABBTree) : Decidable t.wf := by
  unfold AABBTree.wf
  infer_instance

/-- The nodes the cull DFS rooted at `i` marks visible: `i` itself when its
rectangle meets the viewport, plus everything marked from its children. -/
inductive Marks (t : AABBTree) (v : Rct) : Nat → Nat → Prop where
  | here (i : Nat) (h : (t.nodeD i).rect.intersects v) : Marks t v i i
  | childL (i j c : Nat) (h : (t.nodeD i).rect.intersects v)
      (hc : (t.nodeD i).children = some c)
      (hm : Marks t v c j) : Marks t v i j
  | childR (i j c : Nat) (h : (t.nodeD i).rect.intersects v)
      (hc : (t.nodeD i).children = some c)
      (hm : Marks t v (c + 1) j) : Marks t v i j

/-- Two trees with the same skeleton (length, rectangles and child links);
the cull pass only toggles visibility flags, so it preserves this. -/
def skelEq (t t2 : AABBTree) : Prop :=
  t2.nodes.length = t.nodes.length ∧
  ∀ k, (t2.nodeD k).rect = (t.nodeD k).rect ∧
    (t2.nodeD k).children = (t.nodeD k).children

/-- The concrete tree used to exercise the cull theorem: a root split into
two side-by-side children. -/
def c6Tree : AABBTree :=
  ⟨[{ AABBTreeNode.mkNew (Rct.mk4 0 0 100 100) 0 with children := some 1 },
    AABBTreeNode.mkNew (Rct.mk4 0 0 50 100) 1,
    AABBTreeNode.mkNew (Rct.mk4 50 0 50 100) 2], 512⟩

def c6View : Rct := Rct.mk4 0 0 40 100

/-- The insertion-descent rule exactly as the claim words it: at each node
(split on the way down), a leaf stores here; with both children intersecting
the rectangle the key is stored at the current node; with exactly one
intersecting child the descent continues there; with neither the insert is
dropped. -/
inductive Descent (rect : Rct) : AABBTree → Nat → AABBTree → Option Nat →
    Prop where
  | store_leaf (t : AABBTree) (i : Nat)
      (h : ((t.split_if_needed i).nodeD i).children = none) :
      Descent rect t i (t.split_if_needed i) (some i)
  | store_both (t : AABBTree) (i c : Nat)
      (hc : ((t.split_if_needed i).nodeD i).children = some c)
      (hl : ((t.split_if_needed i).nodeD c).rect.intersects rect)
      (hr : ((t.split_if_needed i).nodeD (c + 1)).rect.intersects rect) :
      Descent rect t i (t.split_if_needed i) (some i)
  | drop (t : AABBTree) (i c : Nat)
      (hc : ((t.split_if_needed i).nodeD i).children = some c)
      (hl : ¬ ((t.split_if_needed i).nodeD c).rect.intersects rect)
      (hr : ¬ ((t.split_if_needed i).nodeD (c + 1)).rect.intersects rect) :
      Descent rect t i (t.split_if_needed i) none
  | go_left (t : AABBTree) (i c : Nat) (t2 : AABBTree) (res : Option Nat)
      (hc : ((t.split_if_needed i).nodeD i).children = some c)
      (hl : ((t.split_if_needed i).nodeD c).rect.intersects rect)
      (hr : ¬ ((t.split_if_needed i).nodeD (c + 1)).rect.intersects rect)
      (hrec : Descent rect (t.split_if_needed i) c t2 res) :
      Descent rect t i t2 res
  | go_right (t : AABBTree) (i c : Nat) (t2 : AABBTree) (res : Option Nat)
      (hc : ((t.split_if_needed i).nodeD i).children = some c)
      (hl : ¬ ((t.split_if_needed i).nodeD c).rect.intersects rect)
      (hr : ((t.split_if_needed i).nodeD (c + 1)).rect.intersects rect)
      (hrec : Descent rect (t.split_if_needed i) (c + 1) t2 res) :
      Descent rect t i t2 res

/-- A freshly initialized spatial index on an 800-by-600 scene, used to
exercise the insertion claim (the descent splits three nodes on the way
down). -/
def c5Tree : AABBTree := (AABBTree.new 512).init (Rct.mk4 0 0 800 600)

/-- The number of vertices a render item contributes when batched (the
`vertex_count` of a draw item; composites contribute none). -/
def itemVertexCount (item : RenderItem) : Nat :=
  match item.info with
  | RenderItemInfo.Draw info => info.vertex_count
  | RenderItemInfo.Composite _ => 0

/-- The amended per-batch cap: the palette never exceeds 32 slots, and the
vertex list never exceeds 65,534 plus one item's worth of vertices (the cap
is checked before the add, so a batch can end at 65,536 vertices — above
the 65,535 the claim states). -/
def capsOk (V : Nat) (batch : RenderBatch) : Prop :=
  batch.matrix_map.length ≤ MAX_MATRICES_PER_BATCH ∧
    batch.vertices.length ≤ 65534 + V

/-- A four-vertex rectangle draw item, as `add_rectangle` emits. -/
def c2Item : RenderItem :=
  ⟨⟨0, 0⟩, RenderItemInfo.Draw ⟨0, 0, 0, 4, Primitive.Rectangles⟩⟩

/-- A builder holding 16,384 four-vertex rectangles: every one of them is
admitted into the same batch, which ends with 65,536 vertices. -/
def c2Builder : DrawCommandBuilder :=
  ⟨1, 2, 1, 0, List.replicate 16384 c2Item, []⟩

/-- A one-rectangle builder, for the amended cap theorem's witness. -/
def c2SmallBuilder : DrawCommandBuilder :=
  ⟨1, 2, 1, 0, [c2Item], []⟩

/-- The placeholder flat list `getD` returns out of range. -/
def dfltFlat : FlatDrawList := ⟨none, defaultDrawContext, DrawList.new⟩

/-- Blend-mode isolation, as observed on one `CtxEvent`: the offscreen
branch runs exactly for a non-Normal blend mode; when it runs, the context
draws into the freshly pushed render target (index = number of targets
before the call) under the identity transform and children also receive the
identity transform; when it does not run, the context keeps the enclosing
target and the accumulated transform. -/
def blendIsolationOk (e : CtxEvent) : Prop :=
  (e.pushed_composite = true ↔ e.blend ≠ MixBlendMode.Normal) ∧
  (e.pushed_composite = true →
    e.ctx_transform = Matrix4.identity ∧
    e.transform_arg = Matrix4.identity ∧
    e.ctx_target = e.targets_len_before) ∧
  (e.pushed_composite = false →
    e.ctx_target = e.enclosing_target ∧
    e.ctx_transform = e.transform_arg)

/-- The flat list holds exactly one synthetic `Composite` item with the
given blend mode, drawn into the given render target. -/
def isCompositeList (f : FlatDrawList) (blend : MixBlendMode)
    (target : Nat) : Prop :=
  f.id = none ∧ f.draw_context.render_target_index = target ∧
  match f.draw_list.items with
  | [item] =>
    match item.item with
    | SpecificDisplayItem.Composite c => c.blend_mode = blend
    | _ => False
  | _ => False

/-- A logged event is good for a final flat-list state: it satisfies the
isolation property, and if its offscreen branch ran, the synthetic
composite list sits at the recorded flat index, aimed at the enclosing
target. -/
def GoodE (e : CtxEvent) (flat : List FlatDrawList) : Prop :=
  blendIsolationOk e ∧
  (e.pushed_composite = true →
    e.flat_len_before < flat.length ∧
    isCompositeList (flat.getD e.flat_len_before dfltFlat) e.blend
      e.enclosing_target)

/-- The flattener only appends to the log and to the flat draw lists. -/
def FlatExt (st st2 : FlattenSt) : Prop :=
  (∃ t, st2.log = st.log ++ t) ∧
  (∃ f, st2.scene.flat_draw_lists = st.scene.flat_draw_lists ++ f)

/-- The invariant carried through the flattener: state extension, and every
logged event is either old or good for the new state. -/
def Iso (st st2 : FlattenSt) : Prop :=
  FlatExt st st2 ∧
  (∀ e ∈ st2.log, e ∈ st.log ∨ GoodE e st2.scene.flat_draw_lists) ∧
  st2.scene.pending_updates = st.scene.pending_updates

/-- A root context with a Multiply blend mode and no content, to exercise
the offscreen branch. -/
def c8Root : RootStackingContext :=
  ⟨⟨0, 0⟩, 0, ⟨0, 0, 0, 0⟩,
    StackingContext.mk (Rct.mk4 0 0 800 600) (Rct.mk4 0 0 800 600)
      MixBlendMode.Multiply 0 [] []⟩

/-- A flattener state holding just the root render target. -/
def c8St : FlattenSt :=
  ⟨Scene.new.push_render_target 800 600 none, [], ⟨0, []⟩, []⟩

/-- The placeholder batch update `getD` returns out of range (neither a
`Destroy` nor a `Create`). -/
def dfltUpdate : BatchUpdate := ⟨0, BatchUpdateOp.UpdateUniforms []⟩

/-- The update carries a `Create` payload. -/
def isCreateOp : BatchUpdateOp → Prop
  | BatchUpdateOp.Create _ _ _ _ _ => True
  | _ => False

/-- The update carries an `UpdateUniforms` payload. -/
def isUniformsOp : BatchUpdateOp → Prop
  | BatchUpdateOp.UpdateUniforms _ => True
  | _ => False

/-- A fresh backend (no pipelines, empty scene), for the ordering witness. -/
def c9Backend : RenderBackend :=
  ⟨Rct.mk4 0 0 800 600, 1, ⟨1, 2, 3, 4, 1⟩, ⟨0, []⟩, [], [], [],
    Scene.new, 0⟩

/-- A content-free Normal root context for the ordering witness. -/
def c9Sc : StackingContext :=
  StackingContext.mk (Rct.mk4 0 0 800 600) (Rct.mk4 0 0 800 600)
    MixBlendMode.Normal 0 [] []

def c9Fuel : FuelCfg := ⟨2, 10, 10⟩

/-- The batches a finalize accumulator holds, in emission order (retired
batches first, then the in-progress one). -/
def accBatchList (acc : FinalizeAcc) : List RenderBatch :=
  acc.batches ++ (match acc.current_batch with
    | some cb => [cb]
    | none => [])

/-- Every item key of the first batch is at most every item key of the
second.  Non-strict: one display item can emit several render items
sharing its key, and a flush between them puts the same key in two
consecutive batches. -/
def batchKeysLt (b1 b2 : RenderBatch) : Prop :=
  ∀ k1 ∈ b1.item_keys, ∀ k2 ∈ b2.item_keys, keyLe k1 k2

/-- The batcher's ordering invariant: each batch's sort key is the least of
its item keys (it is the first item's key), and batches hold consecutive,
non-decreasing key segments. -/
def batchOrdered (acc : FinalizeAcc) : Prop :=
  (∀ bb ∈ accBatchList acc, bb.sort_key ∈ bb.item_keys ∧
    ∀ k ∈ bb.item_keys, keyLe bb.sort_key k) ∧
  List.Pairwise batchKeysLt (accBatchList acc)

/-- A rectangle item for the cross-tile counterexample, tagged with its
spatial-index node. -/
def c1Item (x : Dy) (ni : Nat) : DisplayItem :=
  ⟨SpecificDisplayItem.Rectangle ⟨⟨1, 1, 1, 1⟩⟩, Rct.mk4 x 10 10 10,
    ⟨Rct.mk4 0 0 100 100, []⟩, some ni⟩

/-- One flat draw list with three rectangles: items 0 and 2 live on the
right tile (node 2), item 1 on the left tile (node 1). -/
def c1Flat : List FlatDrawList :=
  [⟨none, ⟨0, Rct.mk4 0 0 100 100, 1, Matrix4.identity⟩,
    ⟨[c1Item 60 2, c1Item 10 1, c1Item 80 2]⟩⟩]

/-- Two disjoint visible tiles under a root: node 1 owns item (0,1), node 2
owns items (0,0) and (0,2). -/
def c1Tree : AABBTree :=
  ⟨[{ AABBTreeNode.mkNew (Rct.mk4 0 0 100 100) 0 with
      children := some 1, is_visible := true },
    { AABBTreeNode.mkNew (Rct.mk4 0 0 50 100) 1 with
      is_visible := true, src_items := [⟨0, 1⟩] },
    { AABBTreeNode.mkNew (Rct.mk4 50 0 50 100) 2 with
      is_visible := true, src_items := [⟨0, 0⟩, ⟨0, 2⟩] }], 512⟩

def c1Scene : Scene :=
  ⟨[], c1Tree, c1Flat, Pnt.zero, [RenderTarget.mkNew 100 100 none], [0],
    []⟩

def c1Env : CompileEnv := ⟨7, 8, 5, 6, 1⟩

/-- A builder run as the per-tile compiler produces one: display items
arrive in ascending key order but may each emit several render items
sharing the key (a text run spanning two glyph textures emits one render
item per texture).  Display item (0,0) emits two rectangle render items
whose color textures differ, so the second forces a flush mid-item; item
(0,1) emits one more on the second texture. -/
def c1Builder2 : DrawCommandBuilder :=
  ⟨1, 2, 1, 0,
    [⟨⟨0, 0⟩, RenderItemInfo.Draw ⟨0, 0, 0, 4, Primitive.Rectangles⟩⟩,
     ⟨⟨0, 0⟩, RenderItemInfo.Draw ⟨1, 0, 4, 4, Primitive.Rectangles⟩⟩,
     ⟨⟨0, 1⟩, RenderItemInfo.Draw ⟨1, 0, 8, 4, Primitive.Rectangles⟩⟩], []⟩

/-- The first of the two batches that run finalizes into: item (0,0)'s
first render item alone. -/
def c1B2a : RenderBatch :=
  (c1Builder2.finalize 0).1.1.getD 0 (RenderBatch.new 0 ⟨0, 0⟩ 0 0 0)

/-- The second batch: item (0,0)'s second render item together with item
(0,1), so its sort key equals the first batch's. -/
def c1B2b : RenderBatch :=
  (c1Builder2.finalize 0).1.1.getD 1 (RenderBatch.new 0 ⟨0, 0⟩ 0 0 0)

/-- The state after flattening the Multiply root context. -/
def c8Run : FlattenSt :=
  (flattenSC [] [] 1 1 (StackingContextKind.Root c8Root) Matrix4.identity
    c8St).getD c8St

/-- The one event that flatten run logs. -/
def c8Ev : CtxEvent :=
  c8Run.log.getD 0
    ⟨MixBlendMode.Normal, 0, Matrix4.identity, 0, 0, false, 0,
      Matrix4.identity⟩

/-- A root context with one background draw list (slot id 7 through display
list 5), so the rebuilt scene compiles a batch. -/
def c9Sc2 : StackingContext :=
  StackingContext.mk (Rct.mk4 0 0 800 600) (Rct.mk4 0 0 800 600)
    MixBlendMode.Normal 0 [] [5]

/-- A backend whose scene still holds a compiled batch (id 99), and whose
maps carry the new root's content: reset emits its Destroy, the rebuild
emits a Create. -/
def c9Backend2 : RenderBackend :=
  ⟨Rct.mk4 0 0 800 600, 1, ⟨1, 2, 3, 4, 1⟩, ⟨0, []⟩,
    [(5, ⟨DisplayListMode.Default, ⟨0, 0⟩, 0, some 7, none, none, none,
      none, none⟩)],
    [(7, ⟨[⟨SpecificDisplayItem.Rectangle ⟨⟨1, 1, 1, 1⟩⟩,
      Rct.mk4 10 10 10 10, ⟨Rct.mk4 0 0 800 600, []⟩, none⟩]⟩)],
    [],
    { Scene.new with aabb_tree :=
        ⟨[{ AABBTreeNode.mkNew (Rct.mk4 0 0 800 600) 0 with
            compiled_node :=
              some ⟨[RenderBatch.new 99 ⟨0, 0⟩ 0 0 0], [], []⟩ }], 512⟩ },
    0⟩

/-- The update list of that backend's first SetRootStackingContext frame. -/
def c9Run : List BatchUpdate :=
  ((c9Backend2.handleSetRoot c9Fuel c9Sc2 ⟨0, 0, 0, 0⟩ 0 ⟨0, 0⟩).getD
    (c9Backend2, ⟨[], []⟩, [])).2.2

end WR

/-! ## Theorems -/

namespace WR

namespace Dy

theorem toRat_ofInt (n : Int) : (ofInt n).toRat = (n : ℚ) := by
  simp [toRat, ofInt]

theorem two_pow_pos (n : Nat) : (0 : ℚ) < (2 : ℚ) ^ n := by positivity

theorem toRat_add (x y : Dy) : (x + y).toRat = x.toRat + y.toRat := by
  show (add x y).toRat = _
  unfold toRat add
  have ex1 : ((x.num : ℚ)) / 2 ^ x.exp =
      ((x.num : ℚ) * 2 ^ (max x.exp y.exp - x.exp)) / 2 ^ (max x.exp y.exp)
      := by
    rw [div_eq_div_iff (ne_of_gt (two_pow_pos _)) (ne_of_gt (two_pow_pos _)),
      mul_assoc, ← pow_add]
    congr 2
    omega
  have ey1 : ((y.num : ℚ)) / 2 ^ y.exp =
      ((y.num : ℚ) * 2 ^ (max x.exp y.exp - y.exp)) / 2 ^ (max x.exp y.exp)
      := by
    rw [div_eq_div_iff (ne_of_gt (two_pow_pos _)) (ne_of_gt (two_pow_pos _)),
      mul_assoc, ← pow_add]
    congr 2
    omega
  push_cast
  rw [ex1, ey1, div_add_div_same]

theorem toRat_neg (x : Dy) : (-x).toRat = -x.toRat := by
  show (neg x).toRat = _
  unfold toRat neg
  push_cast
  rw [neg_div]

theorem toRat_sub (x y : Dy) : (x - y).toRat = x.toRat - y.toRat := by
  show (add x (neg y)).toRat = _
  rw [show add x (neg y) = x + (-y) from rfl, toRat_add, toRat_neg,
    sub_eq_add_neg]

theorem toRat_mul (x y : Dy) : (x * y).toRat = x.toRat * y.toRat := by
  show (mul x y).toRat = _
  unfold toRat mul
  rw [pow_add]
  push_cast
  rw [div_mul_div_comm]

theorem le_iff_toRat (x y : Dy) : x ≤ y ↔ x.toRat ≤ y.toRat := by
  show dle x y ↔ _
  unfold dle toRat
  rw [div_le_div_iff (two_pow_pos _) (two_pow_pos _)]
  constructor
  · intro h
    exact_mod_cast h
  · intro h
    exact_mod_cast h

theorem lt_iff_toRat (x y : Dy) : x < y ↔ x.toRat < y.toRat := by
  show dlt x y ↔ _
  unfold dlt toRat
  rw [div_lt_div_iff (two_pow_pos _) (two_pow_pos _)]
  constructor
  · intro h
    exact_mod_cast h
  · intro h
    exact_mod_cast h

theorem toRat_dmin (x y : Dy) : (dmin x y).toRat = min x.toRat y.toRat := by
  unfold dmin
  by_cases h : x ≤ y
  · rw [if_pos h, min_eq_left ((le_iff_toRat x y).mp h)]
  · rw [if_neg h]
    rw [le_iff_toRat] at h
    rw [min_eq_right (le_of_not_le h)]

theorem toRat_dmax (x y : Dy) : (dmax x y).toRat = max x.toRat y.toRat := by
  unfold dmax
  by_cases h : x ≤ y
  · rw [if_pos h, max_eq_right ((le_iff_toRat x y).mp h)]
  · rw [if_neg h]
    rw [le_iff_toRat] at h
    rw [max_eq_left (le_of_not_le h)]

theorem toRat_half (x : Dy) : (half x).toRat = x.toRat / 2 := by
  unfold half toRat
  rw [pow_succ]
  push_cast
  field_simp

theorem mul_onehalf (x : Dy) : x * onehalf = half x := by
  show mul x onehalf = half x
  unfold mul onehalf half
  simp

theorem veq_iff_toRat (x y : Dy) : veq x y ↔ x.toRat = y.toRat := by
  unfold veq toRat
  rw [div_eq_div_iff (ne_of_gt (two_pow_pos _)) (ne_of_gt (two_pow_pos _))]
  constructor
  · intro h
    exact_mod_cast h
  · intro h
    exact_mod_cast h

/-- Representation-level associativity of dyadic addition (needed because the
scroll claims compare whole states). -/
theorem add_assoc_rep (x y z : Dy) : x + y + z = x + (y + z) := by
  show add (add x y) z = add x (add y z)
  unfold add
  dsimp only
  refine congrArg₂ Dy.mk ?_ (Nat.max_assoc x.exp y.exp z.exp)
  have p1 : (2 : Int) ^ (max x.exp y.exp - x.exp) *
      2 ^ (max (max x.exp y.exp) z.exp - max x.exp y.exp) =
      2 ^ (max x.exp (max y.exp z.exp) - x.exp) := by
    rw [← pow_add]
    congr 1
    omega
  have p2 : (2 : Int) ^ (max x.exp y.exp - y.exp) *
      2 ^ (max (max x.exp y.exp) z.exp - max x.exp y.exp) =
      2 ^ (max y.exp z.exp - y.exp) *
      2 ^ (max x.exp (max y.exp z.exp) - max y.exp z.exp) := by
    rw [← pow_add, ← pow_add]
    congr 1
    omega
  have p3 : (2 : Int) ^ (max (max x.exp y.exp) z.exp - z.exp) =
      2 ^ (max y.exp z.exp - z.exp) *
      2 ^ (max x.exp (max y.exp z.exp) - max y.exp z.exp) := by
    rw [← pow_add]
    congr 1
    omega
  linear_combination x.num * p1 + y.num * p2 + z.num * p3

end Dy

/-- C7: `RenderBatch::can_add_to_batch` returns true if and only if the
item's program equals the batch's program, its color and mask textures equal
the batch's, the batch has fewer than 65,535 vertices, and the matrix map
already contains the key's draw-list index or has fewer than 32 entries. -/
theorem can_add_to_batch_iff (b : RenderBatch) (item : DrawRenderItem)
    (key : DisplayItemKey) (program_id : Nat) :
    b.can_add_to_batch item key program_id = true ↔
      (program_id = b.program_id ∧
       item.color_texture_id = b.color_texture_id ∧
       item.mask_texture_id = b.mask_texture_id ∧
       b.vertices.length < 65535 ∧
       (containsA b.matrix_map key.draw_list_index = true ∨
        b.matrix_map.length < 32)) := by
  simp only [RenderBatch.can_add_to_batch, MAX_MATRICES_PER_BATCH,
    Bool.and_eq_true, Bool.or_eq_true, decide_eq_true_eq]
  tauto

/-- C4 counterexample: at a 600-by-600 leaf with split size 512 the claim's
condition for a width split holds (width > split_size and width ≥ height),
so the claim predicts side-by-side children of width 300 (the dyadic
`⟨600, 1⟩`) and full height 600; but `split_if_needed` splits along the
height: the children it creates keep width 600 and halve the height, and
600 and 300 differ in value. -/
theorem split_axis_counterexample :
    ((600 : Dy) > (512 : Dy) ∧ (600 : Dy) ≥ (600 : Dy)) ∧
    claimedSplitChildRects (Rct.mk4 0 0 600 600) 512 =
      some (⟨⟨0, 0⟩, ⟨⟨600, 1⟩, 600⟩⟩,
            ⟨⟨⟨600, 1⟩, 0⟩, ⟨⟨600, 1⟩, 600⟩⟩) ∧
    Dy.veq ⟨600, 1⟩ 300 ∧
    (((AABBTree.mk [AABBTreeNode.mkNew (Rct.mk4 0 0 600 600) 0]
        512).split_if_needed 0).nodeD 1).rect =
      ⟨⟨0, 0⟩, ⟨600, ⟨600, 1⟩⟩⟩ ∧
    (((AABBTree.mk [AABBTreeNode.mkNew (Rct.mk4 0 0 600 600) 0]
        512).split_if_needed 0).nodeD 2).rect =
      ⟨⟨0, ⟨600, 1⟩⟩, ⟨600, ⟨600, 1⟩⟩⟩ ∧
    ¬ Dy.veq (600 : Dy) ⟨600, 1⟩ := by
  decide

/-- C4 amended: during insertion descent a leaf of the spatial index is
split if and only if (its width > split_size and its width **strictly**
exceeds its height), giving a 50/50 split along the width, or otherwise
(its height > split_size), giving a 50/50 split along the height; a leaf
satisfying neither condition, and any non-leaf node, is never split. -/
theorem split_rule_strict_width (t : AABBTree) (i : Nat)
    (hi : i < t.nodes.length) :
    ((t.nodeD i).children ≠ none → t.split_if_needed i = t) ∧
    ((t.nodeD i).children = none →
      (¬(((t.nodeD i).rect.size.width > t.split_size ∧
          (t.nodeD i).rect.size.width > (t.nodeD i).rect.size.height) ∨
          (t.nodeD i).rect.size.height > t.split_size) →
        t.split_if_needed i = t) ∧
      (((t.nodeD i).rect.size.width > t.split_size ∧
        (t.nodeD i).rect.size.width > (t.nodeD i).rect.size.height) →
        (t.split_if_needed i).nodes.length = t.nodes.length + 2 ∧
        ((t.split_if_needed i).nodeD i).children = some t.nodes.length ∧
        ((t.split_if_needed i).nodeD t.nodes.length).rect =
          ⟨(t.nodeD i).rect.origin,
           ⟨Dy.half (t.nodeD i).rect.size.width,
            (t.nodeD i).rect.size.height⟩⟩ ∧
        ((t.split_if_needed i).nodeD (t.nodes.length + 1)).rect =
          ⟨⟨(t.nodeD i).rect.origin.x + Dy.half (t.nodeD i).rect.size.width,
            (t.nodeD i).rect.origin.y⟩,
           ⟨(t.nodeD i).rect.size.width -
              Dy.half (t.nodeD i).rect.size.width,
            (t.nodeD i).rect.size.height⟩⟩ ∧
        (Dy.half (t.nodeD i).rect.size.width).toRat =
          (t.nodeD i).rect.size.width.toRat / 2 ∧
        ((t.nodeD i).rect.size.width -
          Dy.half (t.nodeD i).rect.size.width).toRat =
          (t.nodeD i).rect.size.width.toRat / 2) ∧
      (¬((t.nodeD i).rect.size.width > t.split_size ∧
         (t.nodeD i).rect.size.width > (t.nodeD i).rect.size.height) →
        (t.nodeD i).rect.size.height > t.split_size →
        (t.split_if_needed i).nodes.length = t.nodes.length + 2 ∧
        ((t.split_if_needed i).nodeD i).children = some t.nodes.length ∧
        ((t.split_if_needed i).nodeD t.nodes.length).rect =
          ⟨(t.nodeD i).rect.origin,
           ⟨(t.nodeD i).rect.size.width,
            Dy.half (t.nodeD i).rect.size.height⟩⟩ ∧
        ((t.split_if_needed i).nodeD (t.nodes.length + 1)).rect =
          ⟨⟨(t.nodeD i).rect.origin.x,
            (t.nodeD i).rect.origin.y + Dy.half (t.nodeD i).rect.size.height⟩,
           ⟨(t.nodeD i).rect.size.width,
            (t.nodeD i).rect.size.height -
              Dy.half (t.nodeD i).rect.size.height⟩⟩ ∧
        (Dy.half (t.nodeD i).rect.size.height).toRat =
          (t.nodeD i).rect.size.height.toRat / 2 ∧
        ((t.nodeD i).rect.size.height -
          Dy.half (t.nodeD i).rect.size.height).toRat =
          (t.nodeD i).rect.size.height.toRat / 2)) := by
  have halfval : ∀ w : Dy, (Dy.half w).toRat = w.toRat / 2 := Dy.toRat_half
  have subhalf : ∀ w : Dy, (w - Dy.half w).toRat = w.toRat / 2 := by
    intro w
    rw [Dy.toRat_sub, Dy.toRat_half]
    ring
  constructor
  · intro hne
    unfold AABBTree.split_if_needed
    rw [if_neg hne]
  · intro hc
    refine ⟨?_, ?_, ?_⟩
    · intro hnone
      obtain ⟨hA, hB⟩ := not_or.mp hnone
      unfold AABBTree.split_if_needed
      rw [if_pos hc]
      simp only [if_neg hA, if_neg hB]
    · intro hw
      have key : t.split_if_needed i =
          AABBTree.setNode
            ⟨t.nodes ++
              [AABBTreeNode.mkNew ⟨(t.nodeD i).rect.origin,
                 ⟨(t.nodeD i).rect.size.width * Dy.onehalf,
                  (t.nodeD i).rect.size.height⟩⟩ t.nodes.length,
               AABBTreeNode.mkNew ⟨⟨(t.nodeD i).rect.origin.x +
                   (t.nodeD i).rect.size.width * Dy.onehalf,
                   (t.nodeD i).rect.origin.y⟩,
                 ⟨(t.nodeD i).rect.size.width -
                    (t.nodeD i).rect.size.width * Dy.onehalf,
                  (t.nodeD i).rect.size.height⟩⟩ (t.nodes.length + 1)],
              t.split_size⟩ i
            { t.nodeD i with children := some t.nodes.length } := by
        unfold AABBTree.split_if_needed
        rw [if_pos hc]
        simp only [if_pos hw]
        have hbase : (AABBTree.mk (t.nodes ++
            [AABBTreeNode.mkNew ⟨(t.nodeD i).rect.origin,
               ⟨(t.nodeD i).rect.size.width * Dy.onehalf,
                (t.nodeD i).rect.size.height⟩⟩ t.nodes.length,
             AABBTreeNode.mkNew ⟨⟨(t.nodeD i).rect.origin.x +
                 (t.nodeD i).rect.size.width * Dy.onehalf,
                 (t.nodeD i).rect.origin.y⟩,
               ⟨(t.nodeD i).rect.size.width -
                  (t.nodeD i).rect.size.width * Dy.onehalf,
                (t.nodeD i).rect.size.height⟩⟩ (t.nodes.length + 1)])
            t.split_size).nodeD i = t.nodeD i := by
          show (t.nodes ++ _).getD i defaultNode = t.nodes.getD i defaultNode
          rw [List.getD_eq_getElem?_getD, List.getD_eq_getElem?_getD,
            List.getElem?_append]
          rw [if_pos hi]
        rw [hbase]
      rw [key]
      unfold AABBTree.setNode AABBTree.nodeD
      refine ⟨?_, ?_, ?_, ?_, halfval _, subhalf _⟩
      · show (List.set _ i _).length = _
        rw [List.length_set, List.length_append]
        rfl
      · show ((List.set _ i _).getD i defaultNode).children = _
        rw [List.getD_eq_getElem?_getD, List.getElem?_set_self
          (by rw [List.length_append]; simp; omega)]
        rfl
      · show ((List.set _ i _).getD t.nodes.length defaultNode).rect = _
        rw [List.getD_eq_getElem?_getD,
          List.getElem?_set_ne (by omega),
          List.getElem?_append_right (Nat.le_refl _)]
        simp [AABBTreeNode.mkNew, Dy.mul_onehalf]
      · show ((List.set _ i _).getD (t.nodes.length + 1) defaultNode).rect = _
        rw [List.getD_eq_getElem?_getD,
          List.getElem?_set_ne (by omega),
          List.getElem?_append_right (by omega)]
        simp [AABBTreeNode.mkNew, Dy.mul_onehalf]
    · intro hnw hh
      have key : t.split_if_needed i =
          AABBTree.setNode
            ⟨t.nodes ++
              [AABBTreeNode.mkNew ⟨(t.nodeD i).rect.origin,
                 ⟨(t.nodeD i).rect.size.width,
                  (t.nodeD i).rect.size.height * Dy.onehalf⟩⟩ t.nodes.length,
               AABBTreeNode.mkNew ⟨⟨(t.nodeD i).rect.origin.x,
                   (t.nodeD i).rect.origin.y +
                     (t.nodeD i).rect.size.height * Dy.onehalf⟩,
                 ⟨(t.nodeD i).rect.size.width,
                  (t.nodeD i).rect.size.height -
                    (t.nodeD i).rect.size.height * Dy.onehalf⟩⟩
                 (t.nodes.length + 1)],
              t.split_size⟩ i
            { t.nodeD i with children := some t.nodes.length } := by
        unfold AABBTree.split_if_needed
        rw [if_pos hc]
        simp only [if_neg hnw, if_pos hh]
        have hbase : (AABBTree.mk (t.nodes ++
            [AABBTreeNode.mkNew ⟨(t.nodeD i).rect.origin,
               ⟨(t.nodeD i).rect.size.width,
                (t.nodeD i).rect.size.height * Dy.onehalf⟩⟩ t.nodes.length,
             AABBTreeNode.mkNew ⟨⟨(t.nodeD i).rect.origin.x,
                 (t.nodeD i).rect.origin.y +
                   (t.nodeD i).rect.size.height * Dy.onehalf⟩,
               ⟨(t.nodeD i).rect.size.width,
                (t.nodeD i).rect.size.height -
                  (t.nodeD i).rect.size.height * Dy.onehalf⟩⟩
               (t.nodes.length + 1)])
            t.split_size).nodeD i = t.nodeD i := by
          show (t.nodes ++ _).getD i defaultNode = t.nodes.getD i defaultNode
          rw [List.getD_eq_getElem?_getD, List.getD_eq_getElem?_getD,
            List.getElem?_append]
          rw [if_pos hi]
        rw [hbase]
      rw [key]
      unfold AABBTree.setNode AABBTree.nodeD
      refine ⟨?_, ?_, ?_, ?_, halfval _, subhalf _⟩
      · show (List.set _ i _).length = _
        rw [List.length_set, List.length_append]
        rfl
      · show ((List.set _ i _).getD i defaultNode).children = _
        rw [List.getD_eq_getElem?_getD, List.getElem?_set_self
          (by rw [List.length_append]; simp; omega)]
        rfl
      · show ((List.set _ i _).getD t.nodes.length defaultNode).rect = _
        rw [List.getD_eq_getElem?_getD,
          List.getElem?_set_ne (by omega),
          List.getElem?_append_right (Nat.le_refl _)]
        simp [AABBTreeNode.mkNew, Dy.mul_onehalf]
      · show ((List.set _ i _).getD (t.nodes.length + 1) defaultNode).rect = _
        rw [List.getD_eq_getElem?_getD,
          List.getElem?_set_ne (by omega),
          List.getElem?_append_right (by omega)]
        simp [AABBTreeNode.mkNew, Dy.mul_onehalf]

/-- C4 witness: the amended split rule evaluated at the concrete 600-by-600
root with split size 512 (the height-split branch fires). -/
theorem split_rule_strict_width_witness :
    (((AABBTree.mk [AABBTreeNode.mkNew (Rct.mk4 0 0 600 600) 0]
        512).split_if_needed 0).nodes.length = 3) :=
  (((split_rule_strict_width
      (AABBTree.mk [AABBTreeNode.mkNew (Rct.mk4 0 0 600 600) 0] 512) 0
      (by decide)).2 (by decide)).2.2 (by decide) (by decide)).1

/-- C10: `DisplayListBuilder::push_text` silently discards the text item when
the requested font size is at least `Au::from_px(4096)`, leaving the
builder's item list and auxiliary glyph list unchanged; for every size
strictly below that limit it appends exactly one `Text` display item
carrying the given rect, clip, color, blur radius and glyph range (the range
starting at the current end of the auxiliary glyph list). -/
theorem push_text_size_guard (b : WT.DisplayListBuilder) (rect : Rct)
    (clip : WT.ClipRegion) (glyphs : List WT.GlyphInstance)
    (font_key : WT.FontKey) (color : ColorF) (size blur_radius : Au) :
    (Au.from_px 4096 ≤ size →
      b.push_text rect clip glyphs font_key color size blur_radius = b) ∧
    (size < Au.from_px 4096 →
      (b.push_text rect clip glyphs font_key color size blur_radius).mode =
        b.mode ∧
      (b.push_text rect clip glyphs font_key color size blur_radius).list =
        b.list ++
          [⟨WT.SpecificDisplayItem.Text
              ⟨color, ⟨b.auxiliary_lists_builder.glyph_instances.length,
                 glyphs.length⟩, font_key, size, blur_radius⟩,
            rect, clip⟩] ∧
      (b.push_text rect clip glyphs font_key color size
          blur_radius).auxiliary_lists_builder.glyph_instances =
        b.auxiliary_lists_builder.glyph_instances ++ glyphs) := by
  constructor
  · intro h
    unfold WT.DisplayListBuilder.push_text
    rw [if_neg (not_lt.mpr h)]
  · intro h
    unfold WT.DisplayListBuilder.push_text
      WT.AuxiliaryListsBuilder.add_glyph_instances WT.ItemRange.new
    rw [if_pos h]
    exact ⟨rfl, rfl, rfl⟩

/-- C10 witness: a 5000-px text item is dropped; a 12-px one is appended with
its glyph range. -/
theorem push_text_size_guard_witness :
    ((WT.DisplayListBuilder.mk WT.DisplayListMode.Default [] ⟨[]⟩).push_text
        (Rct.mk4 0 0 10 10) ⟨Rct.mk4 0 0 10 10, ⟨0, 0⟩⟩ [⟨7, 1, 2⟩] 3
        ⟨1, 0, 0, 1⟩ (Au.from_px 5000) 0 =
      WT.DisplayListBuilder.mk WT.DisplayListMode.Default [] ⟨[]⟩) ∧
    (((WT.DisplayListBuilder.mk WT.DisplayListMode.Default [] ⟨[]⟩).push_text
        (Rct.mk4 0 0 10 10) ⟨Rct.mk4 0 0 10 10, ⟨0, 0⟩⟩ [⟨7, 1, 2⟩] 3
        ⟨1, 0, 0, 1⟩ (Au.from_px 12) 0).mode = WT.DisplayListMode.Default ∧
     ((WT.DisplayListBuilder.mk WT.DisplayListMode.Default [] ⟨[]⟩).push_text
        (Rct.mk4 0 0 10 10) ⟨Rct.mk4 0 0 10 10, ⟨0, 0⟩⟩ [⟨7, 1, 2⟩] 3
        ⟨1, 0, 0, 1⟩ (Au.from_px 12) 0).list =
      [] ++
        [⟨WT.SpecificDisplayItem.Text ⟨⟨1, 0, 0, 1⟩, ⟨0, 1⟩, 3,
            Au.from_px 12, 0⟩, Rct.mk4 0 0 10 10,
          ⟨Rct.mk4 0 0 10 10, ⟨0, 0⟩⟩⟩] ∧
     ((WT.DisplayListBuilder.mk WT.DisplayListMode.Default [] ⟨[]⟩).push_text
        (Rct.mk4 0 0 10 10) ⟨Rct.mk4 0 0 10 10, ⟨0, 0⟩⟩ [⟨7, 1, 2⟩] 3
        ⟨1, 0, 0, 1⟩ (Au.from_px 12)
        0).auxiliary_lists_builder.glyph_instances =
      [] ++ [⟨7, 1, 2⟩]) :=
  ⟨(push_text_size_guard (WT.DisplayListBuilder.mk WT.DisplayListMode.Default
      [] ⟨[]⟩) (Rct.mk4 0 0 10 10) ⟨Rct.mk4 0 0 10 10, ⟨0, 0⟩⟩ [⟨7, 1, 2⟩] 3
      ⟨1, 0, 0, 1⟩ (Au.from_px 5000) 0).1 (by decide),
   (push_text_size_guard (WT.DisplayListBuilder.mk WT.DisplayListMode.Default
      [] ⟨[]⟩) (Rct.mk4 0 0 10 10) ⟨Rct.mk4 0 0 10 10, ⟨0, 0⟩⟩ [⟨7, 1, 2⟩] 3
      ⟨1, 0, 0, 1⟩ (Au.from_px 12) 0).2 (by decide)⟩

/-- C3 counterexample: starting from a fresh scene (offset zero), scrolling
by (5, 0) and then (−3, 0) ends at offset −3 on the x axis, while the single
scroll by their sum (2, 0) ends at 0 — the per-scroll clamp breaks
additivity, so the claim fails for deltas that push the offset positive. -/
theorem scroll_clamping_counterexample :
    Dy.veq ((Scene.new.scroll ⟨5, 0⟩).scroll ⟨-3, 0⟩).scroll_offset.x (-3) ∧
    Dy.veq (Scene.new.scroll (Pnt.add ⟨5, 0⟩ ⟨-3, 0⟩)).scroll_offset.x 0 ∧
    ¬ Dy.veq (-3 : Dy) 0 ∧
    (Scene.new.scroll ⟨5, 0⟩).scroll ⟨-3, 0⟩ ≠
      Scene.new.scroll (Pnt.add ⟨5, 0⟩ ⟨-3, 0⟩) := by
  decide

/-- C3 amended: when the intermediate offset `s + a` is already ≤ 0 on each
axis (in particular for any sequence of non-positive deltas from a clamped
offset), `Scroll(a)` then `Scroll(b)` ends in exactly the same scene state —
and hence the same matrix palettes, which are each draw list's
`final_transform` composed with the scroll translation — as the single
`Scroll(a+b)`. -/
theorem scroll_additivity_when_unclamped (s : Scene) (a b : Pnt)
    (hx : s.scroll_offset.x + a.x ≤ (0 : Dy))
    (hy : s.scroll_offset.y + a.y ≤ (0 : Dy)) :
    (s.scroll a).scroll b = s.scroll (Pnt.add a b) ∧
    ∀ (flat : List FlatDrawList) (mm : List (Nat × Nat)),
      buildPalette flat ((s.scroll a).scroll b).scroll_offset mm =
        buildPalette flat (s.scroll (Pnt.add a b)).scroll_offset mm := by
  have hxe : Dy.dmin (s.scroll_offset.x + a.x) 0 = s.scroll_offset.x + a.x
      := by
    unfold Dy.dmin
    rw [if_pos hx]
  have hye : Dy.dmin (s.scroll_offset.y + a.y) 0 = s.scroll_offset.y + a.y
      := by
    unfold Dy.dmin
    rw [if_pos hy]
  have h1 : (s.scroll a).scroll b = s.scroll (Pnt.add a b) := by
    unfold Scene.scroll Pnt.add
    dsimp only
    rw [hxe, hye, Dy.add_assoc_rep, Dy.add_assoc_rep]
  exact ⟨h1, fun flat mm => by rw [h1]⟩

/-- C3 witness: the spec's S5 scenario, Scroll((−10, −20)) then
Scroll((−5, 0)) equals Scroll((−15, −20)). -/
theorem scroll_additivity_witness :
    (Scene.new.scroll ⟨-10, -20⟩).scroll ⟨-5, 0⟩ =
      Scene.new.scroll (Pnt.add ⟨-10, -20⟩ ⟨-5, 0⟩) :=
  (scroll_additivity_when_unclamped Scene.new ⟨-10, -20⟩ ⟨-5, 0⟩
    (by decide) (by decide)).1

/-! ### Cull correctness (C6) -/

theorem length_setNode (t : AABBTree) (i : Nat) (n : AABBTreeNode) :
    (t.setNode i n).nodes.length = t.nodes.length := by
  unfold AABBTree.setNode
  exact List.length_set t.nodes i n

theorem nodeD_setNode_self (t : AABBTree) (i : Nat) (n : AABBTreeNode)
    (hi : i < t.nodes.length) : (t.setNode i n).nodeD i = n := by
  unfold AABBTree.setNode AABBTree.nodeD
  show (t.nodes.set i n).getD i defaultNode = n
  rw [List.getD_eq_getElem?_getD, List.getElem?_set_self hi]
  rfl

theorem nodeD_setNode_ne (t : AABBTree) (i : Nat) (n : AABBTreeNode)
    (j : Nat) (h : i ≠ j) : (t.setNode i n).nodeD j = t.nodeD j := by
  unfold AABBTree.setNode AABBTree.nodeD
  show (t.nodes.set i n).getD j defaultNode = t.nodes.getD j defaultNode
  rw [List.getD_eq_getElem?_getD, List.getElem?_set_ne h,
    List.getD_eq_getElem?_getD]

theorem nodeD_setNode_oob (t : AABBTree) (i : Nat) (n : AABBTreeNode)
    (hi : t.nodes.length ≤ i) (j : Nat) :
    (t.setNode i n).nodeD j = t.nodeD j := by
  unfold AABBTree.setNode AABBTree.nodeD
  show (t.nodes.set i n).getD j defaultNode = t.nodes.getD j defaultNode
  rw [List.set_eq_of_length_le hi]

theorem skelEq_refl (t : AABBTree) : skelEq t t :=
  ⟨rfl, fun _ => ⟨rfl, rfl⟩⟩

theorem skelEq_trans {t t2 t3 : AABBTree} (h1 : skelEq t t2)
    (h2 : skelEq t2 t3) : skelEq t t3 :=
  ⟨h2.1.trans h1.1, fun k => ⟨(h2.2 k).1.trans (h1.2 k).1,
    (h2.2 k).2.trans (h1.2 k).2⟩⟩

theorem skelEq_set_visible (t : AABBTree) (i : Nat) (b : Bool) :
    skelEq t (t.setNode i { t.nodeD i with is_visible := b }) := by
  by_cases hi : i < t.nodes.length
  · refine ⟨length_setNode t i _, fun k => ?_⟩
    by_cases h : i = k
    · subst h
      rw [nodeD_setNode_self t i _ hi]
      exact ⟨rfl, rfl⟩
    · rw [nodeD_setNode_ne t i _ k h]
      exact ⟨rfl, rfl⟩
  · refine ⟨length_setNode t i _, fun k => ?_⟩
    rw [nodeD_setNode_oob t i _ (Nat.le_of_not_lt hi) k]
    exact ⟨rfl, rfl⟩

theorem check_skel (v : Rct) :
    ∀ (fuel : Nat) (t : AABBTree) (i : Nat),
      skelEq t (t.check_node_visibility fuel i v) := by
  intro fuel
  induction fuel with
  | zero =>
    intro t i
    exact skelEq_refl t
  | succ fuel ih =>
    intro t i
    show skelEq t (t.check_node_visibility (fuel + 1) i v)
    rw [AABBTree.check_node_visibility]
    by_cases h : (t.nodeD i).rect.intersects v
    · rw [if_pos h]
      rcases hc : ((t.setNode i { t.nodeD i with is_visible := true }).nodeD
          i).children with _ | c
      · simp only [hc]
        exact skelEq_set_visible t i true
      · simp only [hc]
        exact skelEq_trans (skelEq_set_visible t i true)
          (skelEq_trans (ih _ _) (ih _ _))
    · rw [if_neg h]
      exact skelEq_refl t

theorem check_monotone (v : Rct) :
    ∀ (fuel : Nat) (t : AABBTree) (i j : Nat),
      (t.nodeD j).is_visible = true →
      ((t.check_node_visibility fuel i v).nodeD j).is_visible = true := by
  intro fuel
  induction fuel with
  | zero =>
    intro t i j h
    exact h
  | succ fuel ih =>
    intro t i j h
    rw [AABBTree.check_node_visibility]
    by_cases hint : (t.nodeD i).rect.intersects v
    · rw [if_pos hint]
      have h2 : ((t.setNode i { t.nodeD i with is_visible := true }).nodeD
          j).is_visible = true := by
        by_cases hi : i < t.nodes.length
        · by_cases hij : i = j
          · subst hij
            rw [nodeD_setNode_self t i _ hi]
          · rw [nodeD_setNode_ne t i _ j hij]
            exact h
        · rw [nodeD_setNode_oob t i _ (Nat.le_of_not_lt hi) j]
          exact h
      rcases hc : ((t.setNode i { t.nodeD i with is_visible := true }).nodeD
          i).children with _ | c
      · simp only [hc]
        exact h2
      · simp only [hc]
        exact ih _ _ _ (ih _ _ _ h2)
    · rw [if_neg hint]
      exact h

theorem check_sound (v : Rct) :
    ∀ (fuel : Nat) (t : AABBTree) (i j : Nat),
      ((t.check_node_visibility fuel i v).nodeD j).is_visible = true →
      (t.nodeD j).is_visible = true ∨ (t.nodeD j).rect.intersects v := by
  intro fuel
  induction fuel with
  | zero =>
    intro t i j h
    exact Or.inl h
  | succ fuel ih =>
    intro t i j h
    rw [AABBTree.check_node_visibility] at h
    by_cases hint : (t.nodeD i).rect.intersects v
    · rw [if_pos hint] at h
      have unwind :
          ((t.setNode i { t.nodeD i with is_visible := true }).nodeD
            j).is_visible = true →
          (t.nodeD j).is_visible = true ∨ (t.nodeD j).rect.intersects v := by
        intro h2
        by_cases hi : i < t.nodes.length
        · by_cases hij : i = j
          · subst hij
            exact Or.inr hint
          · rw [nodeD_setNode_ne t i _ j hij] at h2
            exact Or.inl h2
        · rw [nodeD_setNode_oob t i _ (Nat.le_of_not_lt hi) j] at h2
          exact Or.inl h2
      rcases hc : ((t.setNode i { t.nodeD i with is_visible := true }).nodeD
          i).children with _ | c
      · simp only [hc] at h
        exact unwind h
      · simp only [hc] at h
        have s1 := skelEq_set_visible t i true
        have s2 := skelEq_trans s1 (check_skel v fuel _ c)
        rcases ih _ _ _ h with h3 | h3
        · rcases ih _ _ _ h3 with h4 | h4
          · exact unwind h4
          · rw [(s1.2 j).1] at h4
            exact Or.inr h4
        · rw [(s2.2 j).1] at h3
          exact Or.inr h3
    · rw [if_neg hint] at h
      exact Or.inl h

theorem marks_transfer {t t2 : AABBTree} {v : Rct} (h : skelEq t t2)
    {i j : Nat} (hm : Marks t v i j) : Marks t2 v i j := by
  induction hm with
  | here i hint =>
    exact Marks.here i (((h.2 i).1).symm ▸ hint)
  | childL i j c hint hc _ ih =>
    exact Marks.childL i j c (((h.2 i).1).symm ▸ hint)
      (((h.2 i).2).symm ▸ hc) ih
  | childR i j c hint hc _ ih =>
    exact Marks.childR i j c (((h.2 i).1).symm ▸ hint)
      (((h.2 i).2).symm ▸ hc) ih

theorem childOk_skel {t t2 : AABBTree} (h : skelEq t t2) (k : Nat)
    (hk : childOk t k) : childOk t2 k := by
  unfold childOk at hk ⊢
  rw [(h.2 k).2]
  rcases hc : (t.nodeD k).children with _ | c
  · rw [hc] at hk
    exact trivial
  · rw [hc] at hk
    dsimp only at hk ⊢
    rw [(h.2 c).1, (h.2 (c + 1)).1, (h.2 k).1, h.1]
    exact hk

theorem check_complete (v : Rct) :
    ∀ (fuel : Nat) (t : AABBTree) (i j : Nat),
      (∀ k, k < t.nodes.length → childOk t k) →
      i < t.nodes.length →
      t.nodes.length - i ≤ fuel →
      Marks t v i j →
      ((t.check_node_visibility fuel i v).nodeD j).is_visible = true := by
  intro fuel
  induction fuel with
  | zero =>
    intro t i j _ hi hfuel _
    omega
  | succ fuel ih =>
    intro t i j hco hi hfuel hm
    have hint : (t.nodeD i).rect.intersects v := by
      cases hm with
      | here _ h => exact h
      | childL _ _ _ h _ _ => exact h
      | childR _ _ _ h _ _ => exact h
    rw [AABBTree.check_node_visibility, if_pos hint]
    have s1 := skelEq_set_visible t i true
    cases hm with
    | here _ h =>
      have h2 : ((t.setNode i { t.nodeD i with is_visible := true }).nodeD
          i).is_visible = true := by
        rw [nodeD_setNode_self t i _ hi]
      rcases hc : ((t.setNode i { t.nodeD i with is_visible := true }).nodeD
          i).children with _ | c
      · simp only [hc]
        exact h2
      · simp only [hc]
        exact check_monotone v fuel _ _ _ (check_monotone v fuel _ _ _ h2)
    | childL _ _ c h hc hmc =>
      have hc2 : ((t.setNode i { t.nodeD i with is_visible := true }).nodeD
          i).children = some c := by
        rw [(s1.2 i).2]
        exact hc
      simp only [hc2]
      have hcoi := hco i hi
      unfold childOk at hcoi
      rw [hc] at hcoi
      have hclen : c < t.nodes.length := by omega
      have hm2 : Marks (t.setNode i { t.nodeD i with is_visible := true })
          v c j := marks_transfer s1 hmc
      have hres := ih _ c j
        (fun k hk => childOk_skel s1 k (hco k (by rwa [s1.1] at hk)))
        (by rwa [s1.1]) (by rw [s1.1]; omega) hm2
      exact check_monotone v fuel _ _ _ hres
    | childR _ _ c h hc hmc =>
      have hc2 : ((t.setNode i { t.nodeD i with is_visible := true }).nodeD
          i).children = some c := by
        rw [(s1.2 i).2]
        exact hc
      simp only [hc2]
      have hcoi := hco i hi
      unfold childOk at hcoi
      rw [hc] at hcoi
      have s2 := skelEq_trans s1 (check_skel v fuel _ c)
      have hm2 : Marks ((t.setNode i { t.nodeD i with is_visible :=
          true }).check_node_visibility fuel c v) v (c + 1) j :=
        marks_transfer s2 hmc
      exact ih _ (c + 1) j
        (fun k hk => childOk_skel s2 k (hco k (by rwa [s2.1] at hk)))
        (by rw [s2.1]; omega) (by rw [s2.1]; omega) hm2

theorem intersects_of_contained {r R v : Rct} (hc : r.containedIn R)
    (h : r.intersects v) : R.intersects v := by
  obtain ⟨h1, h2, h3, h4⟩ := hc
  obtain ⟨g1, g2, g3, g4⟩ := h
  unfold Rct.max_x at h2
  unfold Rct.max_y at h4
  rw [Dy.le_iff_toRat] at h1 h2 h3 h4
  rw [Dy.lt_iff_toRat] at g1 g2 g3 g4
  simp only [Dy.toRat_add] at h2 h4 g1 g2 g3 g4
  refine ⟨?_, ?_, ?_, ?_⟩ <;> rw [Dy.lt_iff_toRat] <;>
    simp only [Dy.toRat_add] <;> linarith

theorem marks_append {t : AABBTree} {v : Rct} {a b : Nat}
    (hm : Marks t v a b) : ∀ {c j : Nat},
    (t.nodeD b).children = some c → (j = c ∨ j = c + 1) →
    (t.nodeD j).rect.intersects v → Marks t v a j := by
  induction hm with
  | here i h =>
    intro c j hc hj hint
    rcases hj with h2 | h2
    · refine Marks.childL i j c h hc ?_
      rw [h2] at hint ⊢
      exact Marks.here c hint
    · refine Marks.childR i j c h hc ?_
      rw [h2] at hint ⊢
      exact Marks.here (c + 1) hint
  | childL i b2 c0 h hc0 _ ih =>
    intro c j hc hj hint
    exact Marks.childL i j c0 h hc0 (ih hc hj hint)
  | childR i b2 c0 h hc0 _ ih =>
    intro c j hc hj hint
    exact Marks.childR i j c0 h hc0 (ih hc hj hint)

theorem reach_root (t : AABBTree) (v : Rct) (hwf : t.wf) :
    ∀ j, j < t.nodes.length → (t.nodeD j).rect.intersects v →
      Marks t v 0 j := by
  intro j
  induction j using Nat.strong_induction_on with
  | _ j ihj =>
    intro hj hint
    by_cases h0 : j = 0
    · subst h0
      exact Marks.here 0 hint
    · obtain ⟨i, hi, hch⟩ := hwf.2.2 j hj h0
      have hcoi := hwf.2.1 i hi
      unfold childOk at hcoi
      unfold isChildOf at hch
      rcases hcc : (t.nodeD i).children with _ | c
      · rw [hcc] at hch
        exact hch.elim
      · rw [hcc] at hch hcoi
        obtain ⟨hic, hlen, hcl, hcr⟩ := hcoi
        have hij : i < j := by omega
        have hcont : (t.nodeD j).rect.containedIn (t.nodeD i).rect := by
          rcases hch with h2 | h2
          · subst h2
            exact hcl
          · subst h2
            exact hcr
        have hiint : (t.nodeD i).rect.intersects v :=
          intersects_of_contained hcont hint
        exact marks_append (ihj i hij hi hiint) hcc hch hint

theorem cleared_props (t : AABBTree) (k : Nat) :
    ((AABBTree.mk (t.nodes.map (fun n => { n with is_visible := false }))
        t.split_size).nodeD k).rect = (t.nodeD k).rect ∧
    ((AABBTree.mk (t.nodes.map (fun n => { n with is_visible := false }))
        t.split_size).nodeD k).children = (t.nodeD k).children ∧
    ((AABBTree.mk (t.nodes.map (fun n => { n with is_visible := false }))
        t.split_size).nodeD k).is_visible = false := by
  unfold AABBTree.nodeD
  rw [List.getD_eq_getElem?_getD, List.getD_eq_getElem?_getD,
    List.getElem?_map]
  rcases t.nodes[k]? with _ | n
  · exact ⟨rfl, rfl, rfl⟩
  · exact ⟨rfl, rfl, rfl⟩

theorem cleared_skel (t : AABBTree) :
    skelEq t (AABBTree.mk (t.nodes.map (fun n =>
      { n with is_visible := false })) t.split_size) :=
  ⟨List.length_map t.nodes _,
    fun k => ⟨(cleared_props t k).1, (cleared_props t k).2.1⟩⟩

theorem wf_skel {t t2 : AABBTree} (h : skelEq t t2) (hwf : t.wf) : t2.wf := by
  refine ⟨by rw [h.1]; exact hwf.1, fun i hi => ?_, fun j hj hj0 => ?_⟩
  · exact childOk_skel h i (hwf.2.1 i (by rwa [h.1] at hi))
  · obtain ⟨i, hi, hch⟩ := hwf.2.2 j (by rwa [h.1] at hj) hj0
    refine ⟨i, by rwa [h.1], ?_⟩
    unfold isChildOf at hch ⊢
    rw [(h.2 i).2]
    exact hch

/-- C6: after `cull(viewport)` runs, a node of a well-formed spatial index is
marked visible if and only if its rectangle intersects the viewport (the DFS
stops at non-intersecting nodes, and every child rectangle is contained in
its parent's, which the well-formedness hypothesis records). -/
theorem cull_visibility_iff (t : AABBTree) (v : Rct) (hwf : t.wf) (j : Nat)
    (hj : j < t.nodes.length) :
    ((t.cull v).nodeD j).is_visible = true ↔
      (t.nodeD j).rect.intersects v := by
  unfold AABBTree.cull
  have hskel := cleared_skel t
  have hlen : (t.nodes.map (fun n =>
      { n with is_visible := false })).length = t.nodes.length :=
    List.length_map t.nodes _
  rw [if_pos (by rw [hlen]; omega)]
  constructor
  · intro hvis
    rcases check_sound v _ _ 0 j hvis with h2 | h2
    · rw [(cleared_props t j).2.2] at h2
      exact absurd h2 (by simp)
    · rwa [(hskel.2 j).1] at h2
  · intro hint
    have hm : Marks (AABBTree.mk (t.nodes.map (fun n =>
        { n with is_visible := false })) t.split_size) v 0 j :=
      reach_root _ v (wf_skel hskel hwf) j (by rwa [hlen])
        (by rw [(hskel.2 j).1]; exact hint)
    exact check_complete v _ _ 0 j
      (fun k hk => (wf_skel hskel hwf).2.1 k hk)
      (by rw [hlen]; omega)
      (by rw [hlen]; omega) hm

/-- C6 witness: in the concrete three-node tree, culling against the
40-wide viewport marks the left child visible. -/
theorem cull_visibility_iff_witness :
    ((c6Tree.cull c6View).nodeD 1).is_visible = true :=
  (cull_visibility_iff c6Tree c6View (by decide) 1 (by decide)).mpr
    (by decide)


/-! ### Insert descent (C5) -/

theorem append_nodeD_src (t : AABBTree) (A B : AABBTreeNode)
    (hA : A.src_items = []) (hB : B.src_items = []) (k : Nat) :
    ((AABBTree.mk (t.nodes ++ [A, B]) t.split_size).nodeD k).src_items =
      (t.nodeD k).src_items := by
  unfold AABBTree.nodeD
  rw [List.getD_eq_getElem?_getD, List.getD_eq_getElem?_getD,
    List.getElem?_append]
  by_cases hk : k < t.nodes.length
  · rw [if_pos hk]
  · rw [if_neg hk]
    have hnone : t.nodes[k]? = none :=
      List.getElem?_eq_none (Nat.le_of_not_lt hk)
    rw [hnone]
    by_cases h0 : k - t.nodes.length = 0
    · rw [h0]
      exact hA
    · by_cases h1 : k - t.nodes.length = 1
      · rw [h1]
        exact hB
      · have : ([A, B] : List AABBTreeNode)[k - t.nodes.length]? = none :=
          List.getElem?_eq_none (by simp; omega)
        rw [this]

theorem setNode_append_src (t : AABBTree) (i : Nat) (A B : AABBTreeNode)
    (hA : A.src_items = []) (hB : B.src_items = []) (c : Option Nat)
    (k : Nat) :
    (((AABBTree.mk (t.nodes ++ [A, B]) t.split_size).setNode i
      { (AABBTree.mk (t.nodes ++ [A, B]) t.split_size).nodeD i with
        children := c }).nodeD k).src_items = (t.nodeD k).src_items := by
  by_cases hik : i = k
  · subst hik
    by_cases hi : i < t.nodes.length + 2
    · have hi2 : i < (AABBTree.mk (t.nodes ++ [A, B])
          t.split_size).nodes.length := by
        simp [List.length_append]
        omega
      rw [nodeD_setNode_self _ _ _ hi2]
      exact append_nodeD_src t A B hA hB i
    · rw [nodeD_setNode_oob _ _ _ (by simp [List.length_append]; omega) i]
      exact append_nodeD_src t A B hA hB i
  · rw [nodeD_setNode_ne _ _ _ _ hik]
    exact append_nodeD_src t A B hA hB k

theorem split_preserves_src (t : AABBTree) (i k : Nat) :
    ((t.split_if_needed i).nodeD k).src_items = (t.nodeD k).src_items := by
  unfold AABBTree.split_if_needed
  by_cases hch : (t.nodeD i).children = none
  · rw [if_pos hch]
    by_cases h1 : ((t.nodeD i).rect.size.width > t.split_size ∧
        (t.nodeD i).rect.size.width > (t.nodeD i).rect.size.height)
    · simp only [if_pos h1]
      exact setNode_append_src t i _ _ rfl rfl _ k
    · by_cases h2 : (t.nodeD i).rect.size.height > t.split_size
      · simp only [if_neg h1, if_pos h2]
        exact setNode_append_src t i _ _ rfl rfl _ k
      · simp only [if_neg h1, if_neg h2]
  · rw [if_neg hch]

theorem find_best_descent (rect : Rct) :
    ∀ (fuel : Nat) (t : AABBTree) (i : Nat) (t2 : AABBTree)
      (res : Option Nat),
      t.find_best_node fuel i rect = some (t2, res) →
      Descent rect t i t2 res := by
  intro fuel
  induction fuel with
  | zero =>
    intro t i t2 res h
    exact absurd h (by rw [AABBTree.find_best_node]; simp)
  | succ fuel ih =>
    intro t i t2 res h
    rw [AABBTree.find_best_node] at h
    dsimp only at h
    rcases hc : ((t.split_if_needed i).nodeD i).children with _ | c
    · rw [hc] at h
      dsimp only at h
      injection h with h
      injection h with h1 h2
      subst h1
      subst h2
      exact Descent.store_leaf t i hc
    · rw [hc] at h
      dsimp only at h
      by_cases hl : ((t.split_if_needed i).nodeD c).rect.intersects rect
      · by_cases hr : ((t.split_if_needed i).nodeD (c + 1)).rect.intersects
            rect
        · rw [if_pos ⟨hl, hr⟩] at h
          injection h with h
          injection h with h1 h2
          subst h1
          subst h2
          exact Descent.store_both t i c hc hl hr
        · rw [if_neg (by intro hand; exact hr hand.2), if_pos hl] at h
          exact Descent.go_left t i c t2 res hc hl hr (ih _ _ _ _ h)
      · rw [if_neg (by intro hand; exact hl hand.1), if_neg hl] at h
        by_cases hr : ((t.split_if_needed i).nodeD (c + 1)).rect.intersects
            rect
        · rw [if_pos hr] at h
          exact Descent.go_right t i c t2 res hc hl hr (ih _ _ _ _ h)
        · rw [if_neg hr] at h
          injection h with h
          injection h with h1 h2
          subst h1
          subst h2
          exact Descent.drop t i c hc hl hr

theorem find_best_preserves_src (rect : Rct) :
    ∀ (fuel : Nat) (t : AABBTree) (i : Nat) (t2 : AABBTree)
      (res : Option Nat),
      t.find_best_node fuel i rect = some (t2, res) →
      ∀ k, (t2.nodeD k).src_items = (t.nodeD k).src_items := by
  intro fuel
  induction fuel with
  | zero =>
    intro t i t2 res h
    exact absurd h (by rw [AABBTree.find_best_node]; simp)
  | succ fuel ih =>
    intro t i t2 res h k
    rw [AABBTree.find_best_node] at h
    dsimp only at h
    rcases hc : ((t.split_if_needed i).nodeD i).children with _ | c
    · rw [hc] at h
      dsimp only at h
      injection h with h
      injection h with h1 h2
      subst h1
      exact split_preserves_src t i k
    · rw [hc] at h
      dsimp only at h
      by_cases hl : ((t.split_if_needed i).nodeD c).rect.intersects rect
      · by_cases hr : ((t.split_if_needed i).nodeD (c + 1)).rect.intersects
            rect
        · rw [if_pos ⟨hl, hr⟩] at h
          injection h with h
          injection h with h1 h2
          subst h1
          exact split_preserves_src t i k
        · rw [if_neg (by intro hand; exact hr hand.2), if_pos hl] at h
          rw [ih _ _ _ _ h k]
          exact split_preserves_src t i k
      · rw [if_neg (by intro hand; exact hl hand.1), if_neg hl] at h
        by_cases hr : ((t.split_if_needed i).nodeD (c + 1)).rect.intersects
            rect
        · rw [if_pos hr] at h
          rw [ih _ _ _ _ h k]
          exact split_preserves_src t i k
        · rw [if_neg hr] at h
          injection h with h
          injection h with h1 h2
          subst h1
          exact split_preserves_src t i k

/-- C5: characterization of `AABBTree::insert`.  The descent from the root
follows exactly the claim's rule (`Descent`): store at the current node when
the rectangle intersects both children, continue into the single
intersecting child, drop the insert when neither child intersects, store at
a leaf.  When a node is returned, `insert` appends the item key exactly
there; when the insert is dropped, no node's stored items change (the
descent's splits remain). -/
theorem insert_descent_characterization (t : AABBTree) (fuel : Nat)
    (rect : Rct) (dli ii : Nat) :
    (∀ t2 res, t.find_best_node fuel 0 rect = some (t2, res) →
      Descent rect t 0 t2 res) ∧
    (∀ t3 n, t.find_best_node fuel 0 rect = some (t3, some n) →
      t.insert fuel rect dli ii =
        some (t3.setNode n ((t3.nodeD n).append_item dli ii), some n) ∧
      Descent rect t 0 t3 (some n) ∧
      (n < t3.nodes.length →
        ((t3.setNode n ((t3.nodeD n).append_item dli ii)).nodeD
          n).src_items = (t.nodeD n).src_items ++ [⟨dli, ii⟩])) ∧
    (∀ t3, t.find_best_node fuel 0 rect = some (t3, none) →
      t.insert fuel rect dli ii = some (t3, none) ∧
      Descent rect t 0 t3 none ∧
      ∀ k, (t3.nodeD k).src_items = (t.nodeD k).src_items) := by
  refine ⟨fun t2 res h => find_best_descent rect fuel t 0 t2 res h,
    fun t3 n h => ?_, fun t3 h => ?_⟩
  · refine ⟨?_, find_best_descent rect fuel t 0 t3 (some n) h, fun hn => ?_⟩
    · unfold AABBTree.insert
      rw [h]
    · rw [nodeD_setNode_self _ _ _ hn]
      unfold AABBTreeNode.append_item
      rw [find_best_preserves_src rect fuel t 0 t3 (some n) h n]
  · refine ⟨?_, find_best_descent rect fuel t 0 t3 none h,
      fun k => find_best_preserves_src rect fuel t 0 t3 none h k⟩
    unfold AABBTree.insert
    rw [h]

/-- C5 witness: inserting a small rectangle into the fresh 800-by-600 index
descends through three splits and the result satisfies the descent rule. -/
theorem insert_descent_characterization_witness :
    Descent (Rct.mk4 10 10 10 10) c5Tree 0
      ((c5Tree.find_best_node 10 0 (Rct.mk4 10 10 10 10)).getD
        (c5Tree, none)).1
      ((c5Tree.find_best_node 10 0 (Rct.mk4 10 10 10 10)).getD
        (c5Tree, none)).2 :=
  (insert_descent_characterization c5Tree 10 (Rct.mk4 10 10 10 10) 0 0).1 _ _
    (by decide)


/-! ### Batch caps (C2) -/

theorem add_draw_item_program (b : RenderBatch) (item : DrawRenderItem)
    (vb : List WorkVertex) (key : DisplayItemKey) (dpr : Dy) :
    (b.add_draw_item item vb key dpr).program_id = b.program_id := rfl

theorem add_draw_item_color (b : RenderBatch) (item : DrawRenderItem)
    (vb : List WorkVertex) (key : DisplayItemKey) (dpr : Dy) :
    (b.add_draw_item item vb key dpr).color_texture_id =
      b.color_texture_id := rfl

theorem add_draw_item_mask (b : RenderBatch) (item : DrawRenderItem)
    (vb : List WorkVertex) (key : DisplayItemKey) (dpr : Dy) :
    (b.add_draw_item item vb key dpr).mask_texture_id =
      b.mask_texture_id := rfl

theorem add_draw_item_sort_key (b : RenderBatch) (item : DrawRenderItem)
    (vb : List WorkVertex) (key : DisplayItemKey) (dpr : Dy) :
    (b.add_draw_item item vb key dpr).sort_key = b.sort_key := rfl

theorem add_draw_item_batch_id (b : RenderBatch) (item : DrawRenderItem)
    (vb : List WorkVertex) (key : DisplayItemKey) (dpr : Dy) :
    (b.add_draw_item item vb key dpr).batch_id = b.batch_id := rfl

theorem add_draw_item_item_keys (b : RenderBatch) (item : DrawRenderItem)
    (vb : List WorkVertex) (key : DisplayItemKey) (dpr : Dy) :
    (b.add_draw_item item vb key dpr).item_keys = b.item_keys ++ [key] := rfl

theorem add_draw_item_vertices_length (b : RenderBatch)
    (item : DrawRenderItem) (vb : List WorkVertex) (key : DisplayItemKey)
    (dpr : Dy) :
    (b.add_draw_item item vb key dpr).vertices.length =
      b.vertices.length + item.vertex_count := by
  unfold RenderBatch.add_draw_item
  dsimp only
  simp [List.length_append, List.length_map, List.length_range]

theorem add_draw_item_matrix_some (b : RenderBatch) (item : DrawRenderItem)
    (vb : List WorkVertex) (key : DisplayItemKey) (dpr : Dy) (v : Nat)
    (h : lookupA b.matrix_map key.draw_list_index = some v) :
    (b.add_draw_item item vb key dpr).matrix_map = b.matrix_map := by
  unfold RenderBatch.add_draw_item
  dsimp only
  rw [h]

theorem add_draw_item_matrix_none (b : RenderBatch) (item : DrawRenderItem)
    (vb : List WorkVertex) (key : DisplayItemKey) (dpr : Dy)
    (h : lookupA b.matrix_map key.draw_list_index = none) :
    (b.add_draw_item item vb key dpr).matrix_map =
      b.matrix_map ++ [(key.draw_list_index, b.matrix_map.length)] := by
  unfold RenderBatch.add_draw_item
  dsimp only
  rw [h]

theorem finalizeStep_add (b : DrawCommandBuilder) (acc : FinalizeAcc)
    (cb : RenderBatch) (sk : DisplayItemKey) (info : DrawRenderItem)
    (hacc : acc.current_batch = some cb)
    (hcan : cb.can_add_to_batch info sk (b.programFor info.primitive) =
      true) :
    finalizeStep b acc ⟨sk, RenderItemInfo.Draw info⟩ =
      { acc with current_batch := some (cb.add_draw_item info
          b.vertex_buffer sk b.device_pixel_ratio) } := by
  unfold finalizeStep
  dsimp only
  rw [hacc]
  dsimp only
  rw [hcan]
  rw [if_neg (by simp)]

theorem finalizeStep_flush_new (b : DrawCommandBuilder) (acc : FinalizeAcc)
    (cb : RenderBatch) (sk : DisplayItemKey) (info : DrawRenderItem)
    (hacc : acc.current_batch = some cb)
    (hcan : cb.can_add_to_batch info sk (b.programFor info.primitive) =
      false) :
    finalizeStep b acc ⟨sk, RenderItemInfo.Draw info⟩ =
      { flushCurrent b.render_target_index acc with
        current_batch := some ((RenderBatch.new
          (flushCurrent b.render_target_index acc).next_batch_id sk
          (b.programFor info.primitive) info.color_texture_id
          info.mask_texture_id).add_draw_item info b.vertex_buffer sk
          b.device_pixel_ratio),
        next_batch_id :=
          (flushCurrent b.render_target_index acc).next_batch_id + 1 } := by
  unfold finalizeStep
  dsimp only
  rw [hacc]
  dsimp only
  rw [hcan]
  rw [if_pos (by simp)]

theorem new_add_caps (V i : Nat) (sk : DisplayItemKey) (p c m : Nat)
    (info : DrawRenderItem) (vb : List WorkVertex) (dpr : Dy)
    (hvc : info.vertex_count ≤ V) :
    capsOk V ((RenderBatch.new i sk p c m).add_draw_item info vb sk dpr) := by
  constructor
  · rw [add_draw_item_matrix_none (RenderBatch.new i sk p c m) info vb sk
      dpr rfl]
    unfold RenderBatch.new MAX_MATRICES_PER_BATCH
    simp
  · rw [add_draw_item_vertices_length]
    unfold RenderBatch.new
    dsimp only
    simp only [List.length_nil]
    omega

theorem flushCurrent_caps (rt V : Nat) (acc : FinalizeAcc)
    (hb : ∀ batch ∈ acc.batches, capsOk V batch)
    (hc : ∀ cb, acc.current_batch = some cb → capsOk V cb) :
    (∀ batch ∈ (flushCurrent rt acc).batches, capsOk V batch) ∧
    (∀ cb, (flushCurrent rt acc).current_batch = some cb → capsOk V cb) := by
  unfold flushCurrent
  rcases hcb : acc.current_batch with _ | cb
  · exact ⟨hb, hc⟩
  · dsimp only
    constructor
    · intro batch hmem
      rw [List.mem_append] at hmem
      rcases hmem with h | h
      · exact hb batch h
      · rw [List.mem_singleton] at h
        subst h
        exact hc batch hcb
    · intro cb2 h
      exact absurd h (by simp)

theorem finalizeStep_caps (b : DrawCommandBuilder) (V : Nat)
    (acc : FinalizeAcc) (item : RenderItem)
    (hitem : itemVertexCount item ≤ V)
    (hb : ∀ batch ∈ acc.batches, capsOk V batch)
    (hc : ∀ cb, acc.current_batch = some cb → capsOk V cb) :
    (∀ batch ∈ (finalizeStep b acc item).batches, capsOk V batch) ∧
    (∀ cb, (finalizeStep b acc item).current_batch = some cb →
      capsOk V cb) := by
  rcases item with ⟨sk, iinfo⟩
  rcases iinfo with info | cinfo
  · unfold itemVertexCount at hitem
    dsimp only at hitem
    unfold finalizeStep
    dsimp only
    by_cases hneed : (match acc.current_batch with
        | none => true
        | some cb => !(cb.can_add_to_batch info sk
            (b.programFor info.primitive))) = true
    · rw [if_pos hneed]
      have h2 := flushCurrent_caps b.render_target_index V acc hb hc
      constructor
      · intro batch hm
        exact h2.1 batch hm
      · intro cb hm
        dsimp only at hm
        injection hm with hm
        subst hm
        exact new_add_caps V _ sk _ _ _ info b.vertex_buffer
          b.device_pixel_ratio hitem
    · rw [if_neg hneed]
      rcases hacc : acc.current_batch with _ | cb
      · rw [hacc] at hneed
        dsimp only at hneed
        exact absurd rfl hneed
      · rw [hacc] at hneed
        dsimp only at hneed ⊢
        have hcan : cb.can_add_to_batch info sk
            (b.programFor info.primitive) = true := by
          rcases Bool.eq_false_or_eq_true
            (cb.can_add_to_batch info sk (b.programFor info.primitive))
            with h | h
          · exact h
          · exact absurd (by rw [h]; rfl) hneed
        constructor
        · intro batch hm
          exact hb batch hm
        · intro cb2 hm
          injection hm with hm
          subst hm
          obtain ⟨hm32, hv⟩ := hc cb hacc
          have hcan2 := hcan
          unfold RenderBatch.can_add_to_batch at hcan2
          simp only [Bool.and_eq_true, Bool.or_eq_true, decide_eq_true_eq]
            at hcan2
          obtain ⟨⟨_, hlen⟩, hmok⟩ := hcan2
          constructor
          · rcases hl : lookupA cb.matrix_map sk.draw_list_index with _ | v
            · rw [add_draw_item_matrix_none _ _ _ _ _ hl]
              rw [List.length_append]
              rcases hmok with hlt | hcont
              · unfold MAX_MATRICES_PER_BATCH at hlt ⊢
                simp
                omega
              · exact absurd hcont (by unfold containsA; rw [hl]; simp)
            · rw [add_draw_item_matrix_some _ _ _ _ _ v hl]
              exact hm32
          · rw [add_draw_item_vertices_length]
            omega
  · unfold finalizeStep
    dsimp only
    have h2 := flushCurrent_caps b.render_target_index V acc hb hc
    constructor
    · intro batch hm
      exact h2.1 batch hm
    · intro cb hm
      exact h2.2 cb hm

theorem foldl_caps (b : DrawCommandBuilder) (V : Nat) :
    ∀ (l : List RenderItem) (acc : FinalizeAcc),
      (∀ item ∈ l, itemVertexCount item ≤ V) →
      (∀ batch ∈ acc.batches, capsOk V batch) →
      (∀ cb, acc.current_batch = some cb → capsOk V cb) →
      (∀ batch ∈ (l.foldl (finalizeStep b) acc).batches, capsOk V batch) ∧
      (∀ cb, (l.foldl (finalizeStep b) acc).current_batch = some cb →
        capsOk V cb) := by
  intro l
  induction l with
  | nil => exact fun acc _ hb hc => ⟨hb, hc⟩
  | cons item rest ih =>
    intro acc hl hb hc
    rw [List.foldl_cons]
    have h2 := finalizeStep_caps b V acc item
      (hl item (List.mem_cons_self item rest)) hb hc
    exact ih _ (fun it hm => hl it (List.mem_cons_of_mem item hm)) h2.1 h2.2

theorem c2_repl_invariant (b : DrawCommandBuilder) (id0 : Nat) :
    ∀ k, 1 ≤ k → k ≤ 16384 →
    ∃ cb : RenderBatch,
      (List.replicate k c2Item).foldl (finalizeStep b) ⟨none, [], [], id0⟩ =
        ⟨some cb, [], [], id0 + 1⟩ ∧
      cb.program_id = b.quad_program_id ∧
      cb.color_texture_id = 0 ∧ cb.mask_texture_id = 0 ∧
      cb.matrix_map = [(0, 0)] ∧
      cb.vertices.length = 4 * k := by
  intro k
  induction k with
  | zero => intro h; omega
  | succ k ih =>
    intro _ hk
    by_cases hk1 : k = 0
    · subst hk1
      refine ⟨(RenderBatch.new id0 ⟨0, 0⟩
        (b.programFor Primitive.Rectangles) 0 0).add_draw_item
        ⟨0, 0, 0, 4, Primitive.Rectangles⟩ b.vertex_buffer ⟨0, 0⟩
        b.device_pixel_ratio, rfl, rfl, rfl, rfl, rfl, ?_⟩
      rw [add_draw_item_vertices_length]
      rfl
    · obtain ⟨cb, heq, hprog, hct, hmt, hmm, hlen⟩ :=
        ih (by omega) (by omega)
      have hcan : cb.can_add_to_batch ⟨0, 0, 0, 4, Primitive.Rectangles⟩
          ⟨0, 0⟩ (b.programFor Primitive.Rectangles) = true := by
        unfold RenderBatch.can_add_to_batch DrawCommandBuilder.programFor
          MAX_MATRICES_PER_BATCH
        dsimp only
        rw [hprog, hct, hmt, hmm, hlen]
        simp only [Bool.and_eq_true, Bool.or_eq_true, decide_eq_true_eq] <;>
          (repeat' apply And.intro) <;>
          first
          | rfl
          | omega
          | exact Or.inl (by decide)
          | trivial
      have hlook : lookupA cb.matrix_map
          (DisplayItemKey.mk 0 0).draw_list_index = some 0 := by
        rw [hmm]
        rfl
      refine ⟨cb.add_draw_item ⟨0, 0, 0, 4, Primitive.Rectangles⟩
        b.vertex_buffer ⟨0, 0⟩ b.device_pixel_ratio, ?_, ?_, ?_, ?_, ?_, ?_⟩
      · rw [List.replicate_succ', List.foldl_append, heq]
        simp only [List.foldl_cons, List.foldl_nil]
        rw [show (c2Item : RenderItem) = ⟨⟨0, 0⟩,
          RenderItemInfo.Draw ⟨0, 0, 0, 4, Primitive.Rectangles⟩⟩ from rfl]
        exact finalizeStep_add b ⟨some cb, [], [], id0 + 1⟩ cb ⟨0, 0⟩
          ⟨0, 0, 0, 4, Primitive.Rectangles⟩ rfl hcan
      · rw [add_draw_item_program]
        exact hprog
      · rw [add_draw_item_color]
        exact hct
      · rw [add_draw_item_mask]
        exact hmt
      · rw [add_draw_item_matrix_some _ _ _ _ _ 0 hlook]
        exact hmm
      · rw [add_draw_item_vertices_length, hlen]
        dsimp only
        omega

theorem finalize_eq (b : DrawCommandBuilder) (n : Nat) :
    b.finalize n =
      (((flushCurrent b.render_target_index
          (b.render_items.foldl (finalizeStep b) ⟨none, [], [], n⟩)).batches,
        (flushCurrent b.render_target_index
          (b.render_items.foldl (finalizeStep b)
            ⟨none, [], [], n⟩)).draw_commands),
        (flushCurrent b.render_target_index
          (b.render_items.foldl (finalizeStep b)
            ⟨none, [], [], n⟩)).next_batch_id) := rfl

/-- C2 counterexample: a builder holding 16,384 four-vertex rectangles
(with equal textures and draw-list index) finalizes into a single batch of
65,536 vertices — the cap is checked before the add, so the stated bound
of 65,535 is exceeded. -/
theorem batch_vertex_cap_counterexample :
    ((c2Builder.finalize 0).1.1.map
      (fun batch => batch.vertices.length)) = [65536] := by
  obtain ⟨cb, heq, _, _, _, _, hlen⟩ :=
    c2_repl_invariant c2Builder 0 16384 (by omega) (by omega)
  have heq2 : c2Builder.render_items.foldl (finalizeStep c2Builder)
      ⟨none, [], [], 0⟩ = ⟨some cb, [], [], 0 + 1⟩ := heq
  rw [finalize_eq]
  rw [heq2]
  unfold flushCurrent
  dsimp only
  simp only [List.nil_append, List.map_cons, List.map_nil, hlen]

/-- C2: amended batch caps.  Every batch emitted by `finalize` has at most
32 palette slots and at most 65,534 + V vertices, where V bounds the
vertex count of the individual draw items (the admission check
`vertices.len() < 65535` runs before the add, so the true cap is 65,534
plus one item's vertices, not 65,535); and whenever the in-progress batch
cannot admit a draw item, that batch is flushed and a fresh batch is
started with the item as its first entry. -/
theorem batch_caps_invariant (b : DrawCommandBuilder) (id0 V : Nat)
    (hV : ∀ item ∈ b.render_items, itemVertexCount item ≤ V) :
    (∀ batch ∈ (b.finalize id0).1.1,
      batch.matrix_map.length ≤ MAX_MATRICES_PER_BATCH ∧
      batch.vertices.length ≤ 65534 + V) ∧
    (∀ (acc : FinalizeAcc) (cb : RenderBatch) (sk : DisplayItemKey)
      (info : DrawRenderItem),
      acc.current_batch = some cb →
      cb.can_add_to_batch info sk (b.programFor info.primitive) = false →
      finalizeStep b acc ⟨sk, RenderItemInfo.Draw info⟩ =
        { flushCurrent b.render_target_index acc with
          current_batch := some ((RenderBatch.new
            (flushCurrent b.render_target_index acc).next_batch_id sk
            (b.programFor info.primitive) info.color_texture_id
            info.mask_texture_id).add_draw_item info b.vertex_buffer sk
            b.device_pixel_ratio),
          next_batch_id :=
            (flushCurrent b.render_target_index acc).next_batch_id + 1 }) := by
  constructor
  · intro batch hm
    have h0 := foldl_caps b V b.render_items ⟨none, [], [], id0⟩ hV
      (by intro batch2 hm2; exact absurd hm2 (by simp))
      (by intro cb h; exact absurd h (by simp))
    have h1 := flushCurrent_caps b.render_target_index V _ h0.1 h0.2
    rw [finalize_eq] at hm
    dsimp only at hm
    exact h1.1 batch hm
  · intro acc cb sk info hacc hcan
    exact finalizeStep_flush_new b acc cb sk info hacc hcan

/-- C2 witness: the amended caps hold of the one-rectangle builder. -/
theorem batch_caps_invariant_witness :
    (∀ batch ∈ (c2SmallBuilder.finalize 0).1.1,
      batch.matrix_map.length ≤ MAX_MATRICES_PER_BATCH ∧
      batch.vertices.length ≤ 65534 + 4) ∧
    (∀ (acc : FinalizeAcc) (cb : RenderBatch) (sk : DisplayItemKey)
      (info : DrawRenderItem),
      acc.current_batch = some cb →
      cb.can_add_to_batch info sk
        (c2SmallBuilder.programFor info.primitive) = false →
      finalizeStep c2SmallBuilder acc ⟨sk, RenderItemInfo.Draw info⟩ =
        { flushCurrent c2SmallBuilder.render_target_index acc with
          current_batch := some ((RenderBatch.new
            (flushCurrent c2SmallBuilder.render_target_index
              acc).next_batch_id sk
            (c2SmallBuilder.programFor info.primitive)
            info.color_texture_id
            info.mask_texture_id).add_draw_item info
            c2SmallBuilder.vertex_buffer sk
            c2SmallBuilder.device_pixel_ratio),
          next_batch_id :=
            (flushCurrent c2SmallBuilder.render_target_index
              acc).next_batch_id + 1 }) :=
  batch_caps_invariant c2SmallBuilder 0 4 (by decide)


/-! ### Blend-mode isolation (C8) -/

theorem getD_append_lt {α : Type} (l t : List α) (i : Nat) (d : α)
    (h : i < l.length) : (l ++ t).getD i d = l.getD i d := by
  rw [List.getD_eq_getElem?_getD, List.getD_eq_getElem?_getD,
    List.getElem?_append]
  rw [if_pos h]

theorem GoodE_mono (e : CtxEvent) (l t : List FlatDrawList)
    (h : GoodE e l) : GoodE e (l ++ t) := by
  refine ⟨h.1, fun hp => ?_⟩
  obtain ⟨hlt, hc⟩ := h.2 hp
  refine ⟨by rw [List.length_append]; omega, ?_⟩
  rw [getD_append_lt _ _ _ _ hlt]
  exact hc

theorem Iso_refl (st : FlattenSt) : Iso st st :=
  ⟨⟨⟨[], (List.append_nil _).symm⟩, ⟨[], (List.append_nil _).symm⟩⟩,
    fun _ he => Or.inl he, rfl⟩

theorem Iso_trans (a b c : FlattenSt) (h1 : Iso a b) (h2 : Iso b c) :
    Iso a c := by
  obtain ⟨⟨⟨t1, hl1⟩, ⟨f1, hf1⟩⟩, he1, hp1⟩ := h1
  obtain ⟨⟨⟨t2, hl2⟩, ⟨f2, hf2⟩⟩, he2, hp2⟩ := h2
  refine ⟨⟨⟨t1 ++ t2, by rw [hl2, hl1, List.append_assoc]⟩,
    ⟨f1 ++ f2, by rw [hf2, hf1, List.append_assoc]⟩⟩, fun e he => ?_,
    hp2.trans hp1⟩
  rcases he2 e he with h | h
  · rcases he1 e h with h3 | h3
    · exact Or.inl h3
    · right
      rw [hf2]
      exact GoodE_mono _ _ _ h3
  · exact Or.inr h

theorem Iso_of_log_flat (st st2 : FlattenSt) (hl : st2.log = st.log)
    (hf : st2.scene.flat_draw_lists = st.scene.flat_draw_lists)
    (hp : st2.scene.pending_updates = st.scene.pending_updates) :
    Iso st st2 :=
  ⟨⟨⟨[], by rw [hl, List.append_nil]⟩, ⟨[], by rw [hf, List.append_nil]⟩⟩,
    fun e he => Or.inl (hl ▸ he), hp⟩

theorem iso_of_append (st big : FlattenSt) (ev : CtxEvent)
    (hl : big.log = st.log ++ [ev])
    (hf : ∃ f, big.scene.flat_draw_lists =
      st.scene.flat_draw_lists ++ f)
    (hp : big.scene.pending_updates = st.scene.pending_updates)
    (hg : GoodE ev big.scene.flat_draw_lists) : Iso st big := by
  refine ⟨⟨⟨[ev], hl⟩, hf⟩, fun e he => ?_, hp⟩
  rw [hl, List.mem_append, List.mem_singleton] at he
  rcases he with h | h
  · exact Or.inl h
  · subst h
    exact Or.inr hg

theorem needsRenderTarget_iff (sc : StackingContext) :
    needsRenderTarget sc = true ↔
      sc.mix_blend_mode ≠ MixBlendMode.Normal := by
  unfold needsRenderTarget
  cases h : sc.mix_blend_mode <;> simp

theorem needsRenderTarget_false_iff (sc : StackingContext) :
    needsRenderTarget sc = false ↔
      sc.mix_blend_mode = MixBlendMode.Normal := by
  unfold needsRenderTarget
  cases h : sc.mix_blend_mode <;> simp

theorem push_draw_list_targets_length (s : Scene) (id : Option Nat)
    (dl : DrawList) (ctx : DrawContext) :
    (s.push_draw_list id dl ctx).render_targets.length =
      s.render_targets.length := by
  unfold Scene.push_draw_list
  dsimp only
  rcases h : s.render_targets.get? s.current_render_target with _ | rt
  · rfl
  · dsimp only
    rw [List.length_set]

theorem push_render_target_current (s : Scene) (w h : Nat)
    (tid : Option Nat) :
    (s.push_render_target w h tid).current_render_target =
      s.render_targets.length := by
  unfold Scene.push_render_target Scene.current_render_target
  dsimp only
  rw [List.getLast?_concat]
  rfl

theorem push_render_target_flat (s : Scene) (w h : Nat)
    (tid : Option Nat) :
    (s.push_render_target w h tid).flat_draw_lists = s.flat_draw_lists :=
  rfl

theorem push_draw_list_flat (s : Scene) (id : Option Nat) (dl : DrawList)
    (ctx : DrawContext) :
    (s.push_draw_list id dl ctx).flat_draw_lists =
      s.flat_draw_lists ++ [⟨id, ctx, dl⟩] := rfl

theorem addDrawListM_iso (st : FlattenSt) (id : Nat) (ctx : DrawContext)
    (r : FlattenSt × List (PipelineId × Pnt))
    (h : addDrawListM st id ctx = some r) : Iso st r.1 := by
  unfold addDrawListM at h
  rcases hrem : removeA st.draw_list_map id with ⟨o, rest⟩
  rw [hrem] at h
  rcases o with _ | dl
  · dsimp only at h
    exact absurd h (by simp)
  · dsimp only at h
    injection h with h
    subst h
    exact ⟨⟨⟨[], (List.append_nil _).symm⟩, ⟨_, rfl⟩⟩,
      fun _ he => Or.inl he, rfl⟩

theorem foldlM_iso {α β : Type}
    (f : FlattenSt × β → α → Option (FlattenSt × β))
    (hf : ∀ a x y, f a x = some y → Iso a.1 y.1) :
    ∀ (l : List α) (a y : FlattenSt × β),
      List.foldlM f a l = some y → Iso a.1 y.1 := by
  intro l
  induction l with
  | nil =>
    intro a y h
    rw [List.foldlM_nil] at h
    replace h : some a = some y := h
    injection h with h
    subst h
    exact Iso_refl _
  | cons x rest ih =>
    intro a y h
    rw [List.foldlM_cons] at h
    rcases hb : f a x with _ | b
    · rw [hb] at h
      simp at h
    · rw [hb] at h
      replace h : List.foldlM f b rest = some y := h
      exact Iso_trans _ _ _ (hf a x b hb) (ih b y h)

theorem addSlot_iso (ctx : DrawContext) (ids : List Nat)
    (acc r : FlattenSt × List (PipelineId × Pnt))
    (h : addSlot ctx ids acc = some r) : Iso acc.1 r.1 := by
  unfold addSlot at h
  refine foldlM_iso _ ?_ ids acc r h
  intro a x y hxy
  rcases had : addDrawListM a.1 x ctx with _ | p
  · rw [had] at hxy
    simp at hxy
  · rw [had] at hxy
    dsimp only at hxy
    injection hxy with hxy
    subst hxy
    exact addDrawListM_iso a.1 x ctx p had


set_option maxHeartbeats 1000000 in
theorem flattenPrelude_iso (dpr : Dy) (kind : StackingContextKind)
    (tr0 : Matrix4) (st : FlattenSt) :
    Iso st (flattenPrelude dpr kind tr0 st).1 := by
  rcases kind with sc | root
  · unfold flattenPrelude
    dsimp only [scOf]
    cases hn : needsRenderTarget sc
    · rw [if_neg (show ¬ (false = true) by decide)]
      try dsimp only
      refine iso_of_append st _ _ rfl ⟨[], (List.append_nil _).symm⟩ rfl ?_
      unfold GoodE blendIsolationOk
      try dsimp only
      refine ⟨⟨?_, fun hp => absurd hp (by decide),
        fun _ => ⟨rfl, rfl⟩⟩, fun hp => absurd hp (by decide)⟩
      rw [(needsRenderTarget_false_iff sc).mp hn]
      simp
    · rw [if_pos (show (true = true) from rfl)]
      try dsimp only
      refine iso_of_append st _ _ rfl ⟨_, rfl⟩ rfl ?_
      unfold GoodE blendIsolationOk
      try dsimp only
      refine ⟨⟨⟨fun _ => (needsRenderTarget_iff sc).mp hn, fun _ => rfl⟩,
        fun _ => ⟨rfl, rfl, ?_⟩, fun hp => absurd hp (by decide)⟩,
        fun _ => ⟨?_, ?_⟩⟩
      · rw [push_render_target_current, push_draw_list_targets_length]
      · simp only [push_render_target_flat, push_draw_list_flat]
        simp only [List.length_append, List.length_cons, List.length_nil]
        omega
      · simp only [push_render_target_flat, push_draw_list_flat]
        rw [List.getD_eq_getElem?_getD, List.getElem?_concat_length]
        unfold isCompositeList
        exact ⟨rfl, rfl, rfl⟩
  · unfold flattenPrelude
    dsimp only [scOf]
    cases hn : needsRenderTarget root.stacking_context
    · rw [if_neg (show ¬ (false = true) by decide)]
      try dsimp only
      rcases Classical.em (root.background_color.a > 0) with hbg | hbg
      · rw [if_pos hbg]
        try dsimp only
        refine iso_of_append st _ _ rfl ⟨_, rfl⟩ rfl ?_
        unfold GoodE blendIsolationOk
        try dsimp only
        refine ⟨⟨?_, fun hp => absurd hp (by decide),
          fun _ => ⟨rfl, rfl⟩⟩, fun hp => absurd hp (by decide)⟩
        rw [(needsRenderTarget_false_iff root.stacking_context).mp hn]
        simp
      · rw [if_neg hbg]
        try dsimp only
        refine iso_of_append st _ _ rfl ⟨[], (List.append_nil _).symm⟩ rfl ?_
        unfold GoodE blendIsolationOk
        try dsimp only
        refine ⟨⟨?_, fun hp => absurd hp (by decide),
          fun _ => ⟨rfl, rfl⟩⟩, fun hp => absurd hp (by decide)⟩
        rw [(needsRenderTarget_false_iff root.stacking_context).mp hn]
        simp
    · rw [if_pos (show (true = true) from rfl)]
      try dsimp only
      rcases Classical.em (root.background_color.a > 0) with hbg | hbg
      · rw [if_pos hbg]
        try dsimp only
        refine iso_of_append st _ _ rfl ?_ rfl ?_
        case _ =>
          simp only [push_render_target_flat, push_draw_list_flat]
          exact ⟨_, List.append_assoc _ _ _⟩
        unfold GoodE blendIsolationOk
        try dsimp only
        refine ⟨⟨⟨fun _ => (needsRenderTarget_iff root.stacking_context).mp
          hn, fun _ => rfl⟩,
          fun _ => ⟨rfl, rfl, ?_⟩, fun hp => absurd hp (by decide)⟩,
          fun _ => ⟨?_, ?_⟩⟩
        · rw [push_render_target_current, push_draw_list_targets_length]
        · simp only [push_render_target_flat, push_draw_list_flat]
          simp only [List.length_append, List.length_cons, List.length_nil]
          omega
        · simp only [push_render_target_flat, push_draw_list_flat]
          rw [List.getD_eq_getElem?_getD, List.getElem?_append,
            if_pos (by simp), List.getElem?_concat_length]
          unfold isCompositeList
          exact ⟨rfl, rfl, rfl⟩
      · rw [if_neg hbg]
        try dsimp only
        refine iso_of_append st _ _ rfl ⟨_, rfl⟩ rfl ?_
        unfold GoodE blendIsolationOk
        try dsimp only
        refine ⟨⟨⟨fun _ => (needsRenderTarget_iff root.stacking_context).mp
          hn, fun _ => rfl⟩,
          fun _ => ⟨rfl, rfl, ?_⟩, fun hp => absurd hp (by decide)⟩,
          fun _ => ⟨?_, ?_⟩⟩
        · rw [push_render_target_current, push_draw_list_targets_length]
        · simp only [push_render_target_flat, push_draw_list_flat]
          simp only [List.length_append, List.length_cons, List.length_nil]
          omega
        · simp only [push_render_target_flat, push_draw_list_flat]
          rw [List.getD_eq_getElem?_getD, List.getElem?_concat_length]
          unfold isCompositeList
          exact ⟨rfl, rfl, rfl⟩

theorem bind_some_inv {α β : Type} (x : Option α) (f : α → Option β)
    (b : β) (h : x >>= f = some b) : ∃ a, x = some a ∧ f a = some b := by
  rcases x with _ | a
  · replace h : (none : Option β) = some b := h
    exact absurd h (by simp)
  · exact ⟨a, rfl, h⟩

set_option maxHeartbeats 2000000 in
theorem flattenSC_iso (dlm : List (Nat × DisplayList))
    (scs : List (PipelineId × RootStackingContext)) (dpr : Dy) :
    ∀ (fuel : Nat) (kind : StackingContextKind) (tr0 : Matrix4)
      (st st2 : FlattenSt),
      flattenSC dlm scs dpr fuel kind tr0 st = some st2 → Iso st st2 := by
  intro fuel
  induction fuel with
  | zero =>
    intro kind tr0 st st2 h
    simp [flattenSC] at h
  | succ fuel ih =>
    intro kind tr0 st st2 h
    rw [flattenSC] at h
    obtain ⟨dlids, h1, h⟩ := bind_some_inv _ _ _ h
    obtain ⟨acc1, h2, h⟩ := bind_some_inv _ _ _ h
    obtain ⟨acc2, h3, h⟩ := bind_some_inv _ _ _ h
    obtain ⟨acc3, h4, h⟩ := bind_some_inv _ _ _ h
    obtain ⟨acc4, h5, h⟩ := bind_some_inv _ _ _ h
    obtain ⟨acc5, h6, h⟩ := bind_some_inv _ _ _ h
    obtain ⟨acc6, h7, h⟩ := bind_some_inv _ _ _ h
    obtain ⟨acc7, h8, h⟩ := bind_some_inv _ _ _ h
    obtain ⟨acc8, h9, h⟩ := bind_some_inv _ _ _ h
    obtain ⟨acc9, h10, h⟩ := bind_some_inv _ _ _ h
    have hchild : ∀ (a : FlattenSt × List (PipelineId × Pnt))
        (x : StackingContext) (y : FlattenSt × List (PipelineId × Pnt)),
        (do
          let stc ← flattenSC dlm scs dpr fuel
            (StackingContextKind.Normal x)
            (flattenPrelude dpr kind tr0 st).2.2 a.1
          pure (stc, a.2)) = some y → Iso a.1 y.1 := by
      intro a x y hxy
      obtain ⟨stc, hc1, hc2⟩ := bind_some_inv _ _ _ hxy
      replace hc2 : some (stc, a.2) = some y := hc2
      injection hc2 with hc2
      subst hc2
      exact ih (StackingContextKind.Normal x) _ a.1 stc hc1
    have i0 : Iso st (flattenPrelude dpr kind tr0 st).1 :=
      flattenPrelude_iso dpr kind tr0 st
    have iA : Iso (flattenPrelude dpr kind tr0 st).1 acc1.1 :=
      addSlot_iso _ _ _ _ h2
    have iB : Iso acc1.1 acc2.1 := by
      refine foldlM_iso _ ?_ _ _ _ h3
      intro a x y hxy
      exact hchild a x y hxy
    have iC : Iso acc2.1 acc3.1 := addSlot_iso _ _ _ _ h4
    have iD : Iso acc3.1 acc4.1 := addSlot_iso _ _ _ _ h5
    have iE : Iso acc4.1 acc5.1 := addSlot_iso _ _ _ _ h6
    have iF : Iso acc5.1 acc6.1 := addSlot_iso _ _ _ _ h7
    have iG : Iso acc6.1 acc7.1 := by
      refine foldlM_iso _ ?_ _ _ _ h8
      intro a x y hxy
      exact hchild a x y hxy
    have iH : Iso acc7.1 acc8.1 := by
      refine foldlM_iso _ ?_ _ _ _ h9
      intro a x y hxy
      rcases hl : lookupP scs x.1 with _ | iframe
      · rw [hl] at hxy
        replace hxy : some a = some y := hxy
        injection hxy with hxy
        subst hxy
        exact Iso_refl _
      · rw [hl] at hxy
        obtain ⟨stc, hc1, hc2⟩ := bind_some_inv _ _ _ hxy
        replace hc2 : some (stc, a.2) = some y := hc2
        injection hc2 with hc2
        subst hc2
        exact ih (StackingContextKind.Root iframe) _ a.1 stc hc1
    have iI : Iso acc8.1 acc9.1 := addSlot_iso _ _ _ _ h10
    have jpre : Iso st acc9.1 :=
      Iso_trans _ _ _ i0 (Iso_trans _ _ _ iA (Iso_trans _ _ _ iB
        (Iso_trans _ _ _ iC (Iso_trans _ _ _ iD (Iso_trans _ _ _ iE
          (Iso_trans _ _ _ iF (Iso_trans _ _ _ iG
            (Iso_trans _ _ _ iH iI))))))))
    cases hn : needsRenderTarget (scOf kind)
    · rw [hn] at h
      rw [if_neg (show ¬ (false = true) by decide)] at h
      replace h : some acc9.1 = some st2 := h
      injection h with h
      subst h
      exact jpre
    · rw [hn] at h
      rw [if_pos (show (true = true) from rfl)] at h
      replace h : some { acc9.1 with
        scene := acc9.1.scene.pop_render_target } = some st2 := h
      injection h with h
      subst h
      exact Iso_trans _ _ _ jpre (Iso_of_log_flat _ _ rfl rfl rfl)


/-- C8: blend-mode isolation.  In any successful flatten run started with an
empty log, every flattened stacking context (one `CtxEvent` each) ran the
offscreen branch exactly when its blend mode is not Normal; in that case the
context's own draw lists target the freshly pushed render target under the
identity transform, children receive the identity transform, and a
one-item synthetic `Composite` flat list carrying the context's blend mode
was pushed into the enclosing target at the recorded position; with a
Normal blend mode the context keeps the enclosing target and the
accumulated transform. -/
theorem blend_mode_isolation (dlm : List (Nat × DisplayList))
    (scs : List (PipelineId × RootStackingContext)) (dpr : Dy)
    (fuel : Nat) (kind : StackingContextKind) (tr0 : Matrix4)
    (st st2 : FlattenSt)
    (h : flattenSC dlm scs dpr fuel kind tr0 st = some st2)
    (hlog : st.log = []) :
    ∀ e ∈ st2.log,
      (e.pushed_composite = true ↔ e.blend ≠ MixBlendMode.Normal) ∧
      (e.pushed_composite = true →
        e.ctx_transform = Matrix4.identity ∧
        e.transform_arg = Matrix4.identity ∧
        e.ctx_target = e.targets_len_before ∧
        e.flat_len_before < st2.scene.flat_draw_lists.length ∧
        isCompositeList (st2.scene.flat_draw_lists.getD e.flat_len_before
          dfltFlat) e.blend e.enclosing_target) ∧
      (e.pushed_composite = false →
        e.ctx_target = e.enclosing_target ∧
        e.ctx_transform = e.transform_arg) := by
  intro e he
  rcases (flattenSC_iso dlm scs dpr fuel kind tr0 st st2 h).2.1 e he with
    h1 | h1
  · rw [hlog] at h1
    exact absurd h1 (List.not_mem_nil e)
  · obtain ⟨⟨hiff, hpush, hnorm⟩, hcomp⟩ := h1
    refine ⟨hiff, fun hp => ?_, hnorm⟩
    obtain ⟨ha, hb, hc⟩ := hpush hp
    obtain ⟨hd, hec⟩ := hcomp hp
    exact ⟨ha, hb, hc, hd, hec⟩

/-- C8 witness: flattening a single Multiply root context from a fresh
root-target state satisfies the isolation property for its one logged
event. -/
theorem blend_mode_isolation_witness :
    (c8Ev.pushed_composite = true ↔ c8Ev.blend ≠ MixBlendMode.Normal) ∧
    (c8Ev.pushed_composite = true →
      c8Ev.ctx_transform = Matrix4.identity ∧
      c8Ev.transform_arg = Matrix4.identity ∧
      c8Ev.ctx_target = c8Ev.targets_len_before ∧
      c8Ev.flat_len_before < c8Run.scene.flat_draw_lists.length ∧
      isCompositeList (c8Run.scene.flat_draw_lists.getD
        c8Ev.flat_len_before dfltFlat) c8Ev.blend c8Ev.enclosing_target) ∧
    (c8Ev.pushed_composite = false →
      c8Ev.ctx_target = c8Ev.enclosing_target ∧
      c8Ev.ctx_transform = c8Ev.transform_arg) :=
  blend_mode_isolation [] [] 1 1 (StackingContextKind.Root c8Root)
    Matrix4.identity c8St c8Run (by rfl) rfl c8Ev (by decide)


/-! ### Destroy-before-Create ordering (C9) -/

theorem getD_mem {α : Type} (l : List α) (i : Nat) (d : α)
    (h : i < l.length) : l.getD i d ∈ l := by
  rw [List.getD_eq_getElem?_getD, List.getElem?_eq_getElem h]
  exact List.getElem_mem h

theorem getD_append_right {α : Type} (l t : List α) (i : Nat) (d : α)
    (h : l.length ≤ i) : (l ++ t).getD i d = t.getD (i - l.length) d := by
  rw [List.getD_eq_getElem?_getD, List.getD_eq_getElem?_getD,
    List.getElem?_append]
  rw [if_neg (by omega)]

theorem pop_render_target_pending (s : Scene) :
    s.pop_render_target.pending_updates = s.pending_updates := rfl

theorem push_render_target_pending (s : Scene) (w h : Nat)
    (tid : Option Nat) :
    (s.push_render_target w h tid).pending_updates = s.pending_updates :=
  rfl

theorem reset_pending (s : Scene) (cache : TextureCache) :
    ∃ d, (Scene.reset s cache).1.pending_updates =
      s.pending_updates ++ d ∧
      ∀ u ∈ d, u.op = BatchUpdateOp.Destroy := by
  refine ⟨_, rfl, ?_⟩
  intro u hu
  rw [List.mem_flatMap] at hu
  obtain ⟨n, _, hu⟩ := hu
  rcases hcn : n.compiled_node with _ | cn
  · rw [hcn] at hu
    simp at hu
  · rw [hcn] at hu
    dsimp only at hu
    rw [List.mem_map] at hu
    obtain ⟨bb, _, hb⟩ := hu
    rw [← hb]

theorem build_aabb_tree_pending (s : Scene) (fuel : Nat) (r : Rct)
    (s2 : Scene) (h : s.build_aabb_tree fuel r = some s2) :
    s2.pending_updates = s.pending_updates := by
  unfold Scene.build_aabb_tree at h
  dsimp only at h
  rcases hb : buildLists fuel (s.aabb_tree.init r) 0 s.flat_draw_lists
    with _ | p
  · rw [hb] at h
    exact absurd h (by simp)
  · rw [hb] at h
    dsimp only at h
    injection h with h
    subst h
    rfl

theorem foldl_snd_pred {α β γ : Type} (P : γ → Prop)
    (step : β × List γ → α → β × List γ)
    (hstep : ∀ st n, ∀ u ∈ (step st n).2, u ∈ st.2 ∨ P u) :
    ∀ (l : List α) (st : β × List γ), (∀ u ∈ st.2, P u) →
      ∀ u ∈ (l.foldl step st).2, P u := by
  intro l
  induction l with
  | nil => exact fun st h u hu => h u hu
  | cons x rest ih =>
    intro st h u hu
    rw [List.foldl_cons] at hu
    refine ih (step st x) ?_ u hu
    intro v hv
    rcases hstep st x v hv with h2 | h2
    · exact h v h2
    · exact h2

theorem update_batch_cache_pending (s : Scene) :
    ∃ c, s.update_batch_cache.pending_updates =
      s.pending_updates ++ c ∧ ∀ u ∈ c, isCreateOp u.op := by
  refine ⟨_, rfl, ?_⟩
  refine foldl_snd_pred (fun (u : BatchUpdate) => isCreateOp u.op) _ ?_
    s.aabb_tree.nodes (([] : List AABBTreeNode), ([] : List BatchUpdate))
    (by intro u hu; simp at hu)
  intro st n u hu
  dsimp only at hu
  cases hv : n.is_visible
  · rw [hv] at hu
    rw [if_neg (show ¬ (false = true) by decide)] at hu
    exact Or.inl hu
  · rw [hv] at hu
    rw [if_pos (show (true = true) from rfl)] at hu
    dsimp only at hu
    rw [List.mem_append] at hu
    rcases hu with hu | hu
    · exact Or.inl hu
    · right
      rw [List.mem_map] at hu
      obtain ⟨bb, _, hb⟩ := hu
      rw [← hb]
      exact trivial

theorem collect_pending (s : Scene) :
    ∃ c, s.collect_and_sort_visible_batches.1.pending_updates =
      s.pending_updates ++ c ∧ ∀ u ∈ c, isUniformsOp u.op := by
  refine ⟨_, rfl, ?_⟩
  refine foldl_snd_pred (fun (u : BatchUpdate) => isUniformsOp u.op) _ ?_
    s.aabb_tree.nodes
    (s.render_targets.map (fun rt =>
      DrawLayer.mk rt.texture_id rt.size_w rt.size_h []),
      ([] : List BatchUpdate))
    (by intro u hu; simp at hu)
  intro st n u hu
  dsimp only at hu
  cases hv : n.is_visible
  · rw [hv] at hu
    rw [if_neg (show ¬ (false = true) by decide)] at hu
    exact Or.inl hu
  · rw [hv] at hu
    rw [if_pos (show (true = true) from rfl)] at hu
    dsimp only at hu
    rw [List.mem_append] at hu
    rcases hu with hu | hu
    · exact Or.inl hu
    · right
      rw [List.mem_map] at hu
      obtain ⟨bm, _, hb⟩ := hu
      rw [← hb]
      exact trivial

theorem build_frame_updates (s : Scene) (vp : Rct) (env : CompileEnv)
    (fuel : FuelCfg) (nid : Nat) :
    ∃ c u2, (s.build_frame vp env fuel nid).1.pending_updates =
      (s.pending_updates ++ c) ++ u2 ∧
      (∀ x ∈ c, isCreateOp x.op) ∧ (∀ x ∈ u2, isUniformsOp x.op) := by
  obtain ⟨c, hc, hcall⟩ := update_batch_cache_pending (Scene.compile_visible_nodes { s with aabb_tree := s.aabb_tree.cull (vp.translate s.scroll_offset.neg) } env fuel.iter_fuel nid).1
  obtain ⟨u2, hu, huall⟩ := collect_pending (Scene.compile_visible_nodes { s with aabb_tree := s.aabb_tree.cull (vp.translate s.scroll_offset.neg) } env fuel.iter_fuel nid).1.update_batch_cache
  refine ⟨c, u2, ?_, hcall, huall⟩
  show ((Scene.compile_visible_nodes { s with aabb_tree := s.aabb_tree.cull (vp.translate s.scroll_offset.neg) } env fuel.iter_fuel nid).1.update_batch_cache).collect_and_sort_visible_batches.1.pending_updates = (s.pending_updates ++ c) ++ u2
  rw [hu, hc]
  rfl

theorem render_updates (b : RenderBackend) (fuel : FuelCfg) :
    ∃ c u2, (b.render fuel).2.2 =
      (b.scene.pending_updates ++ c) ++ u2 ∧
      (∀ x ∈ c, isCreateOp x.op) ∧ (∀ x ∈ u2, isUniformsOp x.op) := by
  obtain ⟨c, u2, heq, hc, hu⟩ := build_frame_updates b.scene b.viewport
    b.env fuel b.next_batch_id
  exact ⟨c, u2, heq, hc, hu⟩

theorem build_scene_pending (b : RenderBackend) (fuel : FuelCfg)
    (b2 : RenderBackend) (h : b.build_scene fuel = some b2) :
    ∃ d, b2.scene.pending_updates = b.scene.pending_updates ++ d ∧
      ∀ u ∈ d, u.op = BatchUpdateOp.Destroy := by
  unfold RenderBackend.build_scene at h
  rcases hroot : lookupP b.stacking_contexts ⟨0, 0⟩ with _ | root
  · rw [hroot] at h
    replace h : some b = some b2 := h
    injection h with h
    subst h
    exact ⟨[], (List.append_nil _).symm, by intro u hu; simp at hu⟩
  · rw [hroot] at h
    obtain ⟨st, hfl, h⟩ := bind_some_inv _ _ _ h
    obtain ⟨scene2, hbt, h⟩ := bind_some_inv _ _ _ h
    replace h : some { b with scene := scene2, draw_list_map := st.draw_list_map, texture_cache := st.cache } = some b2 := h
    injection h with h
    subst h
    obtain ⟨d, hd, hdall⟩ := reset_pending b.scene b.texture_cache
    refine ⟨d, ?_, hdall⟩
    show scene2.pending_updates = b.scene.pending_updates ++ d
    have h1 : scene2.pending_updates =
        st.scene.pop_render_target.pending_updates :=
      build_aabb_tree_pending _ _ _ _ hbt
    have h2 : st.scene.pending_updates =
        ((Scene.reset b.scene b.texture_cache).1.push_render_target
          (qToU32 b.viewport.size.width) (qToU32 b.viewport.size.height)
          none).pending_updates :=
      (flattenSC_iso _ _ _ _ _ _ _ _ hfl).2.2
    rw [h1, pop_render_target_pending, h2, push_render_target_pending]
    exact hd

theorem foldlM_preserve_scene {α : Type}
    (f : RenderBackend → α → Option RenderBackend)
    (hf : ∀ b x b', f b x = some b' → b'.scene = b.scene) :
    ∀ (l : List α) (b b' : RenderBackend),
      List.foldlM f b l = some b' → b'.scene = b.scene := by
  intro l
  induction l with
  | nil =>
    intro b b' h
    replace h : some b = some b' := h
    injection h with h
    subst h
    rfl
  | cons x rest ih =>
    intro b b' h
    rw [List.foldlM_cons] at h
    rcases hb : f b x with _ | bm
    · rw [hb] at h
      simp at h
    · rw [hb] at h
      replace h : List.foldlM f bm rest = some b' := h
      rw [ih bm b' h, hf b x bm hb]

/-- C9: in the batch-update list of a frame triggered by
`SetRootStackingContext`, starting from a scene whose pending updates were
drained, every `Destroy` record (emitted by `Scene::reset` before the
rebuild) sits strictly earlier than every `Create` record (emitted by
`update_batch_cache` after compilation). -/
theorem destroy_before_create (b : RenderBackend) (fuel : FuelCfg)
    (sc : StackingContext) (bg : ColorF) (epoch : Nat) (pid : PipelineId)
    (b2 : RenderBackend) (frame : Frame) (updates : List BatchUpdate)
    (h : b.handleSetRoot fuel sc bg epoch pid = some (b2, frame, updates))
    (hpending : b.scene.pending_updates = []) :
    ∀ i j, i < updates.length → j < updates.length →
      (updates.getD i dfltUpdate).op = BatchUpdateOp.Destroy →
      isCreateOp (updates.getD j dfltUpdate).op →
      i < j := by
  unfold RenderBackend.handleSetRoot at h
  obtain ⟨b3, hA, h⟩ := bind_some_inv _ _ _ h
  obtain ⟨b4, hB, h⟩ := bind_some_inv _ _ _ h
  replace h : some (b4.render fuel) = some (b2, frame, updates) := h
  injection h with h
  have hupd : updates = (b4.render fuel).2.2 := by rw [h]
  have hsc : b3.scene.pending_updates = [] := by
    refine Eq.trans (congrArg Scene.pending_updates
      (foldlM_preserve_scene _ ?_ _ _ _ hA)) hpending
    intro bb k bb' hstep
    try dsimp only at hstep
    rcases hrm : removeA bb.display_list_map k with ⟨o, rest⟩
    rw [hrm] at hstep
    rcases o with _ | dl
    · try dsimp only at hstep
      exact absurd hstep (by simp)
    · try dsimp only at hstep
      obtain ⟨m1, _, hstep⟩ := bind_some_inv _ _ _ hstep
      obtain ⟨m2, _, hstep⟩ := bind_some_inv _ _ _ hstep
      obtain ⟨m3, _, hstep⟩ := bind_some_inv _ _ _ hstep
      obtain ⟨m4, _, hstep⟩ := bind_some_inv _ _ _ hstep
      obtain ⟨m5, _, hstep⟩ := bind_some_inv _ _ _ hstep
      obtain ⟨m6, _, hstep⟩ := bind_some_inv _ _ _ hstep
      replace hstep : some { bb with display_list_map := rest, draw_list_map := m6 } = some bb' := hstep
      injection hstep with hstep
      subst hstep
      rfl
  obtain ⟨d, hd, hdall⟩ := build_scene_pending _ _ _ hB
  have hd2 : b4.scene.pending_updates = b3.scene.pending_updates ++ d := hd
  obtain ⟨c, u2, heq, hcall, huall⟩ := render_updates b4 fuel
  have hsplit : updates = d ++ (c ++ u2) := by
    rw [hupd, heq, hd2, hsc]
    rw [List.nil_append, List.append_assoc]
  subst hsplit
  intro i j hi hj hdes hcre
  have hrestP : ∀ x ∈ c ++ u2, ¬ x.op = BatchUpdateOp.Destroy := by
    intro x hx hxop
    rw [List.mem_append] at hx
    rcases hx with hx | hx
    · have h3 := hcall x hx
      rw [hxop] at h3
      exact h3
    · have h3 := huall x hx
      rw [hxop] at h3
      exact h3
  have hdP : ∀ x ∈ d, ¬ isCreateOp x.op := by
    intro x hx hic
    rw [hdall x hx] at hic
    exact hic
  have hlen : (d ++ (c ++ u2)).length = d.length + (c ++ u2).length :=
    List.length_append _ _
  have hiL : i < d.length := by
    by_contra hge
    push_neg at hge
    rw [getD_append_right _ _ _ _ hge] at hdes
    exact hrestP _ (getD_mem _ _ _ (by rw [hlen] at hi; omega)) hdes
  have hjG : d.length ≤ j := by
    by_contra hlt
    push_neg at hlt
    rw [getD_append_lt _ _ _ _ hlt] at hcre
    exact hdP _ (getD_mem _ _ _ hlt) hcre
  omega

/-- C9 witness: a backend holding a previously compiled batch receives a
new root with content; in the resulting update list the Destroy (index 0)
precedes the Create (index 1). -/
theorem destroy_before_create_witness :
    (c9Run.getD 0 dfltUpdate).op = BatchUpdateOp.Destroy ∧
    isCreateOp (c9Run.getD 1 dfltUpdate).op ∧
    (0 : Nat) < 1 :=
  ⟨by decide, by exact trivial,
    destroy_before_create c9Backend2 c9Fuel c9Sc2 ⟨0, 0, 0, 0⟩ 0 ⟨0, 0⟩
      ((c9Backend2.handleSetRoot c9Fuel c9Sc2 ⟨0, 0, 0, 0⟩ 0 ⟨0, 0⟩).getD
        (c9Backend2, ⟨[], []⟩, [])).1
      ((c9Backend2.handleSetRoot c9Fuel c9Sc2 ⟨0, 0, 0, 0⟩ 0 ⟨0, 0⟩).getD
        (c9Backend2, ⟨[], []⟩, [])).2.1
      c9Run (by rfl) rfl 0 1 (by decide) (by decide) (by decide)
      (by exact trivial)⟩


/-! ### Paint order (C1) -/

theorem keyLt_irrefl (a : DisplayItemKey) : ¬ keyLt a a := by
  unfold keyLt
  omega

theorem keyLt_trans {a b c : DisplayItemKey} (h1 : keyLt a b)
    (h2 : keyLt b c) : keyLt a c := by
  unfold keyLt at h1 h2 ⊢
  omega

theorem keyLe_refl (a : DisplayItemKey) : keyLe a a := Or.inr rfl

theorem keyLe_of_lt {a b : DisplayItemKey} (h : keyLt a b) : keyLe a b :=
  Or.inl h

theorem keyLe_lt_trans {a b c : DisplayItemKey} (h1 : keyLe a b)
    (h2 : keyLt b c) : keyLt a c := by
  rcases h1 with h1 | rfl
  · exact keyLt_trans h1 h2
  · exact h2

theorem keyLe_trans {a b c : DisplayItemKey} (h1 : keyLe a b)
    (h2 : keyLe b c) : keyLe a c := by
  rcases h2 with h2 | rfl
  · exact Or.inl (keyLe_lt_trans h1 h2)
  · exact h1

theorem pairwise_mem_cases {α : Type} {R : α → α → Prop} :
    ∀ {l : List α}, List.Pairwise R l → ∀ {a b : α}, a ∈ l → b ∈ l →
      a = b ∨ R a b ∨ R b a := by
  intro l
  induction l with
  | nil =>
    intro _ a b ha _
    exact absurd ha (List.not_mem_nil a)
  | cons x rest ih =>
    intro hp a b ha hb
    rw [List.pairwise_cons] at hp
    rw [List.mem_cons] at ha hb
    rcases ha with ha | ha
    · rcases hb with hb | hb
      · subst ha
        exact Or.inl hb.symm
      · subst ha
        exact Or.inr (Or.inl (hp.1 b hb))
    · rcases hb with hb | hb
      · subst hb
        exact Or.inr (Or.inr (hp.1 a ha))
      · exact ih hp.2 ha hb

theorem accBatchList_none (acc : FinalizeAcc)
    (h : acc.current_batch = none) : accBatchList acc = acc.batches := by
  unfold accBatchList
  rw [h]
  exact List.append_nil _

theorem accBatchList_some (acc : FinalizeAcc) (cb : RenderBatch)
    (h : acc.current_batch = some cb) :
    accBatchList acc = acc.batches ++ [cb] := by
  unfold accBatchList
  rw [h]

theorem accBatchList_flush (rt : Nat) (acc : FinalizeAcc) :
    accBatchList (flushCurrent rt acc) = accBatchList acc ∧
    (flushCurrent rt acc).current_batch = none := by
  unfold flushCurrent
  rcases h : acc.current_batch with _ | cb
  · dsimp only
    exact ⟨by rw [accBatchList_none acc h], h⟩
  · dsimp only
    constructor
    · rw [accBatchList_some acc cb h]
      unfold accBatchList
      dsimp only
      exact List.append_nil _
    · rfl

theorem flush_batches_eq (rt : Nat) (acc : FinalizeAcc) :
    (flushCurrent rt acc).batches = accBatchList acc := by
  unfold flushCurrent
  rcases h : acc.current_batch with _ | cb
  · dsimp only
    rw [accBatchList_none acc h]
  · dsimp only
    rw [accBatchList_some acc cb h]

theorem batchOrdered_of_eq (a1 a2 : FinalizeAcc)
    (h : accBatchList a2 = accBatchList a1) (ho : batchOrdered a1) :
    batchOrdered a2 := by
  unfold batchOrdered at ho ⊢
  rw [h]
  exact ho

theorem batchOrdered_push (acc2 : FinalizeAcc)
    (hb2 : acc2.current_batch = none) (hord2 : batchOrdered acc2)
    (nb : RenderBatch) (n : Nat) (sk : DisplayItemKey)
    (hnbk : nb.item_keys = [sk]) (hnbs : nb.sort_key = sk)
    (hlt : ∀ bb ∈ accBatchList acc2, ∀ k ∈ bb.item_keys, keyLe k sk) :
    batchOrdered { acc2 with current_batch := some nb, next_batch_id := n } ∧
    ∀ bb ∈ accBatchList { acc2 with current_batch := some nb, next_batch_id := n }, ∀ k ∈ bb.item_keys, keyLe k sk := by
  obtain ⟨hinv2, hpw2⟩ := hord2
  have hA : accBatchList { acc2 with current_batch := some nb, next_batch_id := n } = acc2.batches ++ [nb] := rfl
  refine ⟨⟨?_, ?_⟩, ?_⟩
  · intro bb hbb
    rw [hA, List.mem_append] at hbb
    rcases hbb with hmem | hmem
    · exact hinv2 bb (by rw [accBatchList_none acc2 hb2]; exact hmem)
    · rw [List.mem_singleton] at hmem
      subst hmem
      rw [hnbk, hnbs]
      exact ⟨List.mem_singleton.mpr rfl, by
        intro k hk
        rw [List.mem_singleton] at hk
        rw [hk]
        exact keyLe_refl sk⟩
  · rw [hA, List.pairwise_append]
    refine ⟨?_, List.pairwise_singleton _ _, ?_⟩
    · rw [accBatchList_none acc2 hb2] at hpw2
      exact hpw2
    · intro a ha bx hbx
      rw [List.mem_singleton] at hbx
      subst hbx
      intro k1 hk1 k2 hk2
      rw [hnbk, List.mem_singleton] at hk2
      rw [hk2]
      exact hlt a (by rw [accBatchList_none acc2 hb2]; exact ha) k1 hk1
  · intro bb hbb k hk
    rw [hA, List.mem_append] at hbb
    rcases hbb with hmem | hmem
    · exact hlt bb (by rw [accBatchList_none acc2 hb2]; exact hmem) k hk
    · rw [List.mem_singleton] at hmem
      subst hmem
      rw [hnbk, List.mem_singleton] at hk
      rw [hk]
      exact keyLe_refl sk

theorem batchOrdered_add (acc : FinalizeAcc) (cb : RenderBatch)
    (hacc : acc.current_batch = some cb) (hord : batchOrdered acc)
    (sk : DisplayItemKey)
    (hlt : ∀ bb ∈ accBatchList acc, ∀ k ∈ bb.item_keys, keyLe k sk)
    (cb2 : RenderBatch) (hk2 : cb2.item_keys = cb.item_keys ++ [sk])
    (hs2 : cb2.sort_key = cb.sort_key) :
    batchOrdered { acc with current_batch := some cb2 } ∧
    ∀ bb ∈ accBatchList { acc with current_batch := some cb2 },
      ∀ k ∈ bb.item_keys, keyLe k sk := by
  obtain ⟨hinv, hpw⟩ := hord
  have hO : accBatchList acc = acc.batches ++ [cb] :=
    accBatchList_some acc cb hacc
  have hA : accBatchList { acc with current_batch := some cb2 } =
      acc.batches ++ [cb2] := rfl
  rw [hO] at hinv hpw hlt
  rw [List.pairwise_append] at hpw
  obtain ⟨hpwB, _, hcross⟩ := hpw
  have hcb : cb.sort_key ∈ cb.item_keys ∧
      ∀ k ∈ cb.item_keys, keyLe cb.sort_key k :=
    hinv cb (by rw [List.mem_append, List.mem_singleton]; exact Or.inr rfl)
  have hcbmem : cb ∈ acc.batches ++ [cb] := by
    rw [List.mem_append, List.mem_singleton]
    exact Or.inr rfl
  refine ⟨⟨?_, ?_⟩, ?_⟩
  · intro bb hbb
    rw [hA, List.mem_append] at hbb
    rcases hbb with hmem | hmem
    · exact hinv bb (by rw [List.mem_append]; exact Or.inl hmem)
    · rw [List.mem_singleton] at hmem
      subst hmem
      rw [hk2, hs2]
      constructor
      · rw [List.mem_append]
        exact Or.inl hcb.1
      · intro k hkm
        rw [List.mem_append, List.mem_singleton] at hkm
        rcases hkm with hkm | hkm
        · exact hcb.2 k hkm
        · rw [hkm]
          exact hlt cb hcbmem cb.sort_key hcb.1
  · rw [hA, List.pairwise_append]
    refine ⟨hpwB, List.pairwise_singleton _ _, ?_⟩
    intro a ha bx hbx
    rw [List.mem_singleton] at hbx
    subst hbx
    intro k1 hk1 k2 hk2m
    rw [hk2, List.mem_append, List.mem_singleton] at hk2m
    rcases hk2m with hk2m | hk2m
    · exact hcross a ha cb (List.mem_singleton.mpr rfl) k1 hk1 k2 hk2m
    · rw [hk2m]
      exact hlt a (by rw [List.mem_append]; exact Or.inl ha) k1 hk1
  · intro bb hbb k hkm
    rw [hA, List.mem_append] at hbb
    rcases hbb with hmem | hmem
    · exact hlt bb (by rw [List.mem_append]; exact Or.inl hmem) k hkm
    · rw [List.mem_singleton] at hmem
      subst hmem
      rw [hk2, List.mem_append, List.mem_singleton] at hkm
      rcases hkm with hkm | hkm
      · exact hlt cb hcbmem k hkm
      · rw [hkm]
        exact keyLe_refl sk


theorem finalizeStep_ordered (b : DrawCommandBuilder) (acc : FinalizeAcc)
    (item : RenderItem)
    (hkeys : ∀ bb ∈ accBatchList acc, ∀ k ∈ bb.item_keys,
      keyLe k item.sort_key)
    (hord : batchOrdered acc) :
    batchOrdered (finalizeStep b acc item) ∧
    ∀ bb ∈ accBatchList (finalizeStep b acc item), ∀ k ∈ bb.item_keys,
      keyLe k item.sort_key := by
  rcases item with ⟨sk, iinfo⟩
  dsimp only at hkeys ⊢
  rcases iinfo with info | cinfo
  · unfold finalizeStep
    dsimp only
    by_cases hneed : (match acc.current_batch with
        | none => true
        | some cb => !(cb.can_add_to_batch info sk
            (b.programFor info.primitive))) = true
    · rw [if_pos hneed]
      refine batchOrdered_push (flushCurrent b.render_target_index acc)
        (accBatchList_flush _ acc).2
        (batchOrdered_of_eq _ _ (accBatchList_flush _ acc).1 hord)
        _ _ sk rfl rfl ?_
      rw [(accBatchList_flush b.render_target_index acc).1]
      exact hkeys
    · rw [if_neg hneed]
      rcases hacc : acc.current_batch with _ | cb
      · rw [hacc] at hneed
        dsimp only at hneed
        exact absurd rfl hneed
      · dsimp only
        exact batchOrdered_add acc cb hacc hord sk hkeys _ rfl rfl
  · unfold finalizeStep
    dsimp only
    constructor
    · refine batchOrdered_of_eq _ _ ?_ hord
      exact (accBatchList_flush b.render_target_index acc).1
    · intro bb hbb k hk
      have hbb2 : bb ∈ accBatchList
          (flushCurrent b.render_target_index acc) := hbb
      rw [(accBatchList_flush b.render_target_index acc).1] at hbb2
      exact hkeys bb hbb2 k hk

theorem finalize_fold_ordered (b : DrawCommandBuilder) :
    ∀ (l : List RenderItem) (acc : FinalizeAcc),
      List.Pairwise (fun x y => keyLe x.sort_key y.sort_key) l →
      (∀ item ∈ l, ∀ bb ∈ accBatchList acc, ∀ k ∈ bb.item_keys,
        keyLe k item.sort_key) →
      batchOrdered acc →
      batchOrdered (l.foldl (finalizeStep b) acc) := by
  intro l
  induction l with
  | nil => exact fun acc _ _ h => h
  | cons x rest ih =>
    intro acc hpw hkeys hord
    rw [List.foldl_cons]
    rw [List.pairwise_cons] at hpw
    have hstep := finalizeStep_ordered b acc x
      (hkeys x (List.mem_cons_self x rest)) hord
    refine ih _ hpw.2 ?_ hstep.1
    intro item hitem bb hbb k hk
    exact keyLe_trans (hstep.2 bb hbb k hk) (hpw.1 item hitem)

/-- C1: amended paint order.  Within one builder run of the batcher whose
render items arrive in non-decreasing `DisplayItemKey` order — which is
what the compiler's per-tile item iterator produces for a single node:
display items are visited in ascending key order, and one display item may
emit several render items sharing its key (one per glyph texture for text,
per clip region, per border or box-shadow piece) — for any render item of
A in batch bA and render item of B in batch bB with A's key strictly below
B's, bA's sort key is at most bB's.  The original equality clause fails
even within one run: a flush in the middle of a display item (a texture
switch) yields two distinct batches with equal sort keys, so equality only
guarantees that bB also holds a render item keyed strictly before B.  The
cross-tile half of the original claim is false outright: the compiler
flushes a foreign-owned item's target builder only when the two nodes'
rectangles intersect, so disjoint tiles can emit batches whose sort keys
invert the item order (see the counterexample for both failures). -/
theorem paint_order_batches (b : DrawCommandBuilder) (id0 : Nat)
    (hsorted : List.Pairwise (fun x y => keyLe x.sort_key y.sort_key)
      b.render_items) :
    ∀ bA ∈ (b.finalize id0).1.1, ∀ bB ∈ (b.finalize id0).1.1,
      ∀ kA ∈ bA.item_keys, ∀ kB ∈ bB.item_keys, keyLt kA kB →
        keyLe bA.sort_key bB.sort_key ∧
        (bA.sort_key = bB.sort_key →
          bB.sort_key ∈ bB.item_keys ∧ keyLt bB.sort_key kB) := by
  have h0 : batchOrdered ⟨none, [], [], id0⟩ := by
    constructor
    · intro bb hbb
      exact absurd hbb (by unfold accBatchList; simp)
    · exact List.Pairwise.nil
  have hfold := finalize_fold_ordered b b.render_items ⟨none, [], [], id0⟩
    hsorted (by
      intro it hit bb hbb
      exact absurd hbb (by unfold accBatchList; simp)) h0
  obtain ⟨hinv, hpw⟩ := hfold
  intro bA hA bB hB kA hkA kB hkB hlt
  rw [finalize_eq] at hA hB
  dsimp only at hA hB
  rw [flush_batches_eq] at hA hB
  rcases pairwise_mem_cases hpw hA hB with heq | hR | hR
  · subst heq
    refine ⟨keyLe_refl _, fun _ => ⟨(hinv bA hA).1, ?_⟩⟩
    exact keyLe_lt_trans ((hinv bA hA).2 kA hkA) hlt
  · have hsk : keyLe bA.sort_key bB.sort_key :=
      hR bA.sort_key (hinv bA hA).1 bB.sort_key (hinv bB hB).1
    refine ⟨hsk, fun he => ⟨(hinv bB hB).1, ?_⟩⟩
    rw [← he]
    exact keyLe_lt_trans ((hinv bA hA).2 kA hkA) hlt
  · exact ((keyLt_irrefl kB) (keyLe_lt_trans (hR kB hkB kA hkA) hlt)).elim

/-- C1 witness: the amended order at a concrete run in which display item
(0,0) splits across two batches, so the two batches' sort keys are equal
while item (0,1) sits in the second. -/
theorem paint_order_batches_witness :
    keyLe c1B2a.sort_key c1B2b.sort_key ∧
    (c1B2a.sort_key = c1B2b.sort_key →
      c1B2b.sort_key ∈ c1B2b.item_keys ∧
      keyLt c1B2b.sort_key ⟨0, 1⟩) :=
  paint_order_batches c1Builder2 0 (by decide) c1B2a (by decide) c1B2b
    (by decide) ⟨0, 0⟩ (by decide) ⟨0, 1⟩ (by decide) (by decide)

/-- C1 counterexample, refuting both halves of the claimed property.
Cross-tile, the inequality itself fails: two visible tiles with disjoint
rectangles, the right tile owning items (0,0) and (0,2), the left tile
item (0,1).  While compiling the right tile the foreign key (0,1) does not
flush (the tile rectangles do not intersect), so (0,0) and (0,2) merge
into one batch with sort key (0,0), while (0,1) compiles on the left tile
into a batch with sort key (0,1).  Both batches' commands target render
target 0's layer, item (0,1) precedes item (0,2), yet the batch containing
(0,1) has the strictly larger sort key.  Within one tile, the equality
clause fails: in a single builder run with non-decreasing keys (display
item (0,0) emitting two render items on different textures, as the
per-tile iterator produces), the mid-item texture switch flushes, giving
two distinct batches with equal sort keys, with (0,0) in the first and
(0,1) in the second — equality without A and B having been merged into
the batch containing A. -/
theorem paint_order_cross_tile_counterexample :
    let scene2 := (c1Scene.compile_visible_nodes c1Env 20 0).1
    let bA := ((scene2.aabb_tree.nodes.getD 1
      (AABBTreeNode.mkNew (Rct.mk4 0 0 0 0) 0)).compiled_node.getD
      CompiledNode.new).batches.getD 0 (RenderBatch.new 0 ⟨0, 0⟩ 0 0 0)
    let bB := ((scene2.aabb_tree.nodes.getD 2
      (AABBTreeNode.mkNew (Rct.mk4 0 0 0 0) 0)).compiled_node.getD
      CompiledNode.new).batches.getD 0 (RenderBatch.new 0 ⟨0, 0⟩ 0 0 0)
    let frame := scene2.collect_and_sort_visible_batches.2
    (keyLt ⟨0, 1⟩ ⟨0, 2⟩ ∧
    (⟨0, 1⟩ : DisplayItemKey) ∈ bA.item_keys ∧
    (⟨0, 2⟩ : DisplayItemKey) ∈ bB.item_keys ∧
    bA ≠ bB ∧
    DrawCommand.mk 0 bA.sort_key (DrawCommandInfo.Batch bA.batch_id) ∈
      (frame.layers.getD 0 ⟨none, 0, 0, []⟩).commands ∧
    DrawCommand.mk 0 bB.sort_key (DrawCommandInfo.Batch bB.batch_id) ∈
      (frame.layers.getD 0 ⟨none, 0, 0, []⟩).commands ∧
    ¬ keyLe bA.sort_key bB.sort_key) ∧
    (List.Pairwise (fun x y => keyLe x.sort_key y.sort_key)
      c1Builder2.render_items ∧
    (c1Builder2.finalize 0).1.1 = [c1B2a, c1B2b] ∧
    keyLt ⟨0, 0⟩ ⟨0, 1⟩ ∧
    (⟨0, 0⟩ : DisplayItemKey) ∈ c1B2a.item_keys ∧
    (⟨0, 1⟩ : DisplayItemKey) ∈ c1B2b.item_keys ∧
    (⟨0, 1⟩ : DisplayItemKey) ∉ c1B2a.item_keys ∧
    c1B2a.sort_key = c1B2b.sort_key ∧
    c1B2a ≠ c1B2b) := by
  decide


end WR
